import Mathlib

/-! SkSL raster-pipeline builder: instruction model and emission-time contracts

A shallow embedding of `src/sksl/codegen/SkSLRasterPipelineBuilder.h`.

* C++ `int` values are embedded as unbounded `Int`; signed overflow is undefined behaviour
  in C++ and is outside the model.
* `skia_private::TArray<Instruction>` is embedded as a `List Instruction`; `push_back`
  appends at the end.
* A Builder method is a function from the builder state to an `Outcome`: either the call
  returns (with a value and the new state) or an `SkASSERT` fails and the call aborts (the
  `Outcome` then records the builder as it was when the assertion failed).
-/

namespace SkSL.RP

/-! ## Slots -/

/-- A single scalar in the program consumes one slot (`using Slot = int`). -/
abbrev Slot := Int

/-- The "no slot" sentinel (`constexpr Slot NA = -1`). -/
def NA : Slot := -1

/-- Scalars, vectors and matrices are ranges of slot indices (`struct SlotRange`). -/
structure SlotRange where
  index : Slot
  count : Int
  deriving DecidableEq, Repr

/-! ## Operations

The native op list `SK_RASTER_PIPELINE_OPS_ALL` lives in `src/core/SkRasterPipelineOpList.h`,
which is not part of the sources at hand. A native op is therefore identified by its
enumerator name, and every integer encoding below takes the native op list (the enumerator
names in declaration order) as a parameter. -/

/-- `enum class ProgramOp`: any native op, then the extended ops of `SKRP_EXTENDED_OPS`. -/
inductive ProgramOp where
  | native (stage : String)
  | label
  | invoke_shader
  | invoke_color_filter
  | invoke_blender
  | invoke_to_linear_srgb
  | invoke_from_linear_srgb
  deriving DecidableEq, Repr

/-- `enum class BuilderOp`: any native op, the extended ops, then the Builder-specific ops. -/
inductive BuilderOp where
  | native (stage : String)
  | label
  | invoke_shader
  | invoke_color_filter
  | invoke_blender
  | invoke_to_linear_srgb
  | invoke_from_linear_srgb
  | push_constant
  | push_slots
  | push_slots_indirect
  | push_uniform
  | push_uniform_indirect
  | push_clone
  | push_clone_from_stack
  | push_clone_indirect_from_stack
  | copy_stack_to_slots
  | copy_stack_to_slots_unmasked
  | copy_stack_to_slots_indirect
  | copy_uniform_to_slots_unmasked
  | swizzle_copy_stack_to_slots
  | swizzle_copy_stack_to_slots_indirect
  | discard_stack
  | select
  | push_condition_mask
  | pop_condition_mask
  | push_loop_mask
  | pop_loop_mask
  | pop_and_reenable_loop_mask
  | push_return_mask
  | pop_return_mask
  | push_src_rgba
  | push_dst_rgba
  | push_device_xy01
  | pop_src_rg
  | pop_src_rgba
  | pop_dst_rgba
  | set_current_stack
  | trace_var_indirect
  | branch_if_no_active_lanes_on_stack_top_equal
  | unsupported
  deriving DecidableEq, Repr

/-- The expansion of `SKRP_EXTENDED_OPS(M)` inside `enum class ProgramOp`. -/
def ProgramOp.extendedOps : List ProgramOp :=
  [.label, .invoke_shader, .invoke_color_filter, .invoke_blender,
   .invoke_to_linear_srgb, .invoke_from_linear_srgb]

/-- The expansion of `SKRP_EXTENDED_OPS(M)` inside `enum class BuilderOp`. -/
def BuilderOp.extendedOps : List BuilderOp :=
  [.label, .invoke_shader, .invoke_color_filter, .invoke_blender,
   .invoke_to_linear_srgb, .invoke_from_linear_srgb]

/-- The Builder-specific enumerators, `push_constant` through `unsupported`, in
declaration order. -/
def BuilderOp.builderSpecificOps : List BuilderOp :=
  [.push_constant, .push_slots, .push_slots_indirect, .push_uniform, .push_uniform_indirect,
   .push_clone, .push_clone_from_stack, .push_clone_indirect_from_stack,
   .copy_stack_to_slots, .copy_stack_to_slots_unmasked, .copy_stack_to_slots_indirect,
   .copy_uniform_to_slots_unmasked, .swizzle_copy_stack_to_slots,
   .swizzle_copy_stack_to_slots_indirect, .discard_stack, .select,
   .push_condition_mask, .pop_condition_mask, .push_loop_mask, .pop_loop_mask,
   .pop_and_reenable_loop_mask, .push_return_mask, .pop_return_mask,
   .push_src_rgba, .push_dst_rgba, .push_device_xy01, .pop_src_rg, .pop_src_rgba,
   .pop_dst_rgba, .set_current_stack, .trace_var_indirect,
   .branch_if_no_active_lanes_on_stack_top_equal, .unsupported]

/-- The enumerator list of `enum class ProgramOp`, in declaration order, over the native op
list `nativeOps`. -/
def ProgramOp.enumerators (nativeOps : List String) : List ProgramOp :=
  nativeOps.map ProgramOp.native ++ ProgramOp.extendedOps

/-- The enumerator list of `enum class BuilderOp`, in declaration order, over the native op
list `nativeOps`. -/
def BuilderOp.enumerators (nativeOps : List String) : List BuilderOp :=
  nativeOps.map BuilderOp.native ++ BuilderOp.extendedOps ++ BuilderOp.builderSpecificOps

/-- The integer encoding `(int)ProgramOp::x`: an enumerator without an initializer has the
value of its position in the enumerator list. -/
def ProgramOp.toInt (nativeOps : List String) (op : ProgramOp) : Nat :=
  (ProgramOp.enumerators nativeOps).indexOf op

/-- The integer encoding `(int)BuilderOp::x`. -/
def BuilderOp.toInt (nativeOps : List String) (op : BuilderOp) : Nat :=
  (BuilderOp.enumerators nativeOps).indexOf op

/-- The BuilderOp enumerator that has the same name as a ProgramOp enumerator. -/
def ProgramOp.toBuilderOp : ProgramOp → BuilderOp
  | .native stage => .native stage
  | .label => .label
  | .invoke_shader => .invoke_shader
  | .invoke_color_filter => .invoke_color_filter
  | .invoke_blender => .invoke_blender
  | .invoke_to_linear_srgb => .invoke_to_linear_srgb
  | .invoke_from_linear_srgb => .invoke_from_linear_srgb

/-! ## Instructions -/

/-- Modelled from the spec: the `SkASSERT` macro (`include/private/base/SkAssert.h`) is not
among the sources at hand. Per the spec a violated precondition fails fast (abort/assert):
a false condition yields `none`, a true one lets execution continue. -/
def SkASSERT (cond : Bool) : Option Unit :=
  if cond then some () else none

/-- A single raster-pipeline SkSL instruction (`struct Instruction`). -/
structure Instruction where
  fOp : BuilderOp
  fSlotA : Slot
  fSlotB : Slot
  fImmA : Int
  fImmB : Int
  fImmC : Int
  fImmD : Int
  deriving DecidableEq, Repr

/-- The constructor `Instruction(op, slots, a = 0, b = 0, c = 0, d = 0)`.
`slots` is the initializer list; `imms` holds the immediates the caller supplies, in
order (`a`, then `b`, ...): a parameter that is not supplied takes its default `0`.
The iterator walks the slot list: the first two elements go to `fSlotA`, `fSlotB` (whose
member initializer is `NA`), and `SkASSERT(iter == slots.end())` must hold afterwards. -/
def Instruction.ctor (op : BuilderOp) (slots : List Slot) (imms : List Int) :
    Option Instruction :=
  let iter := slots
  let (fSlotA, iter) := match iter with
    | x :: rest => (x, rest)
    | [] => (NA, [])
  let (fSlotB, iter) := match iter with
    | x :: rest => (x, rest)
    | [] => (NA, [])
  (SkASSERT iter.isEmpty).map fun _ =>
    { fOp := op, fSlotA := fSlotA, fSlotB := fSlotB,
      fImmA := imms.getD 0 0, fImmB := imms.getD 1 0,
      fImmC := imms.getD 2 0, fImmD := imms.getD 3 0 }

/-! ## Builder -/

/-- The data members of `class Builder`. -/
structure Builder where
  fInstructions : List Instruction
  fNumLabels : Int
  fExecutionMaskWritesEnabled : Int
  deriving DecidableEq, Repr

/-- A default-constructed Builder: no instructions, `fNumLabels = 0`,
`fExecutionMaskWritesEnabled = 0`. -/
def Builder.fresh : Builder :=
  { fInstructions := [], fNumLabels := 0, fExecutionMaskWritesEnabled := 0 }

/-- How a Builder call ends: it returns `value` and leaves the builder in state `builder`,
or an assertion fails and the call aborts with the builder in state `builder`. -/
inductive Outcome (α : Type) where
  | returned (value : α) (builder : Builder)
  | aborted (builder : Builder)
  deriving DecidableEq, Repr

/-- A Builder method with result type `α`. -/
def BuilderM (α : Type) : Type := Builder → Outcome α

/-- Sequencing of Builder calls: an abort ends the sequence. -/
def BuilderM.bind {α β : Type} (m : BuilderM α) (f : α → BuilderM β) : BuilderM β :=
  fun b => match m b with
    | .returned v b1 => f v b1
    | .aborted b1 => .aborted b1

instance : Monad BuilderM where
  pure v := fun b => .returned v b
  bind := BuilderM.bind

/-- An `SkASSERT` inside a Builder method. -/
def Builder.assert (cond : Bool) : BuilderM Unit :=
  fun b => match SkASSERT cond with
    | some _ => .returned () b
    | none => .aborted b

/-- The statement `fInstructions.push_back({op, {slots...}, imms...})`: constructs the
Instruction, then appends it. -/
def Builder.push_back (op : BuilderOp) (slots : List Slot) (imms : List Int) :
    BuilderM Unit :=
  fun b => match Instruction.ctor op slots imms with
    | some instr => .returned () { b with fInstructions := b.fInstructions ++ [instr] }
    | none => .aborted b

namespace Builder

/-- `int nextLabelID() { return fNumLabels++; }`. -/
def nextLabelID : BuilderM Int :=
  fun b => .returned b.fNumLabels { b with fNumLabels := b.fNumLabels + 1 }

/-- `void enableExecutionMaskWrites() { ++fExecutionMaskWritesEnabled; }`. -/
def enableExecutionMaskWrites : BuilderM Unit :=
  fun b => .returned ()
    { b with fExecutionMaskWritesEnabled := b.fExecutionMaskWritesEnabled + 1 }

/-- `bool executionMaskWritesAreEnabled() { return fExecutionMaskWritesEnabled > 0; }`. -/
def executionMaskWritesAreEnabled : BuilderM Bool :=
  fun b => .returned (decide (b.fExecutionMaskWritesEnabled > 0)) b

/-- `disableExecutionMaskWrites`: asserts that writes are enabled, then decrements. -/
def disableExecutionMaskWrites : BuilderM Unit := do
  Builder.assert (← executionMaskWritesAreEnabled)
  fun b => .returned ()
    { b with fExecutionMaskWritesEnabled := b.fExecutionMaskWritesEnabled - 1 }

/-! ### Inline emitters, in the order of the header -/

/-- `init_lane_masks()`: appends `{BuilderOp::init_lane_masks, {}}`. -/
def init_lane_masks : BuilderM Unit :=
  Builder.push_back (.native "init_lane_masks") [] []

/-- `store_src_rg(slots)`: asserts `slots.count == 2`, then appends
`{BuilderOp::store_src_rg, {slots.index}}`. -/
def store_src_rg (slots : SlotRange) : BuilderM Unit := do
  Builder.assert (slots.count == 2)
  Builder.push_back (.native "store_src_rg") [slots.index] []

/-- `store_src(slots)`: asserts `slots.count == 4`, then appends
`{BuilderOp::store_src, {slots.index}}`. -/
def store_src (slots : SlotRange) : BuilderM Unit := do
  Builder.assert (slots.count == 4)
  Builder.push_back (.native "store_src") [slots.index] []

/-- `store_dst(slots)`: asserts `slots.count == 4`, then appends
`{BuilderOp::store_dst, {slots.index}}`. -/
def store_dst (slots : SlotRange) : BuilderM Unit := do
  Builder.assert (slots.count == 4)
  Builder.push_back (.native "store_dst") [slots.index] []

/-- `store_device_xy01(slots)`: asserts `slots.count == 4`, then appends
`{BuilderOp::store_device_xy01, {slots.index}}`. -/
def store_device_xy01 (slots : SlotRange) : BuilderM Unit := do
  Builder.assert (slots.count == 4)
  Builder.push_back (.native "store_device_xy01") [slots.index] []

/-- `load_src(slots)`: asserts `slots.count == 4`, then appends
`{BuilderOp::load_src, {slots.index}}`. -/
def load_src (slots : SlotRange) : BuilderM Unit := do
  Builder.assert (slots.count == 4)
  Builder.push_back (.native "load_src") [slots.index] []

/-- `load_dst(slots)`: asserts `slots.count == 4`, then appends
`{BuilderOp::load_dst, {slots.index}}`. -/
def load_dst (slots : SlotRange) : BuilderM Unit := do
  Builder.assert (slots.count == 4)
  Builder.push_back (.native "load_dst") [slots.index] []

/-- `set_current_stack(stackIdx)`: appends `{BuilderOp::set_current_stack, {}, stackIdx}`. -/
def set_current_stack (stackIdx : Int) : BuilderM Unit :=
  Builder.push_back .set_current_stack [] [stackIdx]

/-- `case_op(value)`: appends `{BuilderOp::case_op, {}, value}`. -/
def case_op (value : Int) : BuilderM Unit :=
  Builder.push_back (.native "case_op") [] [value]

/-- `select(slots)`: asserts `slots > 0`, then appends `{BuilderOp::select, {}, slots}`. -/
def select (slots : Int) : BuilderM Unit := do
  Builder.assert (decide (slots > 0))
  Builder.push_back .select [] [slots]

/-- `copy_slots_masked(dst, src)`: asserts `dst.count == src.count`, then appends
`{BuilderOp::copy_slot_masked, {dst.index, src.index}, dst.count}`. -/
def copy_slots_masked (dst src : SlotRange) : BuilderM Unit := do
  Builder.assert (dst.count == src.count)
  Builder.push_back (.native "copy_slot_masked") [dst.index, src.index] [dst.count]

/-- `push_condition_mask()`: asserts that execution-mask writes are enabled, then appends
`{BuilderOp::push_condition_mask, {}}`. -/
def push_condition_mask : BuilderM Unit := do
  Builder.assert (← executionMaskWritesAreEnabled)
  Builder.push_back .push_condition_mask [] []

/-- `pop_condition_mask()`: asserts that execution-mask writes are enabled, then appends
`{BuilderOp::pop_condition_mask, {}}`. -/
def pop_condition_mask : BuilderM Unit := do
  Builder.assert (← executionMaskWritesAreEnabled)
  Builder.push_back .pop_condition_mask [] []

/-- `merge_condition_mask()`: asserts that execution-mask writes are enabled, then appends
`{BuilderOp::merge_condition_mask, {}}`. -/
def merge_condition_mask : BuilderM Unit := do
  Builder.assert (← executionMaskWritesAreEnabled)
  Builder.push_back (.native "merge_condition_mask") [] []

/-- `push_loop_mask()`: asserts that execution-mask writes are enabled, then appends
`{BuilderOp::push_loop_mask, {}}`. -/
def push_loop_mask : BuilderM Unit := do
  Builder.assert (← executionMaskWritesAreEnabled)
  Builder.push_back .push_loop_mask [] []

/-- `pop_loop_mask()`: asserts that execution-mask writes are enabled, then appends
`{BuilderOp::pop_loop_mask, {}}`. -/
def pop_loop_mask : BuilderM Unit := do
  Builder.assert (← executionMaskWritesAreEnabled)
  Builder.push_back .pop_loop_mask [] []

/-- `push_src_rgba()`: appends `{BuilderOp::push_src_rgba, {}}`. -/
def push_src_rgba : BuilderM Unit :=
  Builder.push_back .push_src_rgba [] []

/-- `push_dst_rgba()`: appends `{BuilderOp::push_dst_rgba, {}}`. -/
def push_dst_rgba : BuilderM Unit :=
  Builder.push_back .push_dst_rgba [] []

/-- `push_device_xy01()`: appends `{BuilderOp::push_device_xy01, {}}`. -/
def push_device_xy01 : BuilderM Unit :=
  Builder.push_back .push_device_xy01 [] []

/-- `pop_src_rg()`: appends `{BuilderOp::pop_src_rg, {}}`. -/
def pop_src_rg : BuilderM Unit :=
  Builder.push_back .pop_src_rg [] []

/-- `pop_src_rgba()`: appends `{BuilderOp::pop_src_rgba, {}}`. -/
def pop_src_rgba : BuilderM Unit :=
  Builder.push_back .pop_src_rgba [] []

/-- `pop_dst_rgba()`: appends `{BuilderOp::pop_dst_rgba, {}}`. -/
def pop_dst_rgba : BuilderM Unit :=
  Builder.push_back .pop_dst_rgba [] []

/-- `mask_off_loop_mask()`: asserts that execution-mask writes are enabled, then appends
`{BuilderOp::mask_off_loop_mask, {}}`. -/
def mask_off_loop_mask : BuilderM Unit := do
  Builder.assert (← executionMaskWritesAreEnabled)
  Builder.push_back (.native "mask_off_loop_mask") [] []

/-- `reenable_loop_mask(src)`: asserts that execution-mask writes are enabled, asserts
`src.count == 1`, then appends `{BuilderOp::reenable_loop_mask, {src.index}}`. -/
def reenable_loop_mask (src : SlotRange) : BuilderM Unit := do
  Builder.assert (← executionMaskWritesAreEnabled)
  Builder.assert (src.count == 1)
  Builder.push_back (.native "reenable_loop_mask") [src.index] []

/-- `pop_and_reenable_loop_mask()`: asserts that execution-mask writes are enabled, then appends
`{BuilderOp::pop_and_reenable_loop_mask, {}}`. -/
def pop_and_reenable_loop_mask : BuilderM Unit := do
  Builder.assert (← executionMaskWritesAreEnabled)
  Builder.push_back .pop_and_reenable_loop_mask [] []

/-- `merge_loop_mask()`: asserts that execution-mask writes are enabled, then appends
`{BuilderOp::merge_loop_mask, {}}`. -/
def merge_loop_mask : BuilderM Unit := do
  Builder.assert (← executionMaskWritesAreEnabled)
  Builder.push_back (.native "merge_loop_mask") [] []

/-- `push_return_mask()`: asserts that execution-mask writes are enabled, then appends
`{BuilderOp::push_return_mask, {}}`. -/
def push_return_mask : BuilderM Unit := do
  Builder.assert (← executionMaskWritesAreEnabled)
  Builder.push_back .push_return_mask [] []

/-- `mask_off_return_mask()`: asserts that execution-mask writes are enabled, then appends
`{BuilderOp::mask_off_return_mask, {}}`. -/
def mask_off_return_mask : BuilderM Unit := do
  Builder.assert (← executionMaskWritesAreEnabled)
  Builder.push_back (.native "mask_off_return_mask") [] []

/-- `invoke_shader(childIdx)`: appends `{BuilderOp::invoke_shader, {}, childIdx}`. -/
def invoke_shader (childIdx : Int) : BuilderM Unit :=
  Builder.push_back .invoke_shader [] [childIdx]

/-- `invoke_color_filter(childIdx)`: appends `{BuilderOp::invoke_color_filter, {}, childIdx}`. -/
def invoke_color_filter (childIdx : Int) : BuilderM Unit :=
  Builder.push_back .invoke_color_filter [] [childIdx]

/-- `invoke_blender(childIdx)`: appends `{BuilderOp::invoke_blender, {}, childIdx}`. -/
def invoke_blender (childIdx : Int) : BuilderM Unit :=
  Builder.push_back .invoke_blender [] [childIdx]

/-- `invoke_to_linear_srgb()`: appends `{BuilderOp::invoke_to_linear_srgb, {}}`. -/
def invoke_to_linear_srgb : BuilderM Unit :=
  Builder.push_back .invoke_to_linear_srgb [] []

/-- `invoke_from_linear_srgb()`: appends `{BuilderOp::invoke_from_linear_srgb, {}}`. -/
def invoke_from_linear_srgb : BuilderM Unit :=
  Builder.push_back .invoke_from_linear_srgb [] []

/-- `trace_line(traceMaskStackID, line)`: appends `{BuilderOp::trace_line, {}, traceMaskStackID, line}`. -/
def trace_line (traceMaskStackID line : Int) : BuilderM Unit :=
  Builder.push_back (.native "trace_line") [] [traceMaskStackID, line]

/-- `trace_var(traceMaskStackID, r)`: appends
`{BuilderOp::trace_var, {r.index}, traceMaskStackID, r.count}`. -/
def trace_var (traceMaskStackID : Int) (r : SlotRange) : BuilderM Unit :=
  Builder.push_back (.native "trace_var") [r.index] [traceMaskStackID, r.count]

/-- `trace_enter(traceMaskStackID, funcID)`: appends `{BuilderOp::trace_enter, {}, traceMaskStackID, funcID}`. -/
def trace_enter (traceMaskStackID funcID : Int) : BuilderM Unit :=
  Builder.push_back (.native "trace_enter") [] [traceMaskStackID, funcID]

/-- `trace_exit(traceMaskStackID, funcID)`: appends `{BuilderOp::trace_exit, {}, traceMaskStackID, funcID}`. -/
def trace_exit (traceMaskStackID funcID : Int) : BuilderM Unit :=
  Builder.push_back (.native "trace_exit") [] [traceMaskStackID, funcID]

/-- `trace_scope(traceMaskStackID, delta)`: appends `{BuilderOp::trace_scope, {}, traceMaskStackID, delta}`. -/
def trace_scope (traceMaskStackID delta : Int) : BuilderM Unit :=
  Builder.push_back (.native "trace_scope") [] [traceMaskStackID, delta]

end Builder

/-! ## Call sequences

The inline Builder methods whose bodies are given in the header, as a datatype of calls, so
that statements can range over arbitrary sequences of calls on a Builder. -/

/-- What a Builder call hands back to its caller. -/
inductive Value where
  | unit
  | int (i : Int)
  | bool (v : Bool)
  deriving DecidableEq, Repr

/-- One call of an inline Builder method, with its arguments. -/
inductive Call where
  | nextLabelID
  | enableExecutionMaskWrites
  | disableExecutionMaskWrites
  | executionMaskWritesAreEnabled
  | init_lane_masks
  | store_src_rg (slots : SlotRange)
  | store_src (slots : SlotRange)
  | store_dst (slots : SlotRange)
  | store_device_xy01 (slots : SlotRange)
  | load_src (slots : SlotRange)
  | load_dst (slots : SlotRange)
  | set_current_stack (stackIdx : Int)
  | case_op (value : Int)
  | select (slots : Int)
  | copy_slots_masked (dst : SlotRange) (src : SlotRange)
  | push_condition_mask
  | pop_condition_mask
  | merge_condition_mask
  | push_loop_mask
  | pop_loop_mask
  | push_src_rgba
  | push_dst_rgba
  | push_device_xy01
  | pop_src_rg
  | pop_src_rgba
  | pop_dst_rgba
  | mask_off_loop_mask
  | reenable_loop_mask (src : SlotRange)
  | pop_and_reenable_loop_mask
  | merge_loop_mask
  | push_return_mask
  | mask_off_return_mask
  | invoke_shader (childIdx : Int)
  | invoke_color_filter (childIdx : Int)
  | invoke_blender (childIdx : Int)
  | invoke_to_linear_srgb
  | invoke_from_linear_srgb
  | trace_line (traceMaskStackID : Int) (line : Int)
  | trace_var (traceMaskStackID : Int) (r : SlotRange)
  | trace_enter (traceMaskStackID : Int) (funcID : Int)
  | trace_exit (traceMaskStackID : Int) (funcID : Int)
  | trace_scope (traceMaskStackID : Int) (delta : Int)
  deriving DecidableEq, Repr

/-- Performs one call on the builder. -/
def Call.exec : Call → BuilderM Value
  | .nextLabelID => do pure (.int (← Builder.nextLabelID))
  | .enableExecutionMaskWrites => do Builder.enableExecutionMaskWrites; pure .unit
  | .disableExecutionMaskWrites => do Builder.disableExecutionMaskWrites; pure .unit
  | .executionMaskWritesAreEnabled => do pure (.bool (← Builder.executionMaskWritesAreEnabled))
  | .init_lane_masks => do Builder.init_lane_masks; pure .unit
  | .store_src_rg slots => do Builder.store_src_rg slots; pure .unit
  | .store_src slots => do Builder.store_src slots; pure .unit
  | .store_dst slots => do Builder.store_dst slots; pure .unit
  | .store_device_xy01 slots => do Builder.store_device_xy01 slots; pure .unit
  | .load_src slots => do Builder.load_src slots; pure .unit
  | .load_dst slots => do Builder.load_dst slots; pure .unit
  | .set_current_stack stackIdx => do Builder.set_current_stack stackIdx; pure .unit
  | .case_op value => do Builder.case_op value; pure .unit
  | .select slots => do Builder.select slots; pure .unit
  | .copy_slots_masked dst src => do Builder.copy_slots_masked dst src; pure .unit
  | .push_condition_mask => do Builder.push_condition_mask; pure .unit
  | .pop_condition_mask => do Builder.pop_condition_mask; pure .unit
  | .merge_condition_mask => do Builder.merge_condition_mask; pure .unit
  | .push_loop_mask => do Builder.push_loop_mask; pure .unit
  | .pop_loop_mask => do Builder.pop_loop_mask; pure .unit
  | .push_src_rgba => do Builder.push_src_rgba; pure .unit
  | .push_dst_rgba => do Builder.push_dst_rgba; pure .unit
  | .push_device_xy01 => do Builder.push_device_xy01; pure .unit
  | .pop_src_rg => do Builder.pop_src_rg; pure .unit
  | .pop_src_rgba => do Builder.pop_src_rgba; pure .unit
  | .pop_dst_rgba => do Builder.pop_dst_rgba; pure .unit
  | .mask_off_loop_mask => do Builder.mask_off_loop_mask; pure .unit
  | .reenable_loop_mask src => do Builder.reenable_loop_mask src; pure .unit
  | .pop_and_reenable_loop_mask => do Builder.pop_and_reenable_loop_mask; pure .unit
  | .merge_loop_mask => do Builder.merge_loop_mask; pure .unit
  | .push_return_mask => do Builder.push_return_mask; pure .unit
  | .mask_off_return_mask => do Builder.mask_off_return_mask; pure .unit
  | .invoke_shader childIdx => do Builder.invoke_shader childIdx; pure .unit
  | .invoke_color_filter childIdx => do Builder.invoke_color_filter childIdx; pure .unit
  | .invoke_blender childIdx => do Builder.invoke_blender childIdx; pure .unit
  | .invoke_to_linear_srgb => do Builder.invoke_to_linear_srgb; pure .unit
  | .invoke_from_linear_srgb => do Builder.invoke_from_linear_srgb; pure .unit
  | .trace_line traceMaskStackID line => do Builder.trace_line traceMaskStackID line; pure .unit
  | .trace_var traceMaskStackID r => do Builder.trace_var traceMaskStackID r; pure .unit
  | .trace_enter traceMaskStackID funcID => do Builder.trace_enter traceMaskStackID funcID; pure .unit
  | .trace_exit traceMaskStackID funcID => do Builder.trace_exit traceMaskStackID funcID; pure .unit
  | .trace_scope traceMaskStackID delta => do Builder.trace_scope traceMaskStackID delta; pure .unit

/-- Performs a sequence of calls in order, collecting what each call returns; the first
failing assertion aborts the whole sequence. -/
def Call.execAll : List Call → BuilderM (List Value)
  | [] => pure []
  | c :: cs => do
    let v ← c.exec
    let vs ← Call.execAll cs
    pure (v :: vs)

/-- The label IDs among the values returned by a sequence of calls, in order. -/
def Value.labelIDs : List Value → List Int
  | [] => []
  | .int i :: vs => i :: Value.labelIDs vs
  | _ :: vs => Value.labelIDs vs

/-! ## Contracts -/

/-- The builder `b` with `instr` appended to its instruction list and nothing else
changed. -/
def Builder.appended (b : Builder) (instr : Instruction) : Builder :=
  { b with fInstructions := b.fInstructions ++ [instr] }

/-- The contract of a guarded emitter at state `b`: the call aborts exactly when `violated`
holds, an abort leaves the builder as it was (nothing appended), and otherwise the call
returns having appended exactly the instruction `instr`. -/
def PreconditionContract (call : BuilderM Unit) (b : Builder) (violated : Prop)
    (instr : Instruction) : Prop :=
  ((∃ b1, call b = .aborted b1) ↔ violated) ∧
  (violated → call b = .aborted b) ∧
  (¬ violated → call b = .returned () (b.appended instr))

/-- The number of instructions with op `op` in an instruction list. -/
def countOp (op : BuilderOp) (instrs : List Instruction) : Nat :=
  (instrs.filter fun i => i.fOp == op).length

/-! ## Lowering: arity specialization

`class Program` only declares `appendCopy`, `appendAdjacentNWayBinaryOp`,
`appendAdjacentMultiSlotBinaryOp`, `appendAdjacentNWayTernaryOp` and
`appendAdjacentMultiSlotTernaryOp`; their bodies are not in the header. The definitions
below follow the spec's arity-specialization policy and the header's comments on these
declarations. A stage's op is carried as its integer encoding `(int)ProgramOp::x`, since
the policy selects an op by its offset from the family's base in the op table. -/

/-- Modelled from the spec: what the `void* ctx` of a lowered `Program::Stage` points to
(the lowering code that fills it in is missing). A dedicated stage is handed its operand
pointers directly (`ptr` for adjacent operands, which follow the destination in memory;
`pair` for a copy); a generic N-way stage gets an allocated context carrying the dst/src
pointers (`binaryOpCtx`, `ternaryOpCtx`) and, for a copy, the explicit count (`copyCtx`). -/
inductive StageCtx where
  | ptr (dst : Int)
  | pair (dst src : Int)
  | binaryOpCtx (dst src : Int)
  | ternaryOpCtx (dst src0 src1 : Int)
  | copyCtx (dst src : Int) (count : Int)
  deriving DecidableEq, Repr

/-- `struct Program::Stage { ProgramOp op; void* ctx; }`, with the op as its integer
encoding. -/
structure Stage where
  op : Int
  ctx : StageCtx
  deriving DecidableEq, Repr

namespace Program

/-- Modelled from the spec: the body of `Program::appendCopy` is missing. Per the spec a
copy family is a generic N-way stage `baseStage` followed in the op table by its 1-, 2-,
3- and 4-slot stages; lowering takes the dedicated stage for counts 1 to 4 and falls back
to the generic stage, with an allocated context carrying the pointer pair and the count,
only for counts above 4. A count below 1 copies nothing and appends no stage. -/
def appendCopy (pipeline : List Stage) (baseStage : Int) (dst src : Int)
    (numSlots : Int) : List Stage :=
  if numSlots > 4 then
    pipeline ++ [⟨baseStage, .copyCtx dst src numSlots⟩]
  else if numSlots > 0 then
    pipeline ++ [⟨baseStage + numSlots, .pair dst src⟩]
  else
    pipeline

/-- Modelled from the spec: the body of `Program::appendAdjacentNWayBinaryOp` is missing.
Per the header comment, `stage` is an unbounded "apply_to_n_slots" stage and a
BinaryOpCtx passes the pointers to the destination and the source. -/
def appendAdjacentNWayBinaryOp (pipeline : List Stage) (stage : Int) (dst src : Int)
    (_numSlots : Int) : List Stage :=
  pipeline ++ [⟨stage, .binaryOpCtx dst src⟩]

/-- Modelled from the spec: the body of `Program::appendAdjacentMultiSlotBinaryOp` is
missing. Per the header comment `baseStage` is the unbounded stage, immediately followed by
its specializations for 1 to 4 slots, and the op is picked based on `numSlots`; per the
spec the dedicated stage is taken for counts 1 to 4 and the N-way stage only for counts
above 4. A count below 1 appends no stage. -/
def appendAdjacentMultiSlotBinaryOp (pipeline : List Stage) (baseStage : Int)
    (dst src : Int) (numSlots : Int) : List Stage :=
  if numSlots > 4 then
    appendAdjacentNWayBinaryOp pipeline baseStage dst src numSlots
  else if numSlots > 0 then
    pipeline ++ [⟨baseStage + numSlots, .ptr dst⟩]
  else
    pipeline

/-- Modelled from the spec: the body of `Program::appendAdjacentNWayTernaryOp` is missing.
Per the header comment a TernaryOpCtx passes the pointers to the destination and the two
sources. -/
def appendAdjacentNWayTernaryOp (pipeline : List Stage) (stage : Int) (dst src0 src1 : Int)
    (_numSlots : Int) : List Stage :=
  pipeline ++ [⟨stage, .ternaryOpCtx dst src0 src1⟩]

/-- Modelled from the spec: the body of `Program::appendAdjacentMultiSlotTernaryOp` is
missing. Same policy as the binary form: the dedicated stage at offset `numSlots` from the
base for counts 1 to 4, the N-way stage only for counts above 4. -/
def appendAdjacentMultiSlotTernaryOp (pipeline : List Stage) (stage : Int)
    (dst src0 src1 : Int) (numSlots : Int) : List Stage :=
  if numSlots > 4 then
    appendAdjacentNWayTernaryOp pipeline stage dst src0 src1 numSlots
  else if numSlots > 0 then
    pipeline ++ [⟨stage + numSlots, .ptr dst⟩]
  else
    pipeline

end Program

/-- The builder state a call leaves behind, whether it returned or aborted. -/
def Outcome.builder {α : Type} : Outcome α → Builder
  | .returned _ b => b
  | .aborted b => b

/-! ## Emitters that forward to out-of-line methods

`pop_slots_indirect`, the one-argument forms of `copy_stack_to_slots` and
`copy_stack_to_slots_unmasked`, and the typed constant pushes are defined in the header,
but the methods they call (`copy_stack_to_slots_indirect`, `discard_stack`, the
two-argument forms, `push_constant_i`) are only declared there. The callee is a parameter
of each definition. -/

/-- `pop_slots_indirect(fixedRange, dynamicStackID, limitRange)`: calls
`copy_stack_to_slots_indirect(fixedRange, dynamicStackID, limitRange)` and then
`discard_stack(fixedRange.count)`. -/
def Builder.pop_slots_indirect
    (copy_stack_to_slots_indirect : SlotRange → Int → SlotRange → BuilderM Unit)
    (discard_stack : Int → BuilderM Unit)
    (fixedRange : SlotRange) (dynamicStackID : Int) (limitRange : SlotRange) :
    BuilderM Unit := do
  copy_stack_to_slots_indirect fixedRange dynamicStackID limitRange
  discard_stack fixedRange.count

/-- The spec's wording of `pop_slots_indirect`, step by step: first the copy with the same
three arguments; if it returns, the discard of `fixedRange.count` slots from the state the
copy left; an abort of the copy is an abort of the whole. -/
def pop_slots_indirect_spec
    (copy_stack_to_slots_indirect : SlotRange → Int → SlotRange → BuilderM Unit)
    (discard_stack : Int → BuilderM Unit)
    (fixedRange : SlotRange) (dynamicStackID : Int) (limitRange : SlotRange) :
    BuilderM Unit :=
  fun b => match copy_stack_to_slots_indirect fixedRange dynamicStackID limitRange b with
    | .returned _ b1 => discard_stack fixedRange.count b1
    | .aborted b1 => .aborted b1

/-- Modelled from the spec: the two-argument forms `copy_stack_to_slots(dst,
offsetFromStackTop)` and `copy_stack_to_slots_unmasked(dst, offsetFromStackTop)` are only
declared in the header, so what they read from the temp stack is not at hand. By the name
of their parameter and the spec's "consume from the top", they read the `dst.count` slots
of the current temp stack that start `offsetFromStackTop` slots below its top. The stack is
the list of its scalar slots, the top last; a call that asks for slots the stack does not
have reads nothing. -/
def stackSource {V : Type} (stack : List V) (dst : SlotRange) (offsetFromStackTop : Int) :
    Option (List V) :=
  if 0 ≤ dst.count ∧ dst.count ≤ offsetFromStackTop ∧ offsetFromStackTop ≤ stack.length then
    some ((stack.drop (stack.length - offsetFromStackTop.toNat)).take dst.count.toNat)
  else none

/-- `copy_stack_to_slots(dst)`: calls the two-argument form
`copy_stack_to_slots(dst, offsetFromStackTop)` with `offsetFromStackTop = dst.count`. The
two-argument form is a parameter, and `R` is what a call of it stands for: a builder action
`BuilderM Unit`, or the slots that the call reads from a stack. -/
def Builder.copy_stack_to_slots {R : Type} (withOffset : SlotRange → Int → R)
    (dst : SlotRange) : R :=
  withOffset dst dst.count

/-- `copy_stack_to_slots_unmasked(dst)`: calls the two-argument form
`copy_stack_to_slots_unmasked(dst, offsetFromStackTop)` with
`offsetFromStackTop = dst.count`. The two-argument form is a parameter, as for
`copy_stack_to_slots`. -/
def Builder.copy_stack_to_slots_unmasked {R : Type} (withOffset : SlotRange → Int → R)
    (dst : SlotRange) : R :=
  withOffset dst dst.count

/-- `push_zeros(count)`: calls `push_constant_i(0, count)`; `push_constant_i` is defined
out of line and is a parameter here. -/
def Builder.push_zeros (push_constant_i : Int → Int → BuilderM Unit) (count : Int) :
    BuilderM Unit :=
  push_constant_i 0 count

/-- `push_constant_f(val)`: calls `push_constant_i(sk_bit_cast<int32_t>(val), 1)`. The
bit cast (`src/base/SkUtils.h`) and the out-of-line `push_constant_i` are parameters. -/
def Builder.push_constant_f {F : Type} (sk_bit_cast : F → Int)
    (push_constant_i : Int → Int → BuilderM Unit) (val : F) : BuilderM Unit :=
  push_constant_i (sk_bit_cast val) 1

/-- `push_constant_u(val)`: calls `push_constant_i(sk_bit_cast<int32_t>(val), 1)`. The
bit cast and the out-of-line `push_constant_i` are parameters. -/
def Builder.push_constant_u {U : Type} (sk_bit_cast : U → Int)
    (push_constant_i : Int → Int → BuilderM Unit) (val : U) : BuilderM Unit :=
  push_constant_i (sk_bit_cast val) 1

/-- No instruction of the builder has op `unsupported`. -/
def Builder.Supported (b : Builder) : Prop :=
  ∀ instr ∈ b.fInstructions, instr.fOp ≠ .unsupported

/-- A Builder method never leaves an `unsupported` instruction behind: from a builder
without one it ends, returning or aborting, in a builder without one. -/
def KeepsSupported {α : Type} (m : BuilderM α) : Prop :=
  ∀ b : Builder, b.Supported → (m b).builder.Supported

/-! ## Appending a program to a pipeline

`Program::appendStages` and `Program::makeStages` are only declared in the header. The
`Callbacks` interface is declared there in full. -/

/-- `class Callbacks`: the three child-effect hooks return success or failure. (The two
linearization hooks `toLinearSrgb` and `fromLinearSrgb` return nothing; their call is
recorded in the pipeline below.) -/
structure Callbacks where
  appendShader : Int → Bool
  appendColorFilter : Int → Bool
  appendBlender : Int → Bool

/-- Modelled from the spec: what `Program::appendStages` (body missing) leaves in the
pipeline, in order: the native stages of lowered instructions, and a record of each
child-effect or linearization hook that was invoked through the Callbacks. -/
inductive PipelineItem where
  | stage (s : Stage)
  | shader (index : Int)
  | colorFilter (index : Int)
  | blender (index : Int)
  | toLinearSrgb
  | fromLinearSrgb
  deriving DecidableEq, Repr

namespace Program

/-- Modelled from the spec: the part of the missing `Program::appendStages` that decides
success. An `invoke_shader`, `invoke_color_filter` or `invoke_blender` instruction (child
index in `fImmA`, as the Builder emits it) is passed to the matching Callbacks hook, which
returns success or failure; every other instruction cannot fail. -/
def childEffectResolved (callbacks : Callbacks) (instr : Instruction) : Bool :=
  match instr.fOp with
  | .invoke_shader => callbacks.appendShader instr.fImmA
  | .invoke_color_filter => callbacks.appendColorFilter instr.fImmA
  | .invoke_blender => callbacks.appendBlender instr.fImmA
  | _ => true

/-- Modelled from the spec: what one instruction contributes to the pipeline in the missing
`Program::appendStages`. The extended ops have no native lowering: the invoke ops and the
two linearization ops go to the Callbacks, `label` emits no native stage. Every other
instruction contributes the native stages `lower` gives for it (`lower` stands for the
missing `makeStages`). -/
def stageItems (lower : Instruction → List Stage) (instr : Instruction) :
    List PipelineItem :=
  match instr.fOp with
  | .invoke_shader => [.shader instr.fImmA]
  | .invoke_color_filter => [.colorFilter instr.fImmA]
  | .invoke_blender => [.blender instr.fImmA]
  | .invoke_to_linear_srgb => [.toLinearSrgb]
  | .invoke_from_linear_srgb => [.fromLinearSrgb]
  | .label => []
  | _ => (lower instr).map .stage

/-- Modelled from the spec: the body of `Program::appendStages` is missing. Per the spec it
goes through the program in order and appends to the pipeline; a child-effect invocation
whose Callbacks hook reports failure makes it return false at once, leaving the remaining
instructions unprocessed; otherwise it returns true. The result is the returned flag and
the pipeline as it then stands. -/
def appendStages (lower : Instruction → List Stage) (callbacks : Callbacks) :
    List Instruction → List PipelineItem → Bool × List PipelineItem
  | [], pipeline => (true, pipeline)
  | instr :: rest, pipeline =>
    if childEffectResolved callbacks instr then
      appendStages lower callbacks rest (pipeline ++ stageItems lower instr)
    else
      (false, pipeline)

end Program

/-! ## Stack depth analysis

`Program::tempStackMaxDepths` is only declared in the header, and so are the Builder
methods that emit stack pushes, labels and branches, so neither the analysis nor the
encoding of those instructions is at hand. The analysis below follows the spec: it
accounts for every control path through labels and branches and reports, per temp stack,
the largest depth met. -/

namespace Program

end Program

/-- Modelled from the spec: `sk_bit_cast<int32_t>` of a `uint32_t` (`src/base/SkUtils.h` is
missing). A bit cast keeps the 32 bits of the value (taken modulo 2^32); read as a
two's-complement `int32_t` they denote the value itself below 2^31 and the value minus
2^32 from 2^31 on. -/
def sk_bit_cast_int32 (val : Nat) : Int :=
  if val % 2 ^ 32 < 2 ^ 31 then ((val % 2 ^ 32 : Nat) : Int)
  else ((val % 2 ^ 32 : Nat) : Int) - 2 ^ 32

end SkSL.RP

/-! # Shader text emission (`src/gpu/graphite/ContextUtils.cpp`)

`std::string` is embedded as `String`; a function that updates an `int*` argument returns
the new value next to its result. The classes whose declarations live in other headers
(`Uniform`, `TextureAndSampler`, `Varying`, the snippet entry behind a `BlockReader`,
`RenderStep`, `ResourceBindingRequirements`, `UniformOffsetCalculator`, `SkSLType`) are
embedded by the members this file reads. -/

namespace skgpu.graphite

/-- Modelled from the spec: the printf-style `SkSL::String::appendf`
(`include/private/SkSLString.h`, missing) with a `%d` directive, and `std::to_string` of an
`int`, render the value in decimal, with a leading minus sign when it is negative. -/
def formatInt (i : Int) : String := toString i

/-- Modelled from the spec: `appendf` with a `%u` or `%zu` directive, and `std::to_string`
of an unsigned value, render the value in decimal. -/
def formatUInt (n : Nat) : String := toString n

/-- What this file uses of the missing `SkSLType` declarations: the type-name table
`SkSLTypeString` and the enumerator `SkSLType::kFloat2`. -/
structure SkSLTypeInfo (T : Type) where
  SkSLTypeString : T → String
  kFloat2 : T

/-- What this file uses of the missing class `UniformOffsetCalculator`: its constructor
from a layout and a starting offset, `advanceOffset(type, count)` (which returns the
offset of the uniform and moves the calculator on) and `size()`. -/
structure UniformOffsetCalculator (L T σ : Type) where
  make : L → Int → σ
  advanceOffset : σ → T → Nat → Nat × σ
  size : σ → Int

/-- A `Uniform` as this file reads it: `name()`, `type()`, `count()`. -/
structure Uniform (T : Type) where
  name : String
  type : T
  count : Nat
  deriving DecidableEq, Repr

/-- A `TextureAndSampler` as this file reads it: `name()`. -/
structure TextureAndSampler where
  name : String
  deriving DecidableEq, Repr

/-- The snippet entry behind a block reader, as this file reads it. -/
structure ShaderSnippet (T : Type) where
  fName : String
  fUniforms : List (Uniform T)
  fTexturesAndSamplers : List TextureAndSampler
  deriving DecidableEq, Repr

/-- A `PaintParamsKey::BlockReader` as this file reads it: `entry()`. -/
structure BlockReader (T : Type) where
  entry : ShaderSnippet T
  deriving DecidableEq, Repr

/-- A `Varying` as this file reads it. -/
structure Varying (T : Type) where
  fName : String
  fType : T
  deriving DecidableEq, Repr

/-- A `RenderStep` as `EmitVaryings` reads it: `varyings()`. -/
structure RenderStep (T : Type) where
  varyings : List (Varying T)
  deriving DecidableEq, Repr

/-- `ResourceBindingRequirements` as `EmitSamplerLayout` reads it. -/
structure ResourceBindingRequirements where
  fDistinctIndexRanges : Bool
  fSeparateTextureAndSamplerBinding : Bool
  deriving DecidableEq, Repr

/-- `get_uniform_header(bufferID, name)`. -/
def get_uniform_header (bufferID : Int) (name : String) : String :=
  "" ++ "layout (binding=" ++ formatInt bufferID ++ ") uniform " ++ name ++ "Uniforms \x7b\n"

/-- The `for (const Uniform& u : uniforms)` loop of `get_uniforms`: `offsetter` and `result`
are the loop's running state. -/
def get_uniforms_loop {L T σ : Type} (types : SkSLTypeInfo T)
    (calculator : UniformOffsetCalculator L T σ) (manglingSuffix : Int) :
    List (Uniform T) → σ → String → String × σ
  | [], offsetter, result => (result, offsetter)
  | u :: rest, offsetter, result =>
    let advanced := calculator.advanceOffset offsetter u.type u.count
    let result := result ++ "    layout(offset=" ++ formatUInt advanced.1 ++ ") "
      ++ types.SkSLTypeString u.type ++ " " ++ u.name
    let result := if manglingSuffix ≥ 0 then
        (result ++ "_") ++ formatInt manglingSuffix
      else result
    let result := if u.count ≠ 0 then
        ((result ++ "[") ++ formatUInt u.count) ++ "]"
      else result
    let result := result ++ ";\n"
    get_uniforms_loop types calculator manglingSuffix rest advanced.2 result

/-- `get_uniforms(layout, uniforms, offset, manglingSuffix)`: returns the text and the new
value of `*offset`. -/
def get_uniforms {L T σ : Type} (types : SkSLTypeInfo T)
    (calculator : UniformOffsetCalculator L T σ) (layout : L) (uniforms : List (Uniform T))
    (offset : Int) (manglingSuffix : Int) : String × Int :=
  let looped := get_uniforms_loop types calculator manglingSuffix uniforms (calculator.make layout offset) ""
  (looped.1, calculator.size looped.2)

/-- The `for (int i = 0; i < readers.size(); ++i)` loop of `EmitPaintParamsUniforms`,
from index `i` on; `offset` and `result` are the loop's running state. -/
def EmitPaintParamsUniforms_loop {L T σ : Type} (types : SkSLTypeInfo T)
    (calculator : UniformOffsetCalculator L T σ) (layout : L) :
    List (BlockReader T) → Int → Int → String → String
  | [], _, _, result => result
  | reader :: rest, i, offset, result =>
    let uniforms := reader.entry.fUniforms
    if !uniforms.isEmpty then
      let result := result ++ "// " ++ reader.entry.fName ++ " uniforms\n"
      let emitted := get_uniforms types calculator layout uniforms offset i
      EmitPaintParamsUniforms_loop types calculator layout rest (i + 1) emitted.2
        (result ++ emitted.1)
    else
      EmitPaintParamsUniforms_loop types calculator layout rest (i + 1) offset result

/-- `EmitPaintParamsUniforms(bufferID, name, layout, readers)`. -/
def EmitPaintParamsUniforms {L T σ : Type} (types : SkSLTypeInfo T)
    (calculator : UniformOffsetCalculator L T σ) (bufferID : Int) (name : String) (layout : L)
    (readers : List (BlockReader T)) : String :=
  let result := get_uniform_header bufferID name
  let result := EmitPaintParamsUniforms_loop types calculator layout readers 0 0 result
  result ++ "\x7d;\n\n"

/-- `EmitRenderStepUniforms(bufferID, name, layout, uniforms)`. -/
def EmitRenderStepUniforms {L T σ : Type} (types : SkSLTypeInfo T)
    (calculator : UniformOffsetCalculator L T σ) (bufferID : Int) (name : String) (layout : L)
    (uniforms : List (Uniform T)) : String :=
  let result := get_uniform_header bufferID name
  let result := result ++ (get_uniforms types calculator layout uniforms 0 (-1)).1
  result ++ "\x7d;\n\n"

/-- The inner `for (const Uniform& u : uniforms)` loop of
`EmitPaintParamsStorageBuffer`. -/
def EmitPaintParamsStorageBuffer_fields {T : Type} (types : SkSLTypeInfo T)
    (manglingSuffix : Int) : List (Uniform T) → String → String
  | [], result => result
  | u :: rest, result =>
    let result := result ++ "    " ++ types.SkSLTypeString u.type ++ " " ++ u.name ++ "_"
      ++ formatInt manglingSuffix
    let result := if u.count ≠ 0 then
        result ++ "[" ++ formatUInt u.count ++ "]"
      else result
    let result := result ++ ";\n"
    EmitPaintParamsStorageBuffer_fields types manglingSuffix rest result

/-- The outer `for (int i = 0; i < readers.size(); ++i)` loop of
`EmitPaintParamsStorageBuffer`, from index `i` on. -/
def EmitPaintParamsStorageBuffer_loop {T : Type} (types : SkSLTypeInfo T) :
    List (BlockReader T) → Int → String → String
  | [], _, result => result
  | reader :: rest, i, result =>
    let uniforms := reader.entry.fUniforms
    if uniforms.isEmpty then
      EmitPaintParamsStorageBuffer_loop types rest (i + 1) result
    else
      let result := result ++ "// " ++ reader.entry.fName ++ " uniforms\n"
      let manglingSuffix := i
      let result := EmitPaintParamsStorageBuffer_fields types manglingSuffix uniforms result
      EmitPaintParamsStorageBuffer_loop types rest (i + 1) result

/-- `EmitPaintParamsStorageBuffer(bufferID, bufferTypePrefix, bufferNamePrefix,
readers)`. -/
def EmitPaintParamsStorageBuffer {T : Type} (types : SkSLTypeInfo T) (bufferID : Int)
    (bufferTypePrefix bufferNamePrefix : String) (readers : List (BlockReader T)) :
    String :=
  let result := "" ++ "struct " ++ bufferTypePrefix ++ "UniformData \x7b\n"
  let result := EmitPaintParamsStorageBuffer_loop types readers 0 result
  let result := result ++ "\x7d;\n\n"
  result ++ "layout (binding=" ++ formatInt bufferID ++ ") buffer " ++ bufferTypePrefix
    ++ "Uniforms \x7b\n" ++ "    " ++ bufferTypePrefix ++ "UniformData " ++ bufferNamePrefix
    ++ "UniformData[];\n" ++ "\x7d;\n"

/-- `EmitSamplerLayout(bindingReqs, binding)`: returns the text and the new value of
`*binding`. -/
def EmitSamplerLayout (bindingReqs : ResourceBindingRequirements) (binding : Int) :
    String × Int :=
  if bindingReqs.fSeparateTextureAndSamplerBinding then
    let samplerIndex := binding
    let binding := binding + 1
    let textureIndex := binding
    let binding := binding + 1
    ("" ++ "layout(wgsl, " ++ (if bindingReqs.fDistinctIndexRanges then "" else "set=1, ")
      ++ "sampler=" ++ formatInt samplerIndex ++ ", texture=" ++ formatInt textureIndex ++ ")",
     binding)
  else
    ("" ++ "layout(" ++ (if bindingReqs.fDistinctIndexRanges then "" else "set=1, ")
      ++ "binding=" ++ formatInt binding ++ ")",
     binding + 1)

/-- The inner `for (const TextureAndSampler& t : samplers)` loop of
`EmitTexturesAndSamplers`, for the reader at index `i`. -/
def EmitTexturesAndSamplers_samplers (bindingReqs : ResourceBindingRequirements) (i : Int) :
    List TextureAndSampler → Int → String → String × Int
  | [], binding, result => (result, binding)
  | t :: rest, binding, result =>
    let layout := EmitSamplerLayout bindingReqs binding
    let result := result ++ layout.1
    let result := result ++ " uniform sampler2D " ++ t.name ++ "_" ++ formatInt i ++ ";\n"
    EmitTexturesAndSamplers_samplers bindingReqs i rest layout.2 result

/-- The outer `for (int i = 0; i < readers.size(); ++i)` loop of
`EmitTexturesAndSamplers`, from index `i` on. -/
def EmitTexturesAndSamplers_loop {T : Type} (bindingReqs : ResourceBindingRequirements) :
    List (BlockReader T) → Int → Int → String → String × Int
  | [], _, binding, result => (result, binding)
  | reader :: rest, i, binding, result =>
    let samplers := reader.entry.fTexturesAndSamplers
    if !samplers.isEmpty then
      let result := result ++ "// " ++ reader.entry.fName ++ " samplers\n"
      let emitted := EmitTexturesAndSamplers_samplers bindingReqs i samplers binding result
      EmitTexturesAndSamplers_loop bindingReqs rest (i + 1) emitted.2 emitted.1
    else
      EmitTexturesAndSamplers_loop bindingReqs rest (i + 1) binding result

/-- `EmitTexturesAndSamplers(bindingReqs, readers, binding)`: returns the text and the new
value of `*binding`. -/
def EmitTexturesAndSamplers {T : Type} (bindingReqs : ResourceBindingRequirements)
    (readers : List (BlockReader T)) (binding : Int) : String × Int :=
  EmitTexturesAndSamplers_loop bindingReqs readers 0 binding ""

/-- The `for (auto v : step->varyings())` loop of `EmitVaryings`. -/
def EmitVaryings_loop {T : Type} (types : SkSLTypeInfo T) (direction : String) :
    List (Varying T) → Int → String → String
  | [], _, result => result
  | v :: rest, location, result =>
    let result := result ++ "    layout(location=" ++ formatInt location ++ ") " ++ direction
      ++ " "
    let location := location + 1
    let result := result ++ types.SkSLTypeString v.fType
    let result := result ++ " " ++ v.fName ++ ";\n"
    EmitVaryings_loop types direction rest location result

/-- `EmitVaryings(step, direction, emitShadingSsboIndexVarying,
emitLocalCoordsVarying)`. -/
def EmitVaryings {T : Type} (types : SkSLTypeInfo T) (step : RenderStep T)
    (direction : String) (emitShadingSsboIndexVarying emitLocalCoordsVarying : Bool) :
    String :=
  let result := ""
  let location : Int := 0
  let (result, location) :=
    if emitShadingSsboIndexVarying then
      (result ++ "    layout(location=" ++ formatInt location ++ ") " ++ direction
        ++ " int shadingSsboIndexVar;\n", location + 1)
    else (result, location)
  let (result, location) :=
    if emitLocalCoordsVarying then
      (((result ++ "    layout(location=" ++ formatInt location ++ ") " ++ direction ++ " ")
        ++ types.SkSLTypeString types.kFloat2) ++ " localCoordsVar;\n", location + 1)
    else (result, location)
  EmitVaryings_loop types direction step.varyings location result

/-! ## Varyings, by the words of the claim -/

/-- The varyings `EmitVaryings` declares, in their fixed order, each as its type name and
its variable name: `shadingSsboIndexVar` if asked for, `localCoordsVar` if asked for, then
the step's varyings in their declared order. -/
def varyingDecls {T : Type} (types : SkSLTypeInfo T) (step : RenderStep T)
    (emitShadingSsboIndexVarying emitLocalCoordsVarying : Bool) : List (String × String) :=
  (if emitShadingSsboIndexVarying then [("int", "shadingSsboIndexVar")] else []) ++
  (if emitLocalCoordsVarying then
    [(types.SkSLTypeString types.kFloat2, "localCoordsVar")] else []) ++
  step.varyings.map fun v => (types.SkSLTypeString v.fType, v.fName)

/-- The declaration line of one varying at a location. -/
def varyingLine (direction : String) (location : Int) (decl : String × String) : String :=
  "    layout(location=" ++ formatInt location ++ ") " ++ direction ++ " " ++ decl.1 ++ " "
    ++ decl.2 ++ ";\n"

/-- The declaration lines of a list of varyings at consecutive locations, the first one at
`location`. -/
def varyingLines (direction : String) : List (String × String) → Int → String
  | [], _ => ""
  | decl :: rest, location =>
    varyingLine direction location decl ++ varyingLines direction rest (location + 1)

/-! ## Textures and samplers, by the words of the claim -/

/-- The number of binding indices one sampler takes: 2 with separate texture and sampler
bindings, 1 otherwise. -/
def bindingsPerSampler (bindingReqs : ResourceBindingRequirements) : Int :=
  if bindingReqs.fSeparateTextureAndSamplerBinding then 2 else 1

/-- The declarations of the samplers of the reader at index `i`, where the first sampler of
the list is sampler number `n` overall: sampler number `n` gets the layout at binding
`b + k * n`, with `k` the number of binding indices per sampler. -/
def samplerDecls (bindingReqs : ResourceBindingRequirements) (b : Int) (i : Int) :
    List TextureAndSampler → Nat → String
  | [], _ => ""
  | t :: rest, n =>
    (EmitSamplerLayout bindingReqs (b + bindingsPerSampler bindingReqs * n)).1
      ++ " uniform sampler2D " ++ t.name ++ "_" ++ formatInt i ++ ";\n"
      ++ samplerDecls bindingReqs b i rest (n + 1)

/-- The text for a list of readers, the first of them at index `i`, when `n` samplers come
before them: a reader without samplers contributes nothing; a reader with samplers
contributes its comment line and its declarations, numbered on from `n`. -/
def texturesAndSamplersText {T : Type} (bindingReqs : ResourceBindingRequirements)
    (b : Int) : List (BlockReader T) → Int → Nat → String
  | [], _, _ => ""
  | reader :: rest, i, n =>
    (if reader.entry.fTexturesAndSamplers.isEmpty then ""
     else "// " ++ reader.entry.fName ++ " samplers\n"
       ++ samplerDecls bindingReqs b i reader.entry.fTexturesAndSamplers n)
    ++ texturesAndSamplersText bindingReqs b rest (i + 1)
        (n + reader.entry.fTexturesAndSamplers.length)

/-- The total number of samplers over a list of readers. -/
def samplerCount {T : Type} (readers : List (BlockReader T)) : Nat :=
  (readers.map fun reader => reader.entry.fTexturesAndSamplers.length).sum

/-! ## Uniform declarations, by the words of the claims -/

/-- The array suffix of a declaration: `[count]` when the count is not zero, nothing
otherwise. -/
def arraySuffix (count : Nat) : String :=
  if count ≠ 0 then "[" ++ formatUInt count ++ "]" else ""

/-- The mangled field declaration of a uniform of the reader at index `i`: its type, its
name followed by `_` and the index, and its array suffix. -/
def mangledField {T : Type} (types : SkSLTypeInfo T) (i : Int) (u : Uniform T) : String :=
  types.SkSLTypeString u.type ++ " " ++ u.name ++ "_" ++ formatInt i ++ arraySuffix u.count

/-- The field declaration of a uniform whose name is left as it is: its type, its name and
its array suffix. -/
def plainField {T : Type} (types : SkSLTypeInfo T) (u : Uniform T) : String :=
  types.SkSLTypeString u.type ++ " " ++ u.name ++ arraySuffix u.count

/-- The field declarations of a list of uniforms, each with the offset the calculator
gives it, the calculator being moved on from one uniform to the next. -/
def offsetFields {L T σ : Type} (calculator : UniformOffsetCalculator L T σ)
    (field : Uniform T → String) : List (Uniform T) → σ → List (Nat × String)
  | [], _ => []
  | u :: rest, offsetter =>
    ((calculator.advanceOffset offsetter u.type u.count).1, field u) ::
      offsetFields calculator field rest
        (calculator.advanceOffset offsetter u.type u.count).2

/-- The calculator after it has been moved over a list of uniforms. -/
def offsetterAfter {L T σ : Type} (calculator : UniformOffsetCalculator L T σ) :
    List (Uniform T) → σ → σ
  | [], offsetter => offsetter
  | u :: rest, offsetter =>
    offsetterAfter calculator rest (calculator.advanceOffset offsetter u.type u.count).2

/-- The size a calculator started at `offset` reports after a list of uniforms. -/
def sizeAfter {L T σ : Type} (calculator : UniformOffsetCalculator L T σ) (layout : L)
    (offset : Int) (uniforms : List (Uniform T)) : Int :=
  calculator.size (offsetterAfter calculator uniforms (calculator.make layout offset))

/-- The blocks of a uniform buffer for a list of readers, the first of them at index `i`,
with the running offset `offset`: a reader without uniforms is skipped and leaves the
offset as it is; a reader with uniforms gives a block of its name and its mangled fields,
with offsets computed on from `offset`, and hands the size it leaves to the readers after
it. -/
def offsetFieldBlocks {L T σ : Type} (types : SkSLTypeInfo T)
    (calculator : UniformOffsetCalculator L T σ) (layout : L) :
    List (BlockReader T) → Int → Int → List (String × List (Nat × String))
  | [], _, _ => []
  | reader :: rest, i, offset =>
    if reader.entry.fUniforms.isEmpty then
      offsetFieldBlocks types calculator layout rest (i + 1) offset
    else
      (reader.entry.fName,
        offsetFields calculator (mangledField types i) reader.entry.fUniforms
          (calculator.make layout offset)) ::
      offsetFieldBlocks types calculator layout rest (i + 1)
        (sizeAfter calculator layout offset reader.entry.fUniforms)

/-- The blocks of mangled field declarations for a list of readers, the first of them at
index `i`: readers without uniforms are skipped. -/
def fieldBlocks {T : Type} (types : SkSLTypeInfo T) :
    List (BlockReader T) → Int → List (String × List String)
  | [], _ => []
  | reader :: rest, i =>
    if reader.entry.fUniforms.isEmpty then fieldBlocks types rest (i + 1)
    else
      (reader.entry.fName, reader.entry.fUniforms.map (mangledField types i)) ::
        fieldBlocks types rest (i + 1)

/-- The lines of a uniform block: each field after its `layout(offset=...)` prefix. -/
def renderOffsetFields : List (Nat × String) → String
  | [] => ""
  | field :: rest =>
    "    layout(offset=" ++ formatUInt field.1 ++ ") " ++ field.2 ++ ";\n"
      ++ renderOffsetFields rest

/-- The blocks of a uniform buffer as text: per block a comment line with the reader's
name, then its lines. -/
def renderOffsetBlocks : List (String × List (Nat × String)) → String
  | [] => ""
  | block :: rest =>
    "// " ++ block.1 ++ " uniforms\n" ++ renderOffsetFields block.2
      ++ renderOffsetBlocks rest

/-- The lines of a struct: each field on its own line. -/
def renderFields : List String → String
  | [] => ""
  | field :: rest => "    " ++ field ++ ";\n" ++ renderFields rest

/-- The blocks of a struct as text: per block a comment line with the reader's name, then
its lines. -/
def renderBlocks : List (String × List String) → String
  | [] => ""
  | block :: rest =>
    "// " ++ block.1 ++ " uniforms\n" ++ renderFields block.2 ++ renderBlocks rest

/-- The type information of the examples: a type is written by its name. -/
def namedTypes : SkSLTypeInfo String := ⟨id, "float2"⟩

/-- The calculator of the examples: its state is the next free offset, and every element
of a uniform takes 16 bytes. -/
def sixteenByteCalculator : UniformOffsetCalculator Unit String Nat :=
  ⟨fun _ offset => offset.toNat, fun s _ count => (s, s + 16 * max count 1),
    fun s => (s : Int)⟩

/-- The mangled field blocks of a list of readers, each reader with its index in the list:
the readers without uniforms are left out, and the fields of the reader at index `i` are
mangled with `i`. -/
def indexedFieldBlocks {T : Type} (types : SkSLTypeInfo T) (readers : List (BlockReader T)) :
    List (String × List String) :=
  ((readers.enumFrom 0).filter (fun p => !p.2.entry.fUniforms.isEmpty)).map
    (fun p => (p.2.entry.fName, p.2.entry.fUniforms.map (mangledField types (p.1 : Int))))

end skgpu.graphite

namespace SkSL.RP

/-! # Theorems -/

/-! ## Basic lemmas about the Builder monad -/

theorem bind_apply {α β : Type} (m : BuilderM α) (f : α → BuilderM β) (b : Builder) :
    (m >>= f) b = match m b with
      | .returned v b1 => f v b1
      | .aborted b1 => .aborted b1 := rfl

theorem pure_apply {α : Type} (v : α) (b : Builder) :
    (pure v : BuilderM α) b = .returned v b := rfl

theorem assert_apply (cond : Bool) (b : Builder) :
    Builder.assert cond b = if cond then .returned () b else .aborted b := by
  cases cond <;> rfl

theorem push_back_nil (op : BuilderOp) (imms : List Int) (b : Builder) :
    Builder.push_back op [] imms b = .returned () (b.appended
      ⟨op, NA, NA, imms.getD 0 0, imms.getD 1 0, imms.getD 2 0, imms.getD 3 0⟩) := rfl

theorem push_back_one (op : BuilderOp) (x : Slot) (imms : List Int) (b : Builder) :
    Builder.push_back op [x] imms b = .returned () (b.appended
      ⟨op, x, NA, imms.getD 0 0, imms.getD 1 0, imms.getD 2 0, imms.getD 3 0⟩) := rfl

theorem push_back_two (op : BuilderOp) (x y : Slot) (imms : List Int) (b : Builder) :
    Builder.push_back op [x, y] imms b = .returned () (b.appended
      ⟨op, x, y, imms.getD 0 0, imms.getD 1 0, imms.getD 2 0, imms.getD 3 0⟩) := rfl

/-- An emitter that checks a condition and then appends satisfies the contract with the
negated condition as the violation. -/
theorem contract_of_guard (call : BuilderM Unit) (b : Builder) (cond : Bool)
    (violated : Prop) (instr : Instruction)
    (hcall : call b = if cond then .returned () (b.appended instr) else .aborted b)
    (hviol : violated ↔ cond = false) :
    PreconditionContract call b violated instr := by
  cases cond with
  | true =>
    have hnv : ¬ violated := by simp [hviol]
    refine ⟨⟨?_, fun hv => absurd hv hnv⟩, fun hv => absurd hv hnv, fun _ => by simpa using hcall⟩
    rintro ⟨b1, hb1⟩
    simp [hcall] at hb1
  | false =>
    have hv : violated := by simp [hviol]
    exact ⟨⟨fun _ => hv, fun _ => ⟨b, by simpa using hcall⟩⟩, fun _ => by simpa using hcall,
      fun h => absurd hv h⟩

/-- The shape shared by the mask emitters: assert that mask writes are enabled, then
append. -/
theorem enabled_guard_apply (op : BuilderOp) (b : Builder) :
    (do Builder.assert (← Builder.executionMaskWritesAreEnabled)
        Builder.push_back op [] [] : BuilderM Unit) b
      = if decide (b.fExecutionMaskWritesEnabled > 0)
        then .returned () (b.appended ⟨op, NA, NA, 0, 0, 0, 0⟩) else .aborted b := by
  simp only [bind_apply, Builder.executionMaskWritesAreEnabled, assert_apply]
  by_cases h : b.fExecutionMaskWritesEnabled > 0 <;> simp [h, push_back_nil]

/-- Under the counter invariant, a mask emitter satisfies the contract with "counter is 0"
as the violation. -/
theorem mask_emitter_contract (op : BuilderOp) (b : Builder)
    (h : 0 ≤ b.fExecutionMaskWritesEnabled) :
    PreconditionContract
      (do Builder.assert (← Builder.executionMaskWritesAreEnabled)
          Builder.push_back op [] [])
      b (b.fExecutionMaskWritesEnabled = 0) ⟨op, NA, NA, 0, 0, 0, 0⟩ := by
  apply contract_of_guard _ _ _ _ _ (enabled_guard_apply op b)
  simp only [decide_eq_false_iff_not]
  omega

/-! ## Mask emitters (C1, C2) -/

/-- C1: in every builder state whose execution-mask-writes counter is not negative, each of
the mask emitters `push_condition_mask`, `pop_condition_mask`, `merge_condition_mask`,
`push_loop_mask`, `pop_loop_mask`, `mask_off_loop_mask`, `pop_and_reenable_loop_mask`,
`merge_loop_mask`, `push_return_mask` and `mask_off_return_mask` aborts if and only if the
counter is 0, an abort appends nothing, and with a counter above 0 the call returns having
appended exactly one instruction with the same-named op (no slots, all immediates 0).
`reenable_loop_mask(src)` aborts if and only if the counter is 0 or `src.count` is not 1,
and otherwise appends one `reenable_loop_mask` instruction with `fSlotA = src.index`. -/
theorem mask_emitters_precondition (b : Builder) (src : SlotRange)
    (h : 0 ≤ b.fExecutionMaskWritesEnabled) :
    PreconditionContract Builder.push_condition_mask b (b.fExecutionMaskWritesEnabled = 0)
      ⟨.push_condition_mask, NA, NA, 0, 0, 0, 0⟩ ∧
    PreconditionContract Builder.pop_condition_mask b (b.fExecutionMaskWritesEnabled = 0)
      ⟨.pop_condition_mask, NA, NA, 0, 0, 0, 0⟩ ∧
    PreconditionContract Builder.merge_condition_mask b (b.fExecutionMaskWritesEnabled = 0)
      ⟨.native "merge_condition_mask", NA, NA, 0, 0, 0, 0⟩ ∧
    PreconditionContract Builder.push_loop_mask b (b.fExecutionMaskWritesEnabled = 0)
      ⟨.push_loop_mask, NA, NA, 0, 0, 0, 0⟩ ∧
    PreconditionContract Builder.pop_loop_mask b (b.fExecutionMaskWritesEnabled = 0)
      ⟨.pop_loop_mask, NA, NA, 0, 0, 0, 0⟩ ∧
    PreconditionContract Builder.mask_off_loop_mask b (b.fExecutionMaskWritesEnabled = 0)
      ⟨.native "mask_off_loop_mask", NA, NA, 0, 0, 0, 0⟩ ∧
    PreconditionContract Builder.pop_and_reenable_loop_mask b (b.fExecutionMaskWritesEnabled = 0)
      ⟨.pop_and_reenable_loop_mask, NA, NA, 0, 0, 0, 0⟩ ∧
    PreconditionContract Builder.merge_loop_mask b (b.fExecutionMaskWritesEnabled = 0)
      ⟨.native "merge_loop_mask", NA, NA, 0, 0, 0, 0⟩ ∧
    PreconditionContract Builder.push_return_mask b (b.fExecutionMaskWritesEnabled = 0)
      ⟨.push_return_mask, NA, NA, 0, 0, 0, 0⟩ ∧
    PreconditionContract Builder.mask_off_return_mask b (b.fExecutionMaskWritesEnabled = 0)
      ⟨.native "mask_off_return_mask", NA, NA, 0, 0, 0, 0⟩ ∧
    PreconditionContract (Builder.reenable_loop_mask src) b
      (b.fExecutionMaskWritesEnabled = 0 ∨ src.count ≠ 1)
      ⟨.native "reenable_loop_mask", src.index, NA, 0, 0, 0, 0⟩ := by
  refine ⟨mask_emitter_contract _ b h, mask_emitter_contract _ b h, mask_emitter_contract _ b h, mask_emitter_contract _ b h, mask_emitter_contract _ b h, mask_emitter_contract _ b h, mask_emitter_contract _ b h, mask_emitter_contract _ b h, mask_emitter_contract _ b h, mask_emitter_contract _ b h, ?_⟩
  apply contract_of_guard _ _ (decide (b.fExecutionMaskWritesEnabled > 0) && (src.count == 1))
  · simp only [Builder.reenable_loop_mask, bind_apply, Builder.executionMaskWritesAreEnabled,
      assert_apply]
    by_cases h1 : b.fExecutionMaskWritesEnabled > 0 <;> by_cases h2 : src.count = 1 <;>
      simp [h1, h2, push_back_one]
  · simp only [Bool.and_eq_false_iff, decide_eq_false_iff_not, beq_eq_false_iff_ne]
    constructor
    · rintro (h0 | h1)
      · exact Or.inl (by omega)
      · exact Or.inr h1
    · rintro (h0 | h1)
      · exact Or.inl (by omega)
      · exact Or.inr h1

/-- Witness for C1: with the counter at 1, `push_condition_mask` on an otherwise fresh builder
returns with one `push_condition_mask` instruction appended. -/
theorem mask_emitters_precondition_witness :
    Builder.push_condition_mask ⟨[], 0, 1⟩
      = .returned () ⟨[⟨.push_condition_mask, NA, NA, 0, 0, 0, 0⟩], 0, 1⟩ :=
  (mask_emitters_precondition ⟨[], 0, 1⟩ ⟨0, 1⟩ (by decide)).1.2.2 (by decide)

/-- C2 (counterexample): after `enableExecutionMaskWrites` on a fresh Builder no push
instruction has been emitted, yet `pop_condition_mask` and `pop_loop_mask` both return
normally and append their pop instruction. -/
theorem pop_mask_without_push_counterexample :
    Builder.enableExecutionMaskWrites Builder.fresh = .returned () ⟨[], 0, 1⟩ ∧
    countOp .push_condition_mask (⟨[], 0, 1⟩ : Builder).fInstructions = 0 ∧
    countOp .push_loop_mask (⟨[], 0, 1⟩ : Builder).fInstructions = 0 ∧
    Builder.pop_condition_mask ⟨[], 0, 1⟩
      = .returned () ⟨[⟨.pop_condition_mask, NA, NA, 0, 0, 0, 0⟩], 0, 1⟩ ∧
    Builder.pop_loop_mask ⟨[], 0, 1⟩
      = .returned () ⟨[⟨.pop_loop_mask, NA, NA, 0, 0, 0, 0⟩], 0, 1⟩ := by
  decide

/-- C2 (amended): `pop_condition_mask` and `pop_loop_mask` check only that execution-mask
writes are enabled. Whatever instructions were emitted before (however many pushes and
pops), with the counter above 0 the pop returns and appends one pop instruction; with the
counter at 0 or below it aborts and appends nothing. -/
theorem pop_mask_checks_only_enabled (instrs : List Instruction) (labels n : Int) :
    (0 < n →
      Builder.pop_condition_mask ⟨instrs, labels, n⟩
        = .returned () ⟨instrs ++ [⟨.pop_condition_mask, NA, NA, 0, 0, 0, 0⟩], labels, n⟩ ∧
      Builder.pop_loop_mask ⟨instrs, labels, n⟩
        = .returned () ⟨instrs ++ [⟨.pop_loop_mask, NA, NA, 0, 0, 0, 0⟩], labels, n⟩) ∧
    (n ≤ 0 →
      Builder.pop_condition_mask ⟨instrs, labels, n⟩ = .aborted ⟨instrs, labels, n⟩ ∧
      Builder.pop_loop_mask ⟨instrs, labels, n⟩ = .aborted ⟨instrs, labels, n⟩) := by
  have hc := enabled_guard_apply .pop_condition_mask ⟨instrs, labels, n⟩
  have hl := enabled_guard_apply .pop_loop_mask ⟨instrs, labels, n⟩
  constructor
  · intro hn
    have hd : decide (n > 0) = true := by simpa using hn
    exact ⟨by simpa [hd] using hc, by simpa [hd] using hl⟩
  · intro hn
    have hd : decide (n > 0) = false := by simpa using hn
    exact ⟨by simpa [hd] using hc, by simpa [hd] using hl⟩

/-- Witness for C2 (amended): two pops in a row with no push before them; the second pop
still returns. -/
theorem pop_mask_checks_only_enabled_witness :
    Builder.pop_condition_mask ⟨[⟨.pop_condition_mask, NA, NA, 0, 0, 0, 0⟩], 0, 1⟩
      = .returned () ⟨[⟨.pop_condition_mask, NA, NA, 0, 0, 0, 0⟩] ++
          [⟨.pop_condition_mask, NA, NA, 0, 0, 0, 0⟩], 0, 1⟩ :=
  ((pop_mask_checks_only_enabled [⟨.pop_condition_mask, NA, NA, 0, 0, 0, 0⟩] 0 1).1
    (by decide)).1

/-! ## The execution-mask-writes counter (C3, C4) -/

theorem enable_apply (b : Builder) :
    Builder.enableExecutionMaskWrites b = .returned ()
      { b with fExecutionMaskWritesEnabled := b.fExecutionMaskWritesEnabled + 1 } := rfl

theorem disable_apply (b : Builder) :
    Builder.disableExecutionMaskWrites b =
      if b.fExecutionMaskWritesEnabled > 0 then .returned ()
        { b with fExecutionMaskWritesEnabled := b.fExecutionMaskWritesEnabled - 1 }
      else .aborted b := by
  simp only [Builder.disableExecutionMaskWrites, bind_apply,
    Builder.executionMaskWritesAreEnabled, assert_apply]
  by_cases h : b.fExecutionMaskWritesEnabled > 0 <;> simp [h]

theorem enable_then_disable (b : Builder) (h : 0 ≤ b.fExecutionMaskWritesEnabled) :
    (do Builder.enableExecutionMaskWrites
        Builder.disableExecutionMaskWrites : BuilderM Unit) b = .returned () b := by
  have h1 : b.fExecutionMaskWritesEnabled + 1 > 0 := by omega
  simp [bind_apply, enable_apply, disable_apply, h1]

theorem execAll_cons (c : Call) (cs : List Call) (b : Builder) :
    Call.execAll (c :: cs) b = match c.exec b with
      | .returned v b1 => (match Call.execAll cs b1 with
        | .returned vs b2 => .returned (v :: vs) b2
        | .aborted b2 => .aborted b2)
      | .aborted b1 => .aborted b1 := by
  simp only [Call.execAll, bind_apply]
  cases c.exec b with
  | returned v b1 =>
    simp only []
    cases Call.execAll cs b1 <;> rfl
  | aborted b1 => rfl

/-- A sequence of calls that returns can be cut anywhere: the first part returns too, and
the second part returns from the state the first part left. -/
theorem execAll_append (xs ys : List Call) (b b2 : Builder) (vals : List Value)
    (h : Call.execAll (xs ++ ys) b = .returned vals b2) :
    ∃ v1 b1 v2, Call.execAll xs b = .returned v1 b1 ∧
      Call.execAll ys b1 = .returned v2 b2 ∧ vals = v1 ++ v2 := by
  induction xs generalizing b vals with
  | nil => exact ⟨[], b, vals, rfl, h, rfl⟩
  | cons c cs ih =>
    rw [List.cons_append, execAll_cons] at h
    rw [execAll_cons]
    cases hc : c.exec b with
    | aborted b1 => simp [hc] at h
    | returned v b1 =>
      rw [hc] at h
      simp only [] at h
      cases hcs : Call.execAll (cs ++ ys) b1 with
      | aborted b3 => simp [hcs] at h
      | returned vs b3 =>
        rw [hcs] at h
        simp only [Outcome.returned.injEq] at h
        obtain ⟨hv, hb⟩ := h
        subst hb
        obtain ⟨v1, b4, v2, h1, h2, h3⟩ := ih b1 vs hcs
        refine ⟨v :: v1, b4, v2, ?_, h2, ?_⟩
        · simp [h1]
        · rw [← hv, h3]; rfl

theorem exec_enable (b : Builder) :
    Call.exec .enableExecutionMaskWrites b = .returned .unit
      { b with fExecutionMaskWritesEnabled := b.fExecutionMaskWritesEnabled + 1 } := rfl

theorem exec_disable (b : Builder) :
    Call.exec .disableExecutionMaskWrites b =
      if b.fExecutionMaskWritesEnabled > 0 then .returned .unit
        { b with fExecutionMaskWritesEnabled := b.fExecutionMaskWritesEnabled - 1 }
      else .aborted b := by
  simp only [Call.exec, bind_apply, disable_apply]
  by_cases h : b.fExecutionMaskWritesEnabled > 0 <;> simp [h, pure_apply]

/-- A returning sequence of enable/disable calls, started in a state whose counter is not
negative, moves the counter by (enables - disables) and keeps it from going negative. -/
theorem execAll_enable_disable (calls : List Call) :
    ∀ (b0 b : Builder) (vals : List Value),
      (∀ c ∈ calls, c = .enableExecutionMaskWrites ∨ c = .disableExecutionMaskWrites) →
      0 ≤ b0.fExecutionMaskWritesEnabled →
      Call.execAll calls b0 = .returned vals b →
      b.fExecutionMaskWritesEnabled = b0.fExecutionMaskWritesEnabled
        + (calls.count .enableExecutionMaskWrites : Int)
        - (calls.count .disableExecutionMaskWrites : Int) ∧
      0 ≤ b.fExecutionMaskWritesEnabled := by
  induction calls with
  | nil =>
    intro b0 b vals _ h0 hrun
    simp only [Call.execAll, pure_apply, Outcome.returned.injEq] at hrun
    rw [← hrun.2]
    simp [h0]
  | cons c cs ih =>
    intro b0 b vals hcalls h0 hrun
    have hcs : ∀ c ∈ cs, c = .enableExecutionMaskWrites ∨ c = .disableExecutionMaskWrites :=
      fun x hx => hcalls x (List.mem_cons_of_mem c hx)
    rw [execAll_cons] at hrun
    rcases hcalls c (List.mem_cons_self c cs) with hc | hc
    · subst hc
      rw [exec_enable] at hrun
      simp only [] at hrun
      cases hrest : Call.execAll cs
          { b0 with fExecutionMaskWritesEnabled := b0.fExecutionMaskWritesEnabled + 1 } with
      | aborted b1 => simp [hrest] at hrun
      | returned vs b1 =>
        rw [hrest] at hrun
        simp only [Outcome.returned.injEq] at hrun
        obtain ⟨_, hb⟩ := hrun
        subst hb
        have := ih _ _ _ hcs (by simp only []; omega) hrest
        simp only [] at this
        simp only [List.count_cons_self, List.count_cons_of_ne (a := Call.disableExecutionMaskWrites)
          (b := Call.enableExecutionMaskWrites) (by decide)]
        push_cast
        omega
    · subst hc
      rw [exec_disable] at hrun
      by_cases hpos : b0.fExecutionMaskWritesEnabled > 0
      · simp only [hpos, if_true] at hrun
        cases hrest : Call.execAll cs
            { b0 with fExecutionMaskWritesEnabled := b0.fExecutionMaskWritesEnabled - 1 } with
        | aborted b1 => simp [hrest] at hrun
        | returned vs b1 =>
          rw [hrest] at hrun
          simp only [Outcome.returned.injEq] at hrun
          obtain ⟨_, hb⟩ := hrun
          subst hb
          have := ih _ _ _ hcs (by simp only []; omega) hrest
          simp only [] at this
          simp only [List.count_cons_self, List.count_cons_of_ne (a := Call.enableExecutionMaskWrites)
            (b := Call.disableExecutionMaskWrites) (by decide)]
          push_cast
          omega
      · simp [hpos] at hrun

/-- C3: for every sequence of `enableExecutionMaskWrites` / `disableExecutionMaskWrites`
calls on a fresh Builder that runs without a failing disable, after every prefix of the
sequence the counter equals (enables so far) - (disables so far), it is not negative,
`executionMaskWritesAreEnabled()` returns true exactly when that difference is above 0, and
an enable followed by a disable gives the same builder state back. In particular enable,
enable, disable on a fresh Builder leaves writes enabled. -/
theorem execution_mask_writes_counter (calls pre : List Call) (vals : List Value)
    (b : Builder)
    (hcalls : ∀ c ∈ calls, c = .enableExecutionMaskWrites ∨ c = .disableExecutionMaskWrites)
    (hrun : Call.execAll calls Builder.fresh = .returned vals b)
    (hpre : pre <+: calls) :
    (∃ vals1 b1, Call.execAll pre Builder.fresh = .returned vals1 b1 ∧
      b1.fExecutionMaskWritesEnabled
        = (pre.count .enableExecutionMaskWrites : Int)
          - (pre.count .disableExecutionMaskWrites : Int) ∧
      0 ≤ b1.fExecutionMaskWritesEnabled ∧
      Builder.executionMaskWritesAreEnabled b1
        = .returned (decide ((pre.count .enableExecutionMaskWrites : Int)
            - (pre.count .disableExecutionMaskWrites : Int) > 0)) b1 ∧
      (do Builder.enableExecutionMaskWrites
          Builder.disableExecutionMaskWrites : BuilderM Unit) b1 = .returned () b1) ∧
    (do Builder.enableExecutionMaskWrites
        Builder.enableExecutionMaskWrites
        Builder.disableExecutionMaskWrites
        Builder.executionMaskWritesAreEnabled : BuilderM Bool) Builder.fresh
      = .returned true ⟨[], 0, 1⟩ := by
  refine ⟨?_, by decide⟩
  obtain ⟨rest, hrest⟩ := hpre
  subst hrest
  obtain ⟨vals1, b1, _, h1, _, _⟩ := execAll_append pre rest Builder.fresh b vals hrun
  have hpc : ∀ c ∈ pre, c = .enableExecutionMaskWrites ∨ c = .disableExecutionMaskWrites :=
    fun c hc => hcalls c (List.mem_append_left rest hc)
  have hinv := execAll_enable_disable pre Builder.fresh b1 vals1 hpc (by decide) h1
  have hzero : Builder.fresh.fExecutionMaskWritesEnabled = 0 := rfl
  rw [hzero, zero_add] at hinv
  refine ⟨vals1, b1, h1, hinv.1, hinv.2, ?_, enable_then_disable b1 hinv.2⟩
  simp only [Builder.executionMaskWritesAreEnabled, hinv.1]

/-- Witness for C3: enable, enable, disable, enable on a fresh Builder, looked at after its
first three calls. -/
theorem execution_mask_writes_counter_witness :
    ∃ vals1 b1,
      Call.execAll [.enableExecutionMaskWrites, .enableExecutionMaskWrites,
        .disableExecutionMaskWrites] Builder.fresh = .returned vals1 b1 ∧
      b1.fExecutionMaskWritesEnabled
        = (([.enableExecutionMaskWrites, .enableExecutionMaskWrites,
              .disableExecutionMaskWrites] : List Call).count .enableExecutionMaskWrites : Int)
          - (([.enableExecutionMaskWrites, .enableExecutionMaskWrites,
              .disableExecutionMaskWrites] : List Call).count
                .disableExecutionMaskWrites : Int) ∧
      0 ≤ b1.fExecutionMaskWritesEnabled ∧
      Builder.executionMaskWritesAreEnabled b1
        = .returned (decide ((([.enableExecutionMaskWrites, .enableExecutionMaskWrites,
              .disableExecutionMaskWrites] : List Call).count .enableExecutionMaskWrites : Int)
          - (([.enableExecutionMaskWrites, .enableExecutionMaskWrites,
              .disableExecutionMaskWrites] : List Call).count
                .disableExecutionMaskWrites : Int) > 0)) b1 ∧
      (do Builder.enableExecutionMaskWrites
          Builder.disableExecutionMaskWrites : BuilderM Unit) b1 = .returned () b1 :=
  (execution_mask_writes_counter
    [.enableExecutionMaskWrites, .enableExecutionMaskWrites, .disableExecutionMaskWrites,
      .enableExecutionMaskWrites]
    [.enableExecutionMaskWrites, .enableExecutionMaskWrites, .disableExecutionMaskWrites]
    [.unit, .unit, .unit, .unit] ⟨[], 0, 2⟩ (by decide) (by decide)
    ⟨[.enableExecutionMaskWrites], rfl⟩).1

/-- C4: in every builder state whose counter is not negative,
`disableExecutionMaskWrites` aborts if and only if the counter is 0 (leaving the builder as
it was); otherwise it returns with the counter decremented by exactly one and with the
instruction list and the label count unchanged. -/
theorem disable_precondition (b : Builder) (h : 0 ≤ b.fExecutionMaskWritesEnabled) :
    ((∃ b1, Builder.disableExecutionMaskWrites b = .aborted b1)
      ↔ b.fExecutionMaskWritesEnabled = 0) ∧
    (b.fExecutionMaskWritesEnabled = 0 → Builder.disableExecutionMaskWrites b = .aborted b) ∧
    (b.fExecutionMaskWritesEnabled ≠ 0 →
      Builder.disableExecutionMaskWrites b = .returned ()
        { fInstructions := b.fInstructions, fNumLabels := b.fNumLabels,
          fExecutionMaskWritesEnabled := b.fExecutionMaskWritesEnabled - 1 }) := by
  rw [disable_apply]
  by_cases hpos : b.fExecutionMaskWritesEnabled > 0
  · have hne : b.fExecutionMaskWritesEnabled ≠ 0 := by omega
    simp [hpos, hne]
  · have hz : b.fExecutionMaskWritesEnabled = 0 := by omega
    simp [hz]

/-- Witness for C4: with the counter at 2 a disable returns and leaves it at 1; the one
instruction and the label count 5 are untouched. -/
theorem disable_precondition_witness :
    Builder.disableExecutionMaskWrites ⟨[⟨.select, NA, NA, 1, 0, 0, 0⟩], 5, 2⟩
      = .returned () ⟨[⟨.select, NA, NA, 1, 0, 0, 0⟩], 5, 2 - 1⟩ :=
  (disable_precondition ⟨[⟨.select, NA, NA, 1, 0, 0, 0⟩], 5, 2⟩ (by decide)).2.2 (by decide)

/-! ## Label allocation (C5) -/

theorem exec_nextLabelID (b : Builder) :
    Call.exec .nextLabelID b
      = .returned (.int b.fNumLabels) { b with fNumLabels := b.fNumLabels + 1 } := rfl

/-- What a returning call does to the builder: `nextLabelID` bumps the label count,
enable/disable move the counter by one (disable only from above 0),
`executionMaskWritesAreEnabled` changes nothing, and every other call returns no value and
appends exactly one instruction. -/
theorem exec_frame (c : Call) (b b1 : Builder) (v : Value)
    (h : c.exec b = .returned v b1) :
    (c = .nextLabelID ∧ v = .int b.fNumLabels ∧
      b1 = { b with fNumLabels := b.fNumLabels + 1 }) ∨
    (c = .enableExecutionMaskWrites ∧ v = .unit ∧
      b1 = { b with fExecutionMaskWritesEnabled := b.fExecutionMaskWritesEnabled + 1 }) ∨
    (c = .disableExecutionMaskWrites ∧ v = .unit ∧ 0 < b.fExecutionMaskWritesEnabled ∧
      b1 = { b with fExecutionMaskWritesEnabled := b.fExecutionMaskWritesEnabled - 1 }) ∨
    (c = .executionMaskWritesAreEnabled ∧
      v = .bool (decide (b.fExecutionMaskWritesEnabled > 0)) ∧ b1 = b) ∨
    (v = .unit ∧ ∃ instr, b1 = b.appended instr) := by
  cases c
  case nextLabelID =>
    rw [exec_nextLabelID] at h
    simp only [Outcome.returned.injEq] at h
    exact Or.inl ⟨rfl, h.1.symm, h.2.symm⟩
  case enableExecutionMaskWrites =>
    rw [exec_enable] at h
    simp only [Outcome.returned.injEq] at h
    exact Or.inr (Or.inl ⟨rfl, h.1.symm, h.2.symm⟩)
  case disableExecutionMaskWrites =>
    rw [exec_disable] at h
    by_cases hpos : b.fExecutionMaskWritesEnabled > 0
    · simp only [hpos, if_true, Outcome.returned.injEq] at h
      exact Or.inr (Or.inr (Or.inl ⟨rfl, h.1.symm, hpos, h.2.symm⟩))
    · simp [hpos] at h
  case executionMaskWritesAreEnabled =>
    simp only [Call.exec, bind_apply, pure_apply, Builder.executionMaskWritesAreEnabled,
      Outcome.returned.injEq] at h
    exact Or.inr (Or.inr (Or.inr (Or.inl ⟨rfl, h.1.symm, h.2.symm⟩)))
  all_goals
    simp only [Call.exec, bind_apply, pure_apply, Builder.executionMaskWritesAreEnabled,
      Builder.init_lane_masks, Builder.store_src_rg, Builder.store_src, Builder.store_dst,
      Builder.store_device_xy01, Builder.load_src, Builder.load_dst,
      Builder.set_current_stack, Builder.case_op, Builder.select, Builder.copy_slots_masked,
      Builder.push_condition_mask, Builder.pop_condition_mask, Builder.merge_condition_mask,
      Builder.push_loop_mask, Builder.pop_loop_mask, Builder.push_src_rgba,
      Builder.push_dst_rgba, Builder.push_device_xy01, Builder.pop_src_rg,
      Builder.pop_src_rgba, Builder.pop_dst_rgba, Builder.mask_off_loop_mask,
      Builder.reenable_loop_mask, Builder.pop_and_reenable_loop_mask,
      Builder.merge_loop_mask, Builder.push_return_mask, Builder.mask_off_return_mask,
      Builder.invoke_shader, Builder.invoke_color_filter, Builder.invoke_blender,
      Builder.invoke_to_linear_srgb, Builder.invoke_from_linear_srgb, Builder.trace_line,
      Builder.trace_var, Builder.trace_enter, Builder.trace_exit, Builder.trace_scope,
      assert_apply, push_back_nil, push_back_one, push_back_two] at h
    try split_ifs at h
    simp only [Outcome.returned.injEq] at h
    exact Or.inr (Or.inr (Or.inr (Or.inr ⟨h.1.symm, _, h.2.symm⟩)))

/-- Every call other than `nextLabelID` leaves the label count alone and does not return
an integer. -/
theorem exec_keeps_labels (c : Call) (hc : c ≠ .nextLabelID) (b b1 : Builder) (v : Value)
    (h : c.exec b = .returned v b1) :
    b1.fNumLabels = b.fNumLabels ∧ Value.labelIDs [v] = [] := by
  rcases exec_frame c b b1 v h with ⟨h1, _, _⟩ | ⟨_, hv, hb⟩ | ⟨_, hv, _, hb⟩ | ⟨_, hv, hb⟩ |
    ⟨hv, instr, hb⟩
  · exact absurd h1 hc
  all_goals
    subst hv; subst hb
    exact ⟨rfl, rfl⟩

/-- The counter invariant: no call makes a counter that is not negative go negative. -/
theorem exec_counter_nonneg (c : Call) (b b1 : Builder) (v : Value)
    (h0 : 0 ≤ b.fExecutionMaskWritesEnabled) (h : c.exec b = .returned v b1) :
    0 ≤ b1.fExecutionMaskWritesEnabled := by
  rcases exec_frame c b b1 v h with ⟨_, _, hb⟩ | ⟨_, _, hb⟩ | ⟨_, _, hpos, hb⟩ | ⟨_, _, hb⟩ |
    ⟨_, instr, hb⟩
  all_goals
    subst hb
    first
    | exact h0
    | (show 0 ≤ b.fExecutionMaskWritesEnabled + 1; omega)
    | (show 0 ≤ b.fExecutionMaskWritesEnabled - 1; omega)

/-- Every builder state that a sequence of inline calls reaches from a fresh Builder has a
counter that is not negative. -/
theorem execAll_counter_nonneg (calls : List Call) :
    ∀ (b0 b1 : Builder) (vals : List Value), 0 ≤ b0.fExecutionMaskWritesEnabled →
      Call.execAll calls b0 = .returned vals b1 → 0 ≤ b1.fExecutionMaskWritesEnabled := by
  induction calls with
  | nil =>
    intro b0 b1 vals h0 hrun
    simp only [Call.execAll, pure_apply, Outcome.returned.injEq] at hrun
    rw [← hrun.2]
    exact h0
  | cons c cs ih =>
    intro b0 b1 vals h0 hrun
    obtain ⟨v1, b2, v2, h1, h2, _⟩ := execAll_append [c] cs b0 b1 vals hrun
    rw [execAll_cons] at h1
    cases hc : c.exec b0 with
    | aborted b3 => simp [hc] at h1
    | returned v b3 =>
      rw [hc] at h1
      simp only [Call.execAll, pure_apply, Outcome.returned.injEq] at h1
      rw [← h1.2] at h2
      exact ih b3 b1 v2 (exec_counter_nonneg c b0 b3 v h0 hc) h2

theorem labelIDs_cons_of_nil (v : Value) (vs : List Value) (h : Value.labelIDs [v] = []) :
    Value.labelIDs (v :: vs) = Value.labelIDs vs := by
  cases v <;> simp_all [Value.labelIDs]

/-- A returning sequence of calls hands out the label IDs `n, n+1, ...` where `n` is the
label count it started with, one per `nextLabelID` call. -/
theorem execAll_labelIDs (calls : List Call) :
    ∀ (b0 b1 : Builder) (vals : List Value),
      Call.execAll calls b0 = .returned vals b1 →
      Value.labelIDs vals
        = (List.range (calls.count .nextLabelID)).map (fun (i : Nat) => b0.fNumLabels + (i : Int)) ∧
      b1.fNumLabels = b0.fNumLabels + (calls.count .nextLabelID : Int) := by
  induction calls with
  | nil =>
    intro b0 b1 vals hrun
    simp only [Call.execAll, pure_apply, Outcome.returned.injEq] at hrun
    obtain ⟨hv, hb⟩ := hrun
    subst hv; subst hb
    simp [Value.labelIDs]
  | cons c cs ih =>
    intro b0 b1 vals hrun
    rw [execAll_cons] at hrun
    cases hc : c.exec b0 with
    | aborted b2 => simp [hc] at hrun
    | returned v b2 =>
      rw [hc] at hrun
      simp only [] at hrun
      cases hcs : Call.execAll cs b2 with
      | aborted b3 => simp [hcs] at hrun
      | returned vs b3 =>
        rw [hcs] at hrun
        simp only [Outcome.returned.injEq] at hrun
        obtain ⟨hv, hb⟩ := hrun
        subst hv; subst hb
        obtain ⟨ih1, ih2⟩ := ih b2 b3 vs hcs
        by_cases hlabel : c = .nextLabelID
        · subst hlabel
          rw [exec_nextLabelID] at hc
          simp only [Outcome.returned.injEq] at hc
          obtain ⟨hv, hb⟩ := hc
          subst hv; subst hb
          simp only [] at ih1 ih2
          simp only [List.count_cons_self, List.range_succ_eq_map, List.map_cons,
            List.map_map, Value.labelIDs, ih1]
          refine ⟨?_, by rw [ih2]; push_cast; omega⟩
          simp only [Nat.cast_zero, add_zero, List.cons.injEq, true_and]
          apply List.map_congr_left
          intro i _
          simp only [Function.comp, Nat.succ_eq_add_one]
          push_cast
          omega
        · obtain ⟨hk1, hk2⟩ := exec_keeps_labels c hlabel b0 b2 v hc
          rw [labelIDs_cons_of_nil v vs hk2, List.count_cons_of_ne (Ne.symm hlabel), ih1, ih2, hk1]
          exact ⟨rfl, rfl⟩

/-- Successive `nextLabelID` calls always return. -/
theorem execAll_replicate_nextLabelID (k : Nat) :
    ∀ b0 : Builder, Call.execAll (List.replicate k .nextLabelID) b0
      = .returned ((List.range k).map fun (i : Nat) => Value.int (b0.fNumLabels + (i : Int)))
          { b0 with fNumLabels := b0.fNumLabels + (k : Int) } := by
  induction k with
  | zero => intro b0; simp [Call.execAll, pure_apply]
  | succ k ih =>
    intro b0
    rw [List.replicate_succ, execAll_cons, exec_nextLabelID]
    simp only []
    rw [ih]
    simp only [List.range_succ_eq_map, List.map_cons, List.map_map, Nat.cast_zero, add_zero,
      Outcome.returned.injEq, List.cons.injEq, true_and, Builder.mk.injEq]
    refine ⟨?_, by push_cast; omega, trivial⟩
    apply List.map_congr_left
    intro i _
    simp only [Function.comp, Nat.succ_eq_add_one]
    push_cast
    congr 1
    omega

/-- C5: in every builder state `nextLabelID()` returns the current label count `n` and
leaves the label count at `n + 1`, changing nothing else; `k` successive calls on a fresh
Builder return exactly `0, 1, ..., k-1`; and for every returning sequence of inline Builder
calls on a fresh Builder (instruction emitters and mask-enable calls interleaved in any
way) the label IDs handed out are exactly `0, 1, ..., m-1` in order, where `m` is the
number of `nextLabelID` calls in the sequence, so they are strictly increasing. -/
theorem nextLabelID_monotonic (b : Builder) (k : Nat) (calls : List Call)
    (vals : List Value) (b1 : Builder)
    (hrun : Call.execAll calls Builder.fresh = .returned vals b1) :
    Builder.nextLabelID b = .returned b.fNumLabels
      { fInstructions := b.fInstructions, fNumLabels := b.fNumLabels + 1,
        fExecutionMaskWritesEnabled := b.fExecutionMaskWritesEnabled } ∧
    Call.execAll (List.replicate k .nextLabelID) Builder.fresh
      = .returned ((List.range k).map fun (i : Nat) => Value.int i) ⟨[], k, 0⟩ ∧
    Value.labelIDs vals
      = (List.range (calls.count .nextLabelID)).map (fun (i : Nat) => (i : Int)) ∧
    b1.fNumLabels = (calls.count .nextLabelID : Int) ∧
    (Value.labelIDs vals).Pairwise (fun x y => x < y) := by
  have hk := execAll_replicate_nextLabelID k Builder.fresh
  have hl := execAll_labelIDs calls Builder.fresh b1 vals hrun
  have hzero : Builder.fresh.fNumLabels = 0 := rfl
  simp only [hzero, zero_add] at hk hl
  refine ⟨rfl, hk, hl.1, hl.2, ?_⟩
  rw [hl.1]
  apply List.Pairwise.map _ _ (List.pairwise_lt_range _)
  intro x y hxy
  exact_mod_cast hxy

/-- Witness for C5: three `nextLabelID` calls interleaved with a mask enable, a mask push
and a trace emitter return 0, 1, 2. -/
theorem nextLabelID_monotonic_witness :
    Value.labelIDs [.int 0, .unit, .unit, .int 1, .unit, .int 2]
      = (List.range (([.nextLabelID, .enableExecutionMaskWrites, .push_condition_mask,
          .nextLabelID, .trace_line 0 7, .nextLabelID] : List Call).count
            .nextLabelID)).map (fun (i : Nat) => (i : Int)) :=
  (nextLabelID_monotonic Builder.fresh 0
    [.nextLabelID, .enableExecutionMaskWrites, .push_condition_mask, .nextLabelID,
      .trace_line 0 7, .nextLabelID]
    [.int 0, .unit, .unit, .int 1, .unit, .int 2]
    ⟨[⟨.push_condition_mask, NA, NA, 0, 0, 0, 0⟩, ⟨.native "trace_line", NA, NA, 0, 7, 0, 0⟩],
      3, 1⟩ (by decide)).2.2.1

/-! ## Fixed-arity slot ranges (C6) and Instruction construction (C7) -/

/-- The shape shared by the fixed-arity emitters: assert the slot count, then append an
instruction whose first slot is the range's index. -/
theorem arity_guard_contract (op : BuilderOp) (slots : SlotRange) (n : Int) (b : Builder) :
    PreconditionContract
      (do Builder.assert (slots.count == n)
          Builder.push_back op [slots.index] [])
      b (slots.count ≠ n) ⟨op, slots.index, NA, 0, 0, 0, 0⟩ := by
  apply contract_of_guard _ _ (slots.count == n)
  · simp only [bind_apply, assert_apply]
    by_cases h : slots.count = n <;> simp [h, push_back_one]
  · simp

/-- C6: in every builder state, `store_src`, `store_dst`, `store_device_xy01`, `load_src`
and `load_dst` abort if and only if `slots.count` is not 4, and `store_src_rg` aborts if and
only if `slots.count` is not 2; an abort appends nothing; otherwise the call returns having
appended exactly one instruction of the same-named op with `fSlotA = slots.index`,
`fSlotB = NA` and all four immediates 0. -/
theorem fixed_arity_slot_ranges (b : Builder) (slots : SlotRange) :
    PreconditionContract (Builder.store_src_rg slots) b (slots.count ≠ 2)
      ⟨.native "store_src_rg", slots.index, NA, 0, 0, 0, 0⟩ ∧
    PreconditionContract (Builder.store_src slots) b (slots.count ≠ 4)
      ⟨.native "store_src", slots.index, NA, 0, 0, 0, 0⟩ ∧
    PreconditionContract (Builder.store_dst slots) b (slots.count ≠ 4)
      ⟨.native "store_dst", slots.index, NA, 0, 0, 0, 0⟩ ∧
    PreconditionContract (Builder.store_device_xy01 slots) b (slots.count ≠ 4)
      ⟨.native "store_device_xy01", slots.index, NA, 0, 0, 0, 0⟩ ∧
    PreconditionContract (Builder.load_src slots) b (slots.count ≠ 4)
      ⟨.native "load_src", slots.index, NA, 0, 0, 0, 0⟩ ∧
    PreconditionContract (Builder.load_dst slots) b (slots.count ≠ 4)
      ⟨.native "load_dst", slots.index, NA, 0, 0, 0, 0⟩ :=
  ⟨arity_guard_contract _ slots 2 b, arity_guard_contract _ slots 4 b,
    arity_guard_contract _ slots 4 b, arity_guard_contract _ slots 4 b,
    arity_guard_contract _ slots 4 b, arity_guard_contract _ slots 4 b⟩

/-- Witness for C6: `store_src` on a fresh Builder returns for the 4-slot range at 8 and
aborts, appending nothing, for the 3-slot range at 8. -/
theorem fixed_arity_slot_ranges_witness :
    Builder.store_src ⟨8, 4⟩ Builder.fresh
      = .returned () (Builder.fresh.appended ⟨.native "store_src", 8, NA, 0, 0, 0, 0⟩) ∧
    Builder.store_src ⟨8, 3⟩ Builder.fresh = .aborted Builder.fresh :=
  ⟨(fixed_arity_slot_ranges Builder.fresh ⟨8, 4⟩).2.1.2.2 (by decide),
    (fixed_arity_slot_ranges Builder.fresh ⟨8, 3⟩).2.1.2.1 (by decide)⟩

/-- C7: the Instruction constructor, for every op, slot list and list of supplied
immediates. A slot list of length at most 2 gives an Instruction with the given op whose
slot fields are the given slots in order followed by `NA` for each missing one, and, when
at most four immediates are supplied, whose immediate fields are the supplied values in
order followed by 0 for each one not supplied. The constructor's assertion fails if and
only if the slot list has length 3 or more. `NA` is -1. -/
theorem instruction_construction (op : BuilderOp) (slots : List Slot) (imms : List Int) :
    (slots.length ≤ 2 → ∃ instr, Instruction.ctor op slots imms = some instr ∧
      instr.fOp = op ∧
      [instr.fSlotA, instr.fSlotB] = slots ++ List.replicate (2 - slots.length) NA ∧
      (imms.length ≤ 4 →
        [instr.fImmA, instr.fImmB, instr.fImmC, instr.fImmD]
          = imms ++ List.replicate (4 - imms.length) 0)) ∧
    (Instruction.ctor op slots imms = none ↔ 3 ≤ slots.length) ∧
    NA = -1 := by
  refine ⟨?_, ?_, rfl⟩
  · intro hlen
    match slots, hlen with
    | [], _ =>
      refine ⟨_, rfl, rfl, rfl, ?_⟩
      intro hi
      match imms, hi with
      | [], _ => rfl
      | [_], _ => rfl
      | [_, _], _ => rfl
      | [_, _, _], _ => rfl
      | [_, _, _, _], _ => rfl
    | [x], _ =>
      refine ⟨_, rfl, rfl, rfl, ?_⟩
      intro hi
      match imms, hi with
      | [], _ => rfl
      | [_], _ => rfl
      | [_, _], _ => rfl
      | [_, _, _], _ => rfl
      | [_, _, _, _], _ => rfl
    | [x, y], _ =>
      refine ⟨_, rfl, rfl, rfl, ?_⟩
      intro hi
      match imms, hi with
      | [], _ => rfl
      | [_], _ => rfl
      | [_, _], _ => rfl
      | [_, _, _], _ => rfl
      | [_, _, _, _], _ => rfl
  · match slots with
    | [] => simp [Instruction.ctor, SkASSERT]
    | [_] => simp [Instruction.ctor, SkASSERT]
    | [_, _] => simp [Instruction.ctor, SkASSERT]
    | _ :: _ :: _ :: _ => simp [Instruction.ctor, SkASSERT]

/-- Witness for C7: one slot and two immediates; `fSlotB` is `NA`, `fImmC` and `fImmD`
are 0. -/
theorem instruction_construction_witness :
    ∃ instr, Instruction.ctor (.native "trace_var") [5] [1, 3] = some instr ∧
      instr.fOp = .native "trace_var" ∧
      [instr.fSlotA, instr.fSlotB] = [5] ++ List.replicate (2 - [(5 : Slot)].length) NA ∧
      (([1, 3] : List Int).length ≤ 4 →
        [instr.fImmA, instr.fImmB, instr.fImmC, instr.fImmD]
          = [1, 3] ++ List.replicate (4 - ([1, 3] : List Int).length) 0) :=
  (instruction_construction (.native "trace_var") [5] [1, 3]).1 (by decide)

/-! ## Integer encodings of the op enumerations (C8, C9) -/

theorem programOp_toInt_native (ops : List String) (s : String) (h : s ∈ ops) :
    ProgramOp.toInt ops (.native s) = ops.indexOf s := by
  unfold ProgramOp.toInt ProgramOp.enumerators
  rw [List.indexOf_append_of_mem (List.mem_map_of_mem _ h)]
  induction ops with
  | nil => simp at h
  | cons x xs ih =>
    by_cases hx : x = s
    · subst hx; simp
    · have hs : s ∈ xs := by
        rcases List.mem_cons.mp h with h1 | h1
        · exact absurd h1.symm hx
        · exact h1
      have hne : ProgramOp.native x ≠ ProgramOp.native s := by
        intro hc; exact hx (ProgramOp.native.inj hc)
      rw [List.map_cons, List.indexOf_cons_ne _ hne, List.indexOf_cons_ne _ hx, ih hs]

theorem builderOp_toInt_native (ops : List String) (s : String) (h : s ∈ ops) :
    BuilderOp.toInt ops (.native s) = ops.indexOf s := by
  unfold BuilderOp.toInt BuilderOp.enumerators
  rw [List.append_assoc, List.indexOf_append_of_mem (List.mem_map_of_mem _ h)]
  induction ops with
  | nil => simp at h
  | cons x xs ih =>
    by_cases hx : x = s
    · subst hx; simp
    · have hs : s ∈ xs := by
        rcases List.mem_cons.mp h with h1 | h1
        · exact absurd h1.symm hx
        · exact h1
      have hne : BuilderOp.native x ≠ BuilderOp.native s := by
        intro hc; exact hx (BuilderOp.native.inj hc)
      rw [List.map_cons, List.indexOf_cons_ne _ hne, List.indexOf_cons_ne _ hx, ih hs]

theorem programOp_toInt_of_not_native (ops : List String) (p : ProgramOp)
    (h : ∀ s, p ≠ .native s) :
    ProgramOp.toInt ops p = ops.length + ProgramOp.extendedOps.indexOf p := by
  unfold ProgramOp.toInt ProgramOp.enumerators
  have hnot : p ∉ ops.map ProgramOp.native := by
    intro hmem
    obtain ⟨s, _, hs⟩ := List.mem_map.mp hmem
    exact h s hs.symm
  rw [List.indexOf_append_of_not_mem hnot, List.length_map]

theorem builderOp_toInt_of_not_native (ops : List String) (b : BuilderOp)
    (h : ∀ s, b ≠ .native s) :
    BuilderOp.toInt ops b
      = ops.length + (BuilderOp.extendedOps ++ BuilderOp.builderSpecificOps).indexOf b := by
  unfold BuilderOp.toInt BuilderOp.enumerators
  have hnot : b ∉ ops.map BuilderOp.native := by
    intro hmem
    obtain ⟨s, _, hs⟩ := List.mem_map.mp hmem
    exact h s hs.symm
  rw [List.append_assoc, List.indexOf_append_of_not_mem hnot, List.length_map]

/-- C8: over any native op list, each of the six extended ops `label`, `invoke_shader`,
`invoke_color_filter`, `invoke_blender`, `invoke_to_linear_srgb` and
`invoke_from_linear_srgb` has the same integer encoding as a ProgramOp and as a
BuilderOp. -/
theorem extended_ops_in_sync (nativeOps : List String) :
    ProgramOp.toInt nativeOps .label = BuilderOp.toInt nativeOps .label ∧
    ProgramOp.toInt nativeOps .invoke_shader = BuilderOp.toInt nativeOps .invoke_shader ∧
    ProgramOp.toInt nativeOps .invoke_color_filter
      = BuilderOp.toInt nativeOps .invoke_color_filter ∧
    ProgramOp.toInt nativeOps .invoke_blender = BuilderOp.toInt nativeOps .invoke_blender ∧
    ProgramOp.toInt nativeOps .invoke_to_linear_srgb
      = BuilderOp.toInt nativeOps .invoke_to_linear_srgb ∧
    ProgramOp.toInt nativeOps .invoke_from_linear_srgb
      = BuilderOp.toInt nativeOps .invoke_from_linear_srgb := by
  refine ⟨?_, ?_, ?_, ?_, ?_, ?_⟩ <;>
    (rw [programOp_toInt_of_not_native _ _ (by intro s; simp),
      builderOp_toInt_of_not_native _ _ (by intro s; simp)]
     rfl)

theorem builderSpecific_not_native (b : BuilderOp) (hb : b ∈ BuilderOp.builderSpecificOps) :
    ∀ s, b ≠ .native s := by
  intro s hs
  subst hs
  simp [BuilderOp.builderSpecificOps] at hb

theorem builderSpecific_not_extended :
    ∀ b ∈ BuilderOp.builderSpecificOps, b ∉ BuilderOp.extendedOps := by
  decide

theorem programOp_enumerators_length (ops : List String) :
    (ProgramOp.enumerators ops).length = ops.length + 6 := by
  simp [ProgramOp.enumerators, ProgramOp.extendedOps]

theorem builderOp_enumerators_length (ops : List String) :
    (BuilderOp.enumerators ops).length = ops.length + 39 := by
  simp [BuilderOp.enumerators, BuilderOp.extendedOps, BuilderOp.builderSpecificOps]

/-- A Builder-specific op is encoded at or above the native op count plus six. -/
theorem builderSpecific_toInt_ge (ops : List String) (b : BuilderOp)
    (hb : b ∈ BuilderOp.builderSpecificOps) :
    ops.length + 6 ≤ BuilderOp.toInt ops b := by
  rw [builderOp_toInt_of_not_native ops b (builderSpecific_not_native b hb),
    List.indexOf_append_of_not_mem (builderSpecific_not_extended b hb)]
  simp only [BuilderOp.extendedOps, List.length_cons, List.length_nil]
  omega

/-- The same-named BuilderOp of a ProgramOp is never a Builder-specific op. -/
theorem toBuilderOp_not_builderSpecific (p : ProgramOp) :
    p.toBuilderOp ∉ BuilderOp.builderSpecificOps := by
  cases p <;> simp [ProgramOp.toBuilderOp, BuilderOp.builderSpecificOps]

theorem toBuilderOp_mem_and_toInt (ops : List String) (p : ProgramOp)
    (hp : p ∈ ProgramOp.enumerators ops) :
    p.toBuilderOp ∈ BuilderOp.enumerators ops ∧
      BuilderOp.toInt ops p.toBuilderOp = ProgramOp.toInt ops p := by
  cases p with
  | native s =>
    have hs : s ∈ ops := by
      simpa [ProgramOp.enumerators, ProgramOp.extendedOps] using hp
    refine ⟨?_, ?_⟩
    · simp [ProgramOp.toBuilderOp, BuilderOp.enumerators, hs]
    · simp only [ProgramOp.toBuilderOp]
      rw [builderOp_toInt_native ops s hs, programOp_toInt_native ops s hs]
  | _ =>
    refine ⟨?_, ?_⟩
    · simp [ProgramOp.toBuilderOp, BuilderOp.enumerators, BuilderOp.extendedOps]
    · simp only [ProgramOp.toBuilderOp]
      rw [programOp_toInt_of_not_native _ _ (by intro s; simp),
        builderOp_toInt_of_not_native _ _ (by intro s; simp)]
      rfl

/-- C9: over any native op list, every ProgramOp enumerator has a same-named BuilderOp
enumerator with the identical integer encoding; each of the 33 Builder-only ops
`push_constant` through `unsupported` is a BuilderOp enumerator, is not the same-named op
of any ProgramOp, and is encoded strictly above every ProgramOp enumerator; every BuilderOp
enumerator is either the same-named op of a ProgramOp enumerator or one of these 33, so
BuilderOp has exactly 33 enumerators more than ProgramOp; a BuilderOp enumerator is the
same-named op of a ProgramOp enumerator if and only if its encoding is at most that of
`invoke_from_linear_srgb`; and `unsupported` is an enumerator, encoded at the native op
count plus 38, strictly above every other BuilderOp enumerator. -/
theorem builderOp_superset_of_programOp (nativeOps : List String) :
    (∀ p ∈ ProgramOp.enumerators nativeOps,
      p.toBuilderOp ∈ BuilderOp.enumerators nativeOps ∧
      BuilderOp.toInt nativeOps p.toBuilderOp = ProgramOp.toInt nativeOps p) ∧
    (∀ b ∈ ([.push_constant, .push_slots, .push_slots_indirect, .push_uniform,
        .push_uniform_indirect, .push_clone, .push_clone_from_stack,
        .push_clone_indirect_from_stack, .copy_stack_to_slots,
        .copy_stack_to_slots_unmasked, .copy_stack_to_slots_indirect,
        .copy_uniform_to_slots_unmasked, .swizzle_copy_stack_to_slots,
        .swizzle_copy_stack_to_slots_indirect, .discard_stack, .select,
        .push_condition_mask, .pop_condition_mask, .push_loop_mask, .pop_loop_mask,
        .pop_and_reenable_loop_mask, .push_return_mask, .pop_return_mask,
        .push_src_rgba, .push_dst_rgba, .push_device_xy01, .pop_src_rg, .pop_src_rgba,
        .pop_dst_rgba, .set_current_stack, .trace_var_indirect,
        .branch_if_no_active_lanes_on_stack_top_equal, .unsupported] : List BuilderOp),
      b ∈ BuilderOp.enumerators nativeOps ∧
      (∀ p : ProgramOp, p.toBuilderOp ≠ b) ∧
      ∀ p ∈ ProgramOp.enumerators nativeOps,
        ProgramOp.toInt nativeOps p < BuilderOp.toInt nativeOps b) ∧
    (∀ b ∈ BuilderOp.enumerators nativeOps,
      (∃ p ∈ ProgramOp.enumerators nativeOps, p.toBuilderOp = b) ∨
      b ∈ ([.push_constant, .push_slots, .push_slots_indirect, .push_uniform,
        .push_uniform_indirect, .push_clone, .push_clone_from_stack,
        .push_clone_indirect_from_stack, .copy_stack_to_slots,
        .copy_stack_to_slots_unmasked, .copy_stack_to_slots_indirect,
        .copy_uniform_to_slots_unmasked, .swizzle_copy_stack_to_slots,
        .swizzle_copy_stack_to_slots_indirect, .discard_stack, .select,
        .push_condition_mask, .pop_condition_mask, .push_loop_mask, .pop_loop_mask,
        .pop_and_reenable_loop_mask, .push_return_mask, .pop_return_mask,
        .push_src_rgba, .push_dst_rgba, .push_device_xy01, .pop_src_rg, .pop_src_rgba,
        .pop_dst_rgba, .set_current_stack, .trace_var_indirect,
        .branch_if_no_active_lanes_on_stack_top_equal, .unsupported] : List BuilderOp)) ∧
    (BuilderOp.enumerators nativeOps).length
      = (ProgramOp.enumerators nativeOps).length + 33 ∧
    (∀ b ∈ BuilderOp.enumerators nativeOps,
      (∃ p ∈ ProgramOp.enumerators nativeOps, p.toBuilderOp = b)
        ↔ BuilderOp.toInt nativeOps b
            ≤ BuilderOp.toInt nativeOps .invoke_from_linear_srgb) ∧
    BuilderOp.unsupported ∈ BuilderOp.enumerators nativeOps ∧
    BuilderOp.toInt nativeOps .unsupported = nativeOps.length + 38 ∧
    (∀ b ∈ BuilderOp.enumerators nativeOps, b ≠ .unsupported →
      BuilderOp.toInt nativeOps b < BuilderOp.toInt nativeOps .unsupported) := by
  have hlast : BuilderOp.toInt nativeOps .invoke_from_linear_srgb = nativeOps.length + 5 := by
    rw [builderOp_toInt_of_not_native _ _ (by intro s; simp)]
    rfl
  have hplt : ∀ p ∈ ProgramOp.enumerators nativeOps,
      ProgramOp.toInt nativeOps p < nativeOps.length + 6 := by
    intro p hp
    have := List.indexOf_lt_length.mpr hp
    rwa [programOp_enumerators_length] at this
  have hun : BuilderOp.unsupported ∈ BuilderOp.enumerators nativeOps :=
    List.mem_append_right _ (by simp [BuilderOp.builderSpecificOps])
  have hval : BuilderOp.toInt nativeOps .unsupported = nativeOps.length + 38 := by
    rw [builderOp_toInt_of_not_native _ _ (by intro s; simp)]
    rfl
  have hcases : ∀ b ∈ BuilderOp.enumerators nativeOps,
      (∃ p ∈ ProgramOp.enumerators nativeOps, p.toBuilderOp = b) ∨
        b ∈ BuilderOp.builderSpecificOps := by
    intro b hb
    unfold BuilderOp.enumerators at hb
    rcases List.mem_append.mp hb with hb1 | hb1
    · left
      rcases List.mem_append.mp hb1 with hb2 | hb2
      · obtain ⟨s, hs, rfl⟩ := List.mem_map.mp hb2
        exact ⟨.native s, List.mem_append_left _ (List.mem_map_of_mem _ hs), rfl⟩
      · simp only [BuilderOp.extendedOps, List.mem_cons, List.mem_singleton,
          List.not_mem_nil, or_false] at hb2
        rcases hb2 with rfl | rfl | rfl | rfl | rfl | rfl
        · exact ⟨.label, by simp [ProgramOp.enumerators, ProgramOp.extendedOps], rfl⟩
        · exact ⟨.invoke_shader, by simp [ProgramOp.enumerators, ProgramOp.extendedOps], rfl⟩
        · exact ⟨.invoke_color_filter,
            by simp [ProgramOp.enumerators, ProgramOp.extendedOps], rfl⟩
        · exact ⟨.invoke_blender, by simp [ProgramOp.enumerators, ProgramOp.extendedOps], rfl⟩
        · exact ⟨.invoke_to_linear_srgb,
            by simp [ProgramOp.enumerators, ProgramOp.extendedOps], rfl⟩
        · exact ⟨.invoke_from_linear_srgb,
            by simp [ProgramOp.enumerators, ProgramOp.extendedOps], rfl⟩
    · exact Or.inr hb1
  refine ⟨toBuilderOp_mem_and_toInt nativeOps, ?_, hcases, ?_, ?_, hun, hval, ?_⟩
  · intro b hb
    have hb : b ∈ BuilderOp.builderSpecificOps := hb
    refine ⟨?_, ?_, ?_⟩
    · exact List.mem_append_right _ hb
    · intro p hp
      exact toBuilderOp_not_builderSpecific p (hp ▸ hb)
    · intro p hp
      exact lt_of_lt_of_le (hplt p hp) (builderSpecific_toInt_ge nativeOps b hb)
  · rw [builderOp_enumerators_length, programOp_enumerators_length]
  · intro b hb
    rw [hlast]
    constructor
    · rintro ⟨p, hp, rfl⟩
      rw [(toBuilderOp_mem_and_toInt nativeOps p hp).2]
      have := hplt p hp
      omega
    · intro hle
      rcases hcases b hb with h | h
      · exact h
      · have := builderSpecific_toInt_ge nativeOps b h
        omega
  · intro b hb hne
    have hlt := List.indexOf_lt_length.mpr hb
    rw [builderOp_enumerators_length] at hlt
    have hinj : BuilderOp.toInt nativeOps b ≠ BuilderOp.toInt nativeOps .unsupported := by
      intro heq
      exact hne ((List.indexOf_inj hb hun).mp heq)
    unfold BuilderOp.toInt at hinj hval ⊢
    omega

/-- Witness for C9: over the native op list of the `add` family, the native op `add_float`
is encoded below the Builder-specific op `push_constant`, and `unsupported` is encoded at
5 + 38. -/
theorem builderOp_superset_of_programOp_witness :
    ProgramOp.toInt ["add_n_floats", "add_float", "add_2_floats", "add_3_floats",
        "add_4_floats"] (.native "add_float")
      < BuilderOp.toInt ["add_n_floats", "add_float", "add_2_floats", "add_3_floats",
        "add_4_floats"] .push_constant ∧
    BuilderOp.toInt ["add_n_floats", "add_float", "add_2_floats", "add_3_floats",
        "add_4_floats"] .unsupported = 43 :=
  ⟨((builderOp_superset_of_programOp ["add_n_floats", "add_float", "add_2_floats",
    "add_3_floats", "add_4_floats"]).2.1 .push_constant (by decide)).2.2
      (.native "add_float") (by decide),
    (builderOp_superset_of_programOp ["add_n_floats", "add_float", "add_2_floats",
      "add_3_floats", "add_4_floats"]).2.2.2.2.2.2.1⟩

/-! ## Lowering: arity specialization (C10) -/

/-- C10: in the lowering model, for a multi-slot copy, an adjacent binary op and an
adjacent ternary op with base stage `base` and slot count `n`: if `1 ≤ n ≤ 4` exactly one
stage is appended, the dedicated stage at offset `n` after the base in the op table, which
is not the generic stage; if `n > 4` an adjacent binary or ternary op appends exactly one
stage, the generic N-way stage with a context carrying the dst/src pointers; and for all
three a stage with the generic op is appended only when `n > 4`. In particular a 3-slot
copy lowers to the stage at offset 3. -/
theorem lowering_arity_specialization (pipeline : List Stage) (base dst src src1 n : Int) :
    (1 ≤ n → n ≤ 4 →
      Program.appendCopy pipeline base dst src n
        = pipeline ++ [⟨base + n, .pair dst src⟩] ∧
      Program.appendAdjacentMultiSlotBinaryOp pipeline base dst src n
        = pipeline ++ [⟨base + n, .ptr dst⟩] ∧
      Program.appendAdjacentMultiSlotTernaryOp pipeline base dst src src1 n
        = pipeline ++ [⟨base + n, .ptr dst⟩] ∧
      base + n ≠ base) ∧
    (4 < n →
      Program.appendAdjacentMultiSlotBinaryOp pipeline base dst src n
        = pipeline ++ [⟨base, .binaryOpCtx dst src⟩] ∧
      Program.appendAdjacentMultiSlotTernaryOp pipeline base dst src src1 n
        = pipeline ++ [⟨base, .ternaryOpCtx dst src src1⟩]) ∧
    (∀ s,
      s ∈ (Program.appendCopy pipeline base dst src n).drop pipeline.length ∨
      s ∈ (Program.appendAdjacentMultiSlotBinaryOp pipeline base dst src n).drop
        pipeline.length ∨
      s ∈ (Program.appendAdjacentMultiSlotTernaryOp pipeline base dst src src1 n).drop
        pipeline.length →
      s.op = base → 4 < n) ∧
    Program.appendCopy pipeline base dst src 3
      = pipeline ++ [⟨base + 3, .pair dst src⟩] := by
  refine ⟨?_, ?_, ?_, ?_⟩
  · intro h1 h4
    have hn4 : ¬ n > 4 := by omega
    have hn0 : n > 0 := by omega
    refine ⟨?_, ?_, ?_, by omega⟩ <;>
      simp [Program.appendCopy, Program.appendAdjacentMultiSlotBinaryOp,
        Program.appendAdjacentMultiSlotTernaryOp, hn4, hn0]
  · intro h4
    have hn4 : n > 4 := h4
    refine ⟨?_, ?_⟩ <;>
      simp [Program.appendCopy, Program.appendAdjacentMultiSlotBinaryOp,
        Program.appendAdjacentMultiSlotTernaryOp, Program.appendAdjacentNWayBinaryOp,
        Program.appendAdjacentNWayTernaryOp, hn4]
  · intro s hs hop
    by_contra hn
    have hn4 : ¬ n > 4 := hn
    by_cases hn0 : n > 0
    · simp only [Program.appendCopy, Program.appendAdjacentMultiSlotBinaryOp,
        Program.appendAdjacentMultiSlotTernaryOp, hn4, hn0, if_true, if_false,
        List.drop_left, List.mem_singleton] at hs
      rcases hs with rfl | rfl | rfl <;> (simp only [] at hop; omega)
    · simp [Program.appendCopy, Program.appendAdjacentMultiSlotBinaryOp,
        Program.appendAdjacentMultiSlotTernaryOp, hn4, hn0] at hs
  · simp [Program.appendCopy]

/-- Witness for C10: over the `add` family of the header comment (`add_n_floats`,
`add_float`, `add_2_floats`, `add_3_floats`, `add_4_floats` contiguous in the op table), a
3-slot adjacent binary op with base `add_n_floats` lowers to `add_3_floats`. -/
theorem lowering_arity_specialization_witness :
    Program.appendAdjacentMultiSlotBinaryOp []
        (ProgramOp.toInt ["add_n_floats", "add_float", "add_2_floats", "add_3_floats",
          "add_4_floats"] (.native "add_n_floats")) 16 19 3
      = [] ++ [⟨(ProgramOp.toInt ["add_n_floats", "add_float", "add_2_floats", "add_3_floats",
          "add_4_floats"] (.native "add_n_floats") : Int) + 3, .ptr 16⟩] :=
  ((lowering_arity_specialization []
    (ProgramOp.toInt ["add_n_floats", "add_float", "add_2_floats", "add_3_floats",
      "add_4_floats"] (.native "add_n_floats")) 16 19 22 3).1 (by decide) (by decide)).2.1

/-! ## copy_slots_masked (C19), select (C20) and slot counts (C18) -/

/-- C19: in every builder state, `copy_slots_masked(dst, src)` aborts if and only if
`dst.count` differs from `src.count`, an abort appends nothing, and otherwise the call
returns having appended exactly one instruction with op `copy_slot_masked`,
`fSlotA = dst.index`, `fSlotB = src.index`, `fImmA = dst.count` and
`fImmB = fImmC = fImmD = 0`. -/
theorem copy_slots_masked_contract (b : Builder) (dst src : SlotRange) :
    PreconditionContract (Builder.copy_slots_masked dst src) b (dst.count ≠ src.count)
      ⟨.native "copy_slot_masked", dst.index, src.index, dst.count, 0, 0, 0⟩ := by
  apply contract_of_guard _ _ (dst.count == src.count)
  · simp only [Builder.copy_slots_masked, bind_apply, assert_apply]
    by_cases h : dst.count = src.count <;> simp [h, push_back_two]
  · simp

/-- Witness for C19: a 3-slot masked copy from slot 10 to slot 4 on a fresh Builder, and a
rejected copy from a 2-slot range to a 3-slot range. -/
theorem copy_slots_masked_contract_witness :
    Builder.copy_slots_masked ⟨4, 3⟩ ⟨10, 3⟩ Builder.fresh
      = .returned () (Builder.fresh.appended ⟨.native "copy_slot_masked", 4, 10, 3, 0, 0, 0⟩) ∧
    Builder.copy_slots_masked ⟨4, 3⟩ ⟨10, 2⟩ Builder.fresh = .aborted Builder.fresh :=
  ⟨(copy_slots_masked_contract Builder.fresh ⟨4, 3⟩ ⟨10, 3⟩).2.2 (by decide),
    (copy_slots_masked_contract Builder.fresh ⟨4, 3⟩ ⟨10, 2⟩).2.1 (by decide)⟩

/-- C20: in every builder state, whatever the execution-mask-writes counter is,
`select(slots)` aborts if and only if `slots ≤ 0`, an abort appends nothing, and otherwise
the call returns having appended exactly one instruction with op `select`, both slot
fields `NA`, `fImmA = slots` and the other immediates 0. In particular it returns on a
fresh Builder, where execution-mask writes are not enabled. -/
theorem select_contract (b : Builder) (slots : Int) :
    PreconditionContract (Builder.select slots) b (slots ≤ 0)
      ⟨.select, NA, NA, slots, 0, 0, 0⟩ ∧
    Builder.executionMaskWritesAreEnabled Builder.fresh = .returned false Builder.fresh ∧
    Builder.select 1 Builder.fresh
      = .returned () (Builder.fresh.appended ⟨.select, NA, NA, 1, 0, 0, 0⟩) := by
  refine ⟨?_, rfl, rfl⟩
  apply contract_of_guard _ _ (decide (slots > 0))
  · simp only [Builder.select, bind_apply, assert_apply]
    by_cases h : slots > 0 <;> simp [h, push_back_nil]
  · simp

/-- Witness for C20: with the counter at 0, `select(2)` returns and `select(0)` aborts. -/
theorem select_contract_witness :
    Builder.select 2 ⟨[], 0, 0⟩
      = .returned () ((⟨[], 0, 0⟩ : Builder).appended ⟨.select, NA, NA, 2, 0, 0, 0⟩) ∧
    Builder.select 0 ⟨[], 0, 0⟩ = .aborted ⟨[], 0, 0⟩ :=
  ⟨(select_contract ⟨[], 0, 0⟩ 2).1.2.2 (by decide),
    (select_contract ⟨[], 0, 0⟩ 0).1.2.1 (by decide)⟩

/-- Whatever a single inline call does, returning or aborting, the instruction list it
leaves is the one it found, possibly with one instruction appended whose op is not
`unsupported`. -/
theorem exec_instructions_supported (c : Call) (b : Builder) :
    (c.exec b).builder.fInstructions = b.fInstructions ∨
    ∃ instr, (c.exec b).builder.fInstructions = b.fInstructions ++ [instr] ∧
      instr.fOp ≠ .unsupported := by
  cases c
  case nextLabelID => exact Or.inl rfl
  case enableExecutionMaskWrites => exact Or.inl rfl
  case disableExecutionMaskWrites =>
    rw [exec_disable]
    by_cases hpos : b.fExecutionMaskWritesEnabled > 0 <;> simp [hpos, Outcome.builder]
  case executionMaskWritesAreEnabled => exact Or.inl rfl
  all_goals
    simp only [Call.exec, bind_apply, pure_apply, Builder.executionMaskWritesAreEnabled,
      Builder.init_lane_masks, Builder.store_src_rg, Builder.store_src, Builder.store_dst,
      Builder.store_device_xy01, Builder.load_src, Builder.load_dst,
      Builder.set_current_stack, Builder.case_op, Builder.select, Builder.copy_slots_masked,
      Builder.push_condition_mask, Builder.pop_condition_mask, Builder.merge_condition_mask,
      Builder.push_loop_mask, Builder.pop_loop_mask, Builder.push_src_rgba,
      Builder.push_dst_rgba, Builder.push_device_xy01, Builder.pop_src_rg,
      Builder.pop_src_rgba, Builder.pop_dst_rgba, Builder.mask_off_loop_mask,
      Builder.reenable_loop_mask, Builder.pop_and_reenable_loop_mask,
      Builder.merge_loop_mask, Builder.push_return_mask, Builder.mask_off_return_mask,
      Builder.invoke_shader, Builder.invoke_color_filter, Builder.invoke_blender,
      Builder.invoke_to_linear_srgb, Builder.invoke_from_linear_srgb, Builder.trace_line,
      Builder.trace_var, Builder.trace_enter, Builder.trace_exit, Builder.trace_scope,
      assert_apply, push_back_nil, push_back_one, push_back_two]
    try split_ifs
    all_goals
      first
      | exact Or.inl rfl
      | exact Or.inr ⟨_, rfl, by simp⟩

/-- A sequence of inline calls, returning or aborting part-way, never leaves an
`unsupported` instruction in a list that had none. -/
theorem execAll_instructions_supported (calls : List Call) :
    ∀ b0 : Builder, (∀ instr ∈ b0.fInstructions, instr.fOp ≠ .unsupported) →
      ∀ instr ∈ (Call.execAll calls b0).builder.fInstructions, instr.fOp ≠ .unsupported := by
  induction calls with
  | nil => intro b0 h0; exact h0
  | cons c cs ih =>
    intro b0 h0
    have hstep : ∀ instr ∈ (c.exec b0).builder.fInstructions, instr.fOp ≠ .unsupported := by
      rcases exec_instructions_supported c b0 with h | ⟨i, h, hi⟩
      · rw [h]; exact h0
      · rw [h]
        intro instr hmem
        rcases List.mem_append.mp hmem with h1 | h1
        · exact h0 instr h1
        · rw [List.mem_singleton.mp h1]; exact hi
    rw [execAll_cons]
    cases hc : c.exec b0 with
    | aborted b1 =>
      rw [hc] at hstep
      exact hstep
    | returned v b1 =>
      rw [hc] at hstep
      have := ih b1 hstep
      simp only []
      cases hcs : Call.execAll cs b1 with
      | aborted b2 => rw [hcs] at this; exact this
      | returned vs b2 => rw [hcs] at this; exact this

/-- C15: for every sequence of calls of the Builder's inline emitters (`init_lane_masks`
through `trace_scope`, interleaved in any way with `nextLabelID` and the mask-write
enable/disable calls) on a fresh Builder, whether the sequence runs to its end or stops at
a failing assertion, no instruction in the instruction list has op `unsupported`. The
inline methods that only forward to an out-of-line method (`push_zeros`,
`push_constant_f`, `push_constant_u`, the one-argument forms of `copy_stack_to_slots` and
`copy_stack_to_slots_unmasked`, `pop_slots_indirect`) append nothing of their own: they
never leave an `unsupported` instruction behind provided the method they call never
does. -/
theorem unsupported_never_emitted (calls : List Call)
    (push_constant_i : Int → Int → BuilderM Unit)
    (masked unmasked : SlotRange → Int → BuilderM Unit)
    (copy_stack_to_slots_indirect : SlotRange → Int → SlotRange → BuilderM Unit)
    (discard_stack : Int → BuilderM Unit) :
    (∀ instr ∈ (Call.execAll calls Builder.fresh).builder.fInstructions,
      instr.fOp ≠ .unsupported) ∧
    ((∀ val count, KeepsSupported (push_constant_i val count)) →
      (∀ count, KeepsSupported (Builder.push_zeros push_constant_i count)) ∧
      (∀ (bits : Int → Int) (val : Int),
        KeepsSupported (Builder.push_constant_f bits push_constant_i val)) ∧
      (∀ (bits : Nat → Int) (val : Nat),
        KeepsSupported (Builder.push_constant_u bits push_constant_i val))) ∧
    ((∀ dst offsetFromStackTop, KeepsSupported (masked dst offsetFromStackTop)) →
      ∀ dst, KeepsSupported (Builder.copy_stack_to_slots masked dst)) ∧
    ((∀ dst offsetFromStackTop, KeepsSupported (unmasked dst offsetFromStackTop)) →
      ∀ dst, KeepsSupported (Builder.copy_stack_to_slots_unmasked unmasked dst)) ∧
    ((∀ fixedRange dynamicStackID limitRange,
        KeepsSupported (copy_stack_to_slots_indirect fixedRange dynamicStackID limitRange)) →
      (∀ count, KeepsSupported (discard_stack count)) →
      ∀ fixedRange dynamicStackID limitRange,
        KeepsSupported (Builder.pop_slots_indirect copy_stack_to_slots_indirect discard_stack
          fixedRange dynamicStackID limitRange)) := by
  refine ⟨execAll_instructions_supported calls Builder.fresh (by simp [Builder.fresh]),
    ?_, ?_, ?_, ?_⟩
  · intro h
    exact ⟨fun count => h 0 count, fun bits val => h (bits val) 1,
      fun bits val => h (bits val) 1⟩
  · intro h dst
    exact h dst dst.count
  · intro h dst
    exact h dst dst.count
  · intro hcopy hdiscard fixedRange dynamicStackID limitRange b hb
    have h1 := hcopy fixedRange dynamicStackID limitRange b hb
    simp only [Builder.pop_slots_indirect, bind_apply]
    cases hc : copy_stack_to_slots_indirect fixedRange dynamicStackID limitRange b with
    | aborted b1 =>
      rw [hc] at h1
      exact h1
    | returned v b1 =>
      rw [hc] at h1
      exact hdiscard fixedRange.count b1 h1

/-- Witness for C15: a sequence with a trace emitter, a mask push and a select; the `select`
instruction it leaves is not `unsupported`. -/
theorem unsupported_never_emitted_witness :
    (⟨.select, NA, NA, 2, 0, 0, 0⟩ : Instruction).fOp ≠ .unsupported :=
  (unsupported_never_emitted
    [.trace_enter 0 1, .enableExecutionMaskWrites, .push_condition_mask, .select 2]
    (fun _ _ => pure ()) (fun _ _ => pure ()) (fun _ _ => pure ()) (fun _ _ _ => pure ())
    (fun _ => pure ())).1 ⟨.select, NA, NA, 2, 0, 0, 0⟩ (by decide)

/-! ## Emitters that forward to out-of-line methods (C16, C17) -/

/-- C16: for every implementation of the out-of-line methods
`copy_stack_to_slots_indirect` and `discard_stack`, every `fixedRange`, `dynamicStackID`
and `limitRange`, and every builder state, `pop_slots_indirect` does exactly what the copy
with the same three arguments followed by `discard_stack(fixedRange.count)` does. The
count handed to `discard_stack` is `fixedRange.count`: with a discard that records its
argument in `fImmA` the recorded value is `fixedRange.count`, which differs from what a
discard of `limitRange.count` records whenever the two counts differ. -/
theorem pop_slots_indirect_is_copy_then_discard
    (copy_stack_to_slots_indirect : SlotRange → Int → SlotRange → BuilderM Unit)
    (discard_stack : Int → BuilderM Unit)
    (fixedRange limitRange : SlotRange) (dynamicStackID : Int) (b : Builder) :
    Builder.pop_slots_indirect copy_stack_to_slots_indirect discard_stack
        fixedRange dynamicStackID limitRange b
      = pop_slots_indirect_spec copy_stack_to_slots_indirect discard_stack
        fixedRange dynamicStackID limitRange b ∧
    Builder.pop_slots_indirect (fun _ _ _ => pure ())
        (fun n => Builder.push_back .discard_stack [] [n])
        fixedRange dynamicStackID limitRange b
      = .returned () (b.appended ⟨.discard_stack, NA, NA, fixedRange.count, 0, 0, 0⟩) ∧
    (fixedRange.count ≠ limitRange.count →
      Builder.pop_slots_indirect (fun _ _ _ => pure ())
          (fun n => Builder.push_back .discard_stack [] [n])
          fixedRange dynamicStackID limitRange b
        ≠ .returned () (b.appended ⟨.discard_stack, NA, NA, limitRange.count, 0, 0, 0⟩)) := by
  refine ⟨?_, rfl, ?_⟩
  · simp only [Builder.pop_slots_indirect, pop_slots_indirect_spec, bind_apply]
    cases copy_stack_to_slots_indirect fixedRange dynamicStackID limitRange b <;> rfl
  · intro hne heq
    have h2 : Builder.pop_slots_indirect (fun _ _ _ => pure ())
        (fun n => Builder.push_back .discard_stack [] [n])
        fixedRange dynamicStackID limitRange b
      = .returned () (b.appended ⟨.discard_stack, NA, NA, fixedRange.count, 0, 0, 0⟩) := rfl
    rw [h2] at heq
    simp only [Builder.appended, Outcome.returned.injEq, Builder.mk.injEq,
      List.append_cancel_left_eq, List.cons.injEq, Instruction.mk.injEq, true_and,
      and_true] at heq
    exact hne heq

/-- Witness for C16: a 2-slot fixed range inside a 6-slot limit range; the recording
discard shows 2, not 6. -/
theorem pop_slots_indirect_is_copy_then_discard_witness :
    Builder.pop_slots_indirect (fun _ _ _ => pure ())
        (fun n => Builder.push_back .discard_stack [] [n]) ⟨10, 2⟩ 1 ⟨10, 6⟩ Builder.fresh
      ≠ .returned () (Builder.fresh.appended ⟨.discard_stack, NA, NA, 6, 0, 0, 0⟩) :=
  (pop_slots_indirect_is_copy_then_discard (fun _ _ _ => pure ())
    (fun n => Builder.push_back .discard_stack [] [n])
    ⟨10, 2⟩ ⟨10, 6⟩ 1 Builder.fresh).2.2 (by decide)

/-- C17: for every implementation of the two-argument forms, every `dst` and every builder
state, `copy_stack_to_slots(dst)` does exactly what `copy_stack_to_slots(dst, dst.count)`
does, and `copy_stack_to_slots_unmasked(dst)` does exactly what
`copy_stack_to_slots_unmasked(dst, dst.count)` does. The offset handed on is `dst.count`
and no other value: with a two-argument form that records its offset in `fImmA`, the
one-argument form records `dst.count`. With the two-argument form read as the slots it
takes from a stack, the one-argument forms read exactly the topmost `dst.count` slots:
on every stack that holds at least `dst.count` slots (`dst.count` not negative) what they
read is the stack without its first `length - dst.count` slots, these are `dst.count`
slots, and the stack is the slots below them followed by them. -/
theorem one_argument_copy_uses_count
    (masked unmasked : SlotRange → Int → BuilderM Unit) (dst : SlotRange) (b : Builder) :
    Builder.copy_stack_to_slots masked dst b = masked dst dst.count b ∧
    Builder.copy_stack_to_slots_unmasked unmasked dst b = unmasked dst dst.count b ∧
    (∀ offsetFromStackTop : Int,
      Builder.copy_stack_to_slots
          (fun d n => Builder.push_back .copy_stack_to_slots [d.index] [n]) dst b
        = .returned () (b.appended
            ⟨.copy_stack_to_slots, dst.index, NA, offsetFromStackTop, 0, 0, 0⟩)
        ↔ offsetFromStackTop = dst.count) ∧
    (∀ offsetFromStackTop : Int,
      Builder.copy_stack_to_slots_unmasked
          (fun d n => Builder.push_back .copy_stack_to_slots_unmasked [d.index] [n]) dst b
        = .returned () (b.appended
            ⟨.copy_stack_to_slots_unmasked, dst.index, NA, offsetFromStackTop, 0, 0, 0⟩)
        ↔ offsetFromStackTop = dst.count) ∧
    (∀ (V : Type) (stack : List V), 0 ≤ dst.count → dst.count ≤ stack.length →
      Builder.copy_stack_to_slots (stackSource stack) dst
        = some (stack.drop (stack.length - dst.count.toNat)) ∧
      Builder.copy_stack_to_slots_unmasked (stackSource stack) dst
        = some (stack.drop (stack.length - dst.count.toNat)) ∧
      ((stack.drop (stack.length - dst.count.toNat)).length : Int) = dst.count ∧
      stack = stack.take (stack.length - dst.count.toNat)
        ++ stack.drop (stack.length - dst.count.toNat)) := by
  refine ⟨rfl, rfl, ?_, ?_, ?_⟩
  · intro n
    simp only [Builder.copy_stack_to_slots, push_back_one, Builder.appended,
      Outcome.returned.injEq, Builder.mk.injEq, List.append_cancel_left_eq, List.cons.injEq,
      Instruction.mk.injEq, List.getD_cons_zero, true_and, and_true]
    constructor
    · intro h; exact h.1.symm
    · intro h; subst h; simp
  · intro n
    simp only [Builder.copy_stack_to_slots_unmasked, push_back_one, Builder.appended,
      Outcome.returned.injEq, Builder.mk.injEq, List.append_cancel_left_eq, List.cons.injEq,
      Instruction.mk.injEq, List.getD_cons_zero, true_and, and_true]
    constructor
    · intro h; exact h.1.symm
    · intro h; subst h; simp
  · intro V stack h0 hlen
    have hnat : (dst.count.toNat : Int) = dst.count := Int.toNat_of_nonneg h0
    have hle : dst.count.toNat ≤ stack.length := by omega
    have hdrop : (stack.drop (stack.length - dst.count.toNat)).length = dst.count.toNat := by
      rw [List.length_drop]
      omega
    have hsrc : stackSource stack dst dst.count
        = some (stack.drop (stack.length - dst.count.toNat)) := by
      unfold stackSource
      rw [if_pos ⟨h0, le_refl _, hlen⟩]
      congr 1
      exact List.take_of_length_le (le_of_eq hdrop)
    refine ⟨hsrc, hsrc, ?_, (List.take_append_drop _ _).symm⟩
    rw [hdrop, hnat]

/-- Witness for C17: on the stack 1, 2, 3, 4, 5 (5 on top) the one-argument copy into a
2-slot range reads 4, 5, the two topmost slots; the two-argument form at offset 3 would
read 3, 4. -/
theorem one_argument_copy_uses_count_witness :
    Builder.copy_stack_to_slots (stackSource [1, 2, 3, 4, 5]) ⟨10, 2⟩ = some [4, 5] ∧
    stackSource [1, 2, 3, 4, 5] ⟨10, 2⟩ 3 = some [3, 4] :=
  ⟨((one_argument_copy_uses_count (fun _ _ => pure ()) (fun _ _ => pure ()) ⟨10, 2⟩
      Builder.fresh).2.2.2.2 Nat [1, 2, 3, 4, 5] (by decide) (by decide)).1,
    by decide⟩

/-! ## Appending a program to a pipeline (C14) -/

theorem childEffectResolved_eq_false (callbacks : Callbacks) (instr : Instruction) :
    Program.childEffectResolved callbacks instr = false ↔
      (instr.fOp = .invoke_shader ∧ callbacks.appendShader instr.fImmA = false) ∨
      (instr.fOp = .invoke_color_filter ∧ callbacks.appendColorFilter instr.fImmA = false) ∨
      (instr.fOp = .invoke_blender ∧ callbacks.appendBlender instr.fImmA = false) := by
  unfold Program.childEffectResolved
  split <;> simp_all

/-- In the model `appendStages` returns true exactly when no instruction fails, and what it
appends is, in program order, the contribution of the instructions before the first
failing one. -/
theorem appendStages_spec (lower : Instruction → List Stage) (callbacks : Callbacks)
    (instrs : List Instruction) :
    ∀ pipeline : List PipelineItem,
      ((Program.appendStages lower callbacks instrs pipeline).1 = true ↔
        ∀ instr ∈ instrs, Program.childEffectResolved callbacks instr = true) ∧
      ∃ done rest, instrs = done ++ rest ∧
        (∀ instr ∈ done, Program.childEffectResolved callbacks instr = true) ∧
        (rest = [] ∨ ∃ bad tail, rest = bad :: tail ∧
          Program.childEffectResolved callbacks bad = false) ∧
        (Program.appendStages lower callbacks instrs pipeline).2
          = pipeline ++ done.flatMap (Program.stageItems lower) := by
  induction instrs with
  | nil =>
    intro pipeline
    exact ⟨by simp [Program.appendStages], [], [], rfl, by simp, Or.inl rfl,
      by simp [Program.appendStages]⟩
  | cons i is ih =>
    intro pipeline
    by_cases hi : Program.childEffectResolved callbacks i = true
    · obtain ⟨h1, done, rest, h2, h3, h4, h5⟩ := ih (pipeline ++ Program.stageItems lower i)
      refine ⟨?_, i :: done, rest, by rw [h2]; rfl, ?_, h4, ?_⟩
      · simp only [Program.appendStages, hi, if_true, h1, List.mem_cons, forall_eq_or_imp,
          true_and]
      · intro instr hmem
        rcases List.mem_cons.mp hmem with h | h
        · rw [h]; exact hi
        · exact h3 instr h
      · simp only [Program.appendStages, hi, if_true, h5, List.flatMap_cons,
          List.append_assoc]
    · have hf : Program.childEffectResolved callbacks i = false := by simpa using hi
      refine ⟨?_, [], i :: is, rfl, by simp, Or.inr ⟨i, is, rfl, hf⟩, ?_⟩
      · simp [Program.appendStages, hf]
      · simp [Program.appendStages, hf]

/-- C14: in the model of `appendStages`, for every program, Callbacks implementation and
pipeline: if some `invoke_shader`, `invoke_color_filter` or `invoke_blender` instruction of
the program has its Callbacks hook return false for its child index, `appendStages`
returns false; if the hook returns true for every such instruction (in particular if the
program has none), `appendStages` returns true and has appended the contribution of every
instruction in program order; and in every case what it has appended is, in program order,
the contribution of an initial part of the program. -/
theorem appendStages_reports_child_failure (lower : Instruction → List Stage)
    (callbacks : Callbacks) (instrs : List Instruction) (pipeline : List PipelineItem) :
    ((∃ instr ∈ instrs,
        (instr.fOp = .invoke_shader ∧ callbacks.appendShader instr.fImmA = false) ∨
        (instr.fOp = .invoke_color_filter ∧
          callbacks.appendColorFilter instr.fImmA = false) ∨
        (instr.fOp = .invoke_blender ∧ callbacks.appendBlender instr.fImmA = false)) →
      (Program.appendStages lower callbacks instrs pipeline).1 = false) ∧
    ((∀ instr ∈ instrs,
        (instr.fOp = .invoke_shader → callbacks.appendShader instr.fImmA = true) ∧
        (instr.fOp = .invoke_color_filter →
          callbacks.appendColorFilter instr.fImmA = true) ∧
        (instr.fOp = .invoke_blender → callbacks.appendBlender instr.fImmA = true)) →
      Program.appendStages lower callbacks instrs pipeline
        = (true, pipeline ++ instrs.flatMap (Program.stageItems lower))) ∧
    (∃ done rest, instrs = done ++ rest ∧
      (Program.appendStages lower callbacks instrs pipeline).2
        = pipeline ++ done.flatMap (Program.stageItems lower)) := by
  obtain ⟨hiff, done, rest, hsplit, hdone, hrest, hpipe⟩ :=
    appendStages_spec lower callbacks instrs pipeline
  refine ⟨?_, ?_, ⟨done, rest, hsplit, hpipe⟩⟩
  · rintro ⟨instr, hmem, hbad⟩
    have hf := (childEffectResolved_eq_false callbacks instr).mpr hbad
    cases hres : (Program.appendStages lower callbacks instrs pipeline).1 with
    | false => rfl
    | true =>
      have := hiff.mp hres instr hmem
      rw [hf] at this
      exact absurd this (by decide)
  · intro hall
    have hok : ∀ instr ∈ instrs, Program.childEffectResolved callbacks instr = true := by
      intro instr hmem
      cases hres : Program.childEffectResolved callbacks instr with
      | true => rfl
      | false =>
        obtain ⟨h1, h2, h3⟩ := hall instr hmem
        rcases (childEffectResolved_eq_false callbacks instr).mp hres with h | h | h
        · rw [h1 h.1] at h; exact absurd h.2 (by decide)
        · rw [h2 h.1] at h; exact absurd h.2 (by decide)
        · rw [h3 h.1] at h; exact absurd h.2 (by decide)
    have hflag := hiff.mpr hok
    have hrest2 : rest = [] := by
      rcases hrest with h | ⟨bad, tail, h, hbad⟩
      · exact h
      · have hmem : bad ∈ instrs := by rw [hsplit, h]; simp
        rw [hok bad hmem] at hbad
        exact absurd hbad (by decide)
    rw [hrest2, List.append_nil] at hsplit
    rw [← hsplit] at hpipe
    exact Prod.ext hflag hpipe

/-- Witness for C14: a program that traces, invokes shader 0 and then blender 1, with
Callbacks that resolve the shader but not the blender: `appendStages` returns false. -/
theorem appendStages_reports_child_failure_witness :
    (Program.appendStages (fun instr => [⟨7, .ptr instr.fImmA⟩])
      ⟨fun _ => true, fun _ => true, fun _ => false⟩
      [⟨.native "trace_line", NA, NA, 0, 3, 0, 0⟩, ⟨.invoke_shader, NA, NA, 0, 0, 0, 0⟩,
        ⟨.invoke_blender, NA, NA, 1, 0, 0, 0⟩] []).1 = false :=
  (appendStages_reports_child_failure (fun instr => [⟨7, .ptr instr.fImmA⟩])
    ⟨fun _ => true, fun _ => true, fun _ => false⟩
    [⟨.native "trace_line", NA, NA, 0, 3, 0, 0⟩, ⟨.invoke_shader, NA, NA, 0, 0, 0, 0⟩,
      ⟨.invoke_blender, NA, NA, 1, 0, 0, 0⟩] []).1
    ⟨⟨.invoke_blender, NA, NA, 1, 0, 0, 0⟩, by decide, Or.inr (Or.inr ⟨rfl, rfl⟩)⟩

/-! ## Stack depth analysis (C11) -/

/-- C21: for every implementation of the out-of-line `push_constant_i`, every count and
every builder state, `push_zeros(count)` does exactly what `push_constant_i(0, count)`
does; `push_constant_f(val)` does what `push_constant_i(bits, 1)` does for the bit
pattern of `val`; and for every 32-bit unsigned `v`, `push_constant_u(v)` does exactly
what `push_constant_i(w, 1)` does, where `w` is `v` if `v < 2^31` and `v - 2^32`
otherwise, a value in the `int32_t` range. Distinct 32-bit unsigned values give distinct
`w`, so with a `push_constant_i` that records its arguments they give distinct
instructions. -/
theorem typed_pushes_reduce_to_push_constant_i
    (push_constant_i : Int → Int → BuilderM Unit) (b : Builder) (count : Int)
    (v v2 : Nat) (hv : v < 2 ^ 32) (hv2 : v2 < 2 ^ 32) :
    Builder.push_zeros push_constant_i count b = push_constant_i 0 count b ∧
    (∀ (bits : Int → Int) (val : Int),
      Builder.push_constant_f bits push_constant_i val b = push_constant_i (bits val) 1 b) ∧
    Builder.push_constant_u sk_bit_cast_int32 push_constant_i v b
      = push_constant_i (if v < 2 ^ 31 then (v : Int) else (v : Int) - 2 ^ 32) 1 b ∧
    (-(2 : Int) ^ 31 ≤ sk_bit_cast_int32 v ∧ sk_bit_cast_int32 v < 2 ^ 31) ∧
    (v ≠ v2 → sk_bit_cast_int32 v ≠ sk_bit_cast_int32 v2) ∧
    (v ≠ v2 →
      Builder.push_constant_u sk_bit_cast_int32
          (fun val n => Builder.push_back .push_constant [] [n, val]) v b
        ≠ Builder.push_constant_u sk_bit_cast_int32
          (fun val n => Builder.push_back .push_constant [] [n, val]) v2 b) := by
  have hmod : v % 2 ^ 32 = v := Nat.mod_eq_of_lt hv
  have hmod2 : v2 % 2 ^ 32 = v2 := Nat.mod_eq_of_lt hv2
  have hcast : sk_bit_cast_int32 v
      = if v < 2 ^ 31 then (v : Int) else (v : Int) - 2 ^ 32 := by
    simp only [sk_bit_cast_int32, hmod]
  have hcast2 : sk_bit_cast_int32 v2
      = if v2 < 2 ^ 31 then (v2 : Int) else (v2 : Int) - 2 ^ 32 := by
    simp only [sk_bit_cast_int32, hmod2]
  have hinj : v ≠ v2 → sk_bit_cast_int32 v ≠ sk_bit_cast_int32 v2 := by
    intro hne heq
    rw [hcast, hcast2] at heq
    apply hne
    split_ifs at heq <;> omega
  refine ⟨rfl, fun _ _ => rfl, ?_, ?_, hinj, ?_⟩
  · simp only [Builder.push_constant_u, hcast]
  · rw [hcast]
    split_ifs <;> constructor <;> omega
  · intro hne heq
    simp only [Builder.push_constant_u, push_back_nil, Builder.appended,
      Outcome.returned.injEq, Builder.mk.injEq, List.append_cancel_left_eq, List.cons.injEq,
      Instruction.mk.injEq, true_and, and_true] at heq
    exact hinj hne (by simpa using heq.2.1)

/-- Witness for C21: `push_constant_u(4294967295)` pushes -1 and `push_constant_u(7)`
pushes 7; a recording `push_constant_i` tells them apart. -/
theorem typed_pushes_reduce_to_push_constant_i_witness :
    sk_bit_cast_int32 4294967295 ≠ sk_bit_cast_int32 7 ∧
    Builder.push_constant_u sk_bit_cast_int32
        (fun val n => Builder.push_back .push_constant [] [n, val]) 4294967295 Builder.fresh
      = Builder.push_back .push_constant [] [1, -1] Builder.fresh :=
  ⟨(typed_pushes_reduce_to_push_constant_i (fun _ _ => pure ()) Builder.fresh 1
      4294967295 7 (by decide) (by decide)).2.2.2.2.1 (by decide),
    (typed_pushes_reduce_to_push_constant_i
      (fun val n => Builder.push_back .push_constant [] [n, val]) Builder.fresh 1
      4294967295 7 (by decide) (by decide)).2.2.1⟩

/-- C22: in every builder state, whatever the mask-write counter is, `trace_line(m, line)`,
`trace_enter(m, f)`, `trace_exit(m, f)` and `trace_scope(m, delta)` each return having
appended exactly one instruction of the same-named op with both slots `NA`, `fImmA = m`,
`fImmB` the second argument and the other immediates 0, and `trace_var(m, r)` returns
having appended one `trace_var` instruction with `fSlotA = r.index`, `fImmA = m` and
`fImmB = r.count`; the earlier instructions, the label count and the mask-write counter
are unchanged. -/
theorem trace_hooks_observational (b : Builder) (m line funcID delta : Int)
    (r : SlotRange) :
    Builder.trace_line m line b = .returned ()
      { fInstructions := b.fInstructions ++ [⟨.native "trace_line", NA, NA, m, line, 0, 0⟩],
        fNumLabels := b.fNumLabels,
        fExecutionMaskWritesEnabled := b.fExecutionMaskWritesEnabled } ∧
    Builder.trace_var m r b = .returned ()
      { fInstructions :=
          b.fInstructions ++ [⟨.native "trace_var", r.index, NA, m, r.count, 0, 0⟩],
        fNumLabels := b.fNumLabels,
        fExecutionMaskWritesEnabled := b.fExecutionMaskWritesEnabled } ∧
    Builder.trace_enter m funcID b = .returned ()
      { fInstructions :=
          b.fInstructions ++ [⟨.native "trace_enter", NA, NA, m, funcID, 0, 0⟩],
        fNumLabels := b.fNumLabels,
        fExecutionMaskWritesEnabled := b.fExecutionMaskWritesEnabled } ∧
    Builder.trace_exit m funcID b = .returned ()
      { fInstructions :=
          b.fInstructions ++ [⟨.native "trace_exit", NA, NA, m, funcID, 0, 0⟩],
        fNumLabels := b.fNumLabels,
        fExecutionMaskWritesEnabled := b.fExecutionMaskWritesEnabled } ∧
    Builder.trace_scope m delta b = .returned ()
      { fInstructions :=
          b.fInstructions ++ [⟨.native "trace_scope", NA, NA, m, delta, 0, 0⟩],
        fNumLabels := b.fNumLabels,
        fExecutionMaskWritesEnabled := b.fExecutionMaskWritesEnabled } ∧
    Builder.trace_line 0 7 Builder.fresh
      = .returned () ⟨[⟨.native "trace_line", NA, NA, 0, 7, 0, 0⟩], 0, 0⟩ :=
  ⟨rfl, rfl, rfl, rfl, rfl, rfl⟩

end SkSL.RP

namespace skgpu.graphite

/-! ## Characters of formatted numbers -/

theorem digitChar_ne (n : Nat) (c : Char) (hc : c = 't' ∨ c = '=' ∨ c = 's' ∨ c = ' ')
    (hn : n < 10) : Nat.digitChar n ≠ c := by
  rcases hc with rfl | rfl | rfl | rfl <;> interval_cases n <;> decide

theorem toDigitsCore_not_mem (c : Char) (hc : c = 't' ∨ c = '=' ∨ c = 's' ∨ c = ' ')
    (fuel : Nat) : ∀ (n : Nat) (ds : List Char), c ∉ ds → c ∉ Nat.toDigitsCore 10 fuel n ds := by
  induction fuel with
  | zero => intro n ds h; simpa [Nat.toDigitsCore] using h
  | succ fuel ih =>
    intro n ds h
    have hd : c ∉ Nat.digitChar (n % 10) :: ds := by
      intro hmem
      rcases List.mem_cons.mp hmem with h1 | h1
      · exact digitChar_ne (n % 10) c hc (Nat.mod_lt _ (by decide)) h1.symm
      · exact h h1
    simp only [Nat.toDigitsCore]
    split_ifs
    · exact hd
    · exact ih _ _ hd

theorem formatUInt_not_mem (c : Char) (hc : c = 't' ∨ c = '=' ∨ c = 's' ∨ c = ' ')
    (n : Nat) : c ∉ (formatUInt n).toList := by
  show c ∉ (Nat.toDigits 10 n).asString.toList
  simp only [List.asString, Nat.toDigits]
  exact toDigitsCore_not_mem c hc _ _ _ (by simp)

theorem formatInt_not_mem (c : Char) (hc : c = 't' ∨ c = '=' ∨ c = 's' ∨ c = ' ')
    (i : Int) : c ∉ (formatInt i).toList := by
  cases i with
  | ofNat m => exact formatUInt_not_mem c hc m
  | negSucc m =>
    show c ∉ ("-" ++ (Nat.toDigits 10 (m + 1)).asString).toList
    rw [String.toList, String.data_append]
    intro hmem
    rcases List.mem_append.mp hmem with h | h
    · rcases hc with rfl | rfl | rfl | rfl <;> simp at h
    · exact formatUInt_not_mem c hc (m + 1) h

/-! ## Sampler layouts (C24) -/

theorem not_pair_infix_append (a b : Char) (x y : List Char) (hx : ¬ [a, b] <:+: x)
    (hlast : x.getLast? ≠ some a) (hy : ¬ [a, b] <:+: y) : ¬ [a, b] <:+: x ++ y := by
  rintro ⟨s, t, h⟩
  rw [List.append_assoc] at h
  rcases List.append_eq_append_iff.mp h with ⟨m, hxm, hym⟩ | ⟨m, _, hym⟩
  · match m, hxm, hym with
    | [], _, hym => exact hy ⟨[], t, by simpa using hym⟩
    | [c], hxm, hym =>
      simp only [List.cons_append, List.nil_append, List.cons.injEq] at hym
      apply hlast
      rw [hxm, hym.1]
      simp
    | c :: d :: rest, hxm, hym =>
      simp only [List.cons_append, List.nil_append, List.cons.injEq] at hym
      apply hx
      rw [hxm, ← hym.1, ← hym.2.1]
      exact ⟨s, rest, by simp⟩
  · exact hy ⟨m, t, by rw [hym]; simp⟩

theorem not_pair_infix_of_not_mem (a b : Char) (x : List Char) (h : a ∉ x) :
    ¬ [a, b] <:+: x ∧ x.getLast? ≠ some a := by
  constructor
  · rintro ⟨s, t, hst⟩
    apply h
    rw [← hst]
    simp
  · intro hl
    exact h (List.mem_of_getLast?_eq_some hl)

/-- The text of a sampler layout without the `set=1, ` part never has `t` directly before
`=`. -/
theorem samplerLayout_no_set (b : Int) :
    ¬ ['t', '='] <:+:
        ("" ++ "layout(wgsl, " ++ "" ++ "sampler=" ++ formatInt b ++ ", texture="
          ++ formatInt (b + 1) ++ ")").toList ∧
    ¬ ['t', '='] <:+: ("" ++ "layout(" ++ "" ++ "binding=" ++ formatInt b ++ ")").toList := by
  have hb := not_pair_infix_of_not_mem 't' '=' _ (formatInt_not_mem 't' (Or.inl rfl) b)
  have hb1 := not_pair_infix_of_not_mem 't' '=' _
    (formatInt_not_mem 't' (Or.inl rfl) (b + 1))
  simp only [String.toList] at hb hb1
  constructor
  · simp only [String.toList, String.data_append, List.append_assoc]
    refine not_pair_infix_append _ _ _ _ (by decide) (by decide) ?_
    refine not_pair_infix_append _ _ _ _ (by decide) (by decide) ?_
    refine not_pair_infix_append _ _ _ _ (by decide) (by decide) ?_
    refine not_pair_infix_append _ _ _ _ (by decide) (by decide) ?_
    refine not_pair_infix_append _ _ _ _ hb.1 hb.2 ?_
    refine not_pair_infix_append _ _ _ _ (by decide) (by decide) ?_
    refine not_pair_infix_append _ _ _ _ hb1.1 hb1.2 (by decide)
  · simp only [String.toList, String.data_append, List.append_assoc]
    refine not_pair_infix_append _ _ _ _ (by decide) (by decide) ?_
    refine not_pair_infix_append _ _ _ _ (by decide) (by decide) ?_
    refine not_pair_infix_append _ _ _ _ (by decide) (by decide) ?_
    refine not_pair_infix_append _ _ _ _ (by decide) (by decide) ?_
    refine not_pair_infix_append _ _ _ _ hb.1 hb.2 (by decide)

theorem pair_within_of_set_within (l : List Char) (h : "set=1, ".toList <:+: l) :
    ['t', '='] <:+: l := by
  obtain ⟨s, t, hst⟩ := h
  exact ⟨s ++ ['s', 'e'], ['1', ',', ' '] ++ t, by rw [← hst]; simp [String.toList]⟩

/-- C24: for every starting value `b` of `*binding`: with
`fSeparateTextureAndSamplerBinding` set, `EmitSamplerLayout` names `sampler=b` and
`texture=b+1` and leaves `*binding` at `b + 2`; otherwise it names `binding=b` and leaves
`*binding` at `b + 1`; and in both cases its text contains `set=1, ` if and only if
`fDistinctIndexRanges` is false. -/
theorem emitSamplerLayout_bindings (bindingReqs : ResourceBindingRequirements) (b : Int) :
    (bindingReqs.fSeparateTextureAndSamplerBinding = true →
      EmitSamplerLayout bindingReqs b
        = ("" ++ "layout(wgsl, " ++ (if bindingReqs.fDistinctIndexRanges then "" else "set=1, ")
            ++ "sampler=" ++ formatInt b ++ ", texture=" ++ formatInt (b + 1) ++ ")",
           b + 2)) ∧
    (bindingReqs.fSeparateTextureAndSamplerBinding = false →
      EmitSamplerLayout bindingReqs b
        = ("" ++ "layout(" ++ (if bindingReqs.fDistinctIndexRanges then "" else "set=1, ")
            ++ "binding=" ++ formatInt b ++ ")",
           b + 1)) ∧
    ("set=1, ".toList <:+: (EmitSamplerLayout bindingReqs b).1.toList
      ↔ bindingReqs.fDistinctIndexRanges = false) := by
  refine ⟨?_, ?_, ?_⟩
  · intro h
    simp only [EmitSamplerLayout, h, if_true, Prod.mk.injEq, true_and]
    omega
  · intro h
    simp [EmitSamplerLayout, h]
  · have hno := samplerLayout_no_set b
    obtain ⟨distinct, separate⟩ := bindingReqs
    cases distinct <;> cases separate
    · simp only [EmitSamplerLayout, iff_true]
      exact ⟨"layout(".toList, ("binding=" ++ formatInt b ++ ")").toList,
        by simp [String.toList, String.data_append]⟩
    · simp only [EmitSamplerLayout, iff_true]
      exact ⟨"layout(wgsl, ".toList,
        ("sampler=" ++ formatInt b ++ ", texture=" ++ formatInt (b + 1) ++ ")").toList,
        by simp [String.toList, String.data_append]⟩
    · simp only [EmitSamplerLayout, Bool.true_eq_false, iff_false]
      exact fun h => hno.2 (pair_within_of_set_within _ h)
    · simp only [EmitSamplerLayout, Bool.true_eq_false, iff_false]
      exact fun h => hno.1 (pair_within_of_set_within _ h)

/-- Witness for C24: separate texture and sampler bindings from binding 3, without distinct
index ranges. -/
theorem emitSamplerLayout_bindings_witness :
    EmitSamplerLayout ⟨false, true⟩ 3
      = ("" ++ "layout(wgsl, " ++ (if (⟨false, true⟩ : ResourceBindingRequirements
            ).fDistinctIndexRanges then "" else "set=1, ")
            ++ "sampler=" ++ formatInt 3 ++ ", texture=" ++ formatInt (3 + 1) ++ ")",
          3 + 2) ∧
    EmitSamplerLayout ⟨false, true⟩ 3 = ("layout(wgsl, set=1, sampler=3, texture=4)", 5) :=
  ⟨(emitSamplerLayout_bindings ⟨false, true⟩ 3).1 rfl, by decide⟩

/-! ## Varyings (C26) -/

theorem emitVaryings_loop_eq {T : Type} (types : SkSLTypeInfo T) (direction : String)
    (vs : List (Varying T)) :
    ∀ (location : Int) (result : String),
      EmitVaryings_loop types direction vs location result
        = result ++ varyingLines direction
            (vs.map fun v => (types.SkSLTypeString v.fType, v.fName)) location := by
  induction vs with
  | nil => intro location result; simp [EmitVaryings_loop, varyingLines]
  | cons v rest ih =>
    intro location result
    simp only [EmitVaryings_loop, ih, List.map_cons, varyingLines, varyingLine,
      String.append_assoc]

/-- C26: `EmitVaryings` declares, at the consecutive locations 0, 1, 2, ... with no gap and
no repeat, `shadingSsboIndexVar` (only if `emitShadingSsboIndexVarying`), `localCoordsVar`
(only if `emitLocalCoordsVarying`), then the step's varyings in their declared order. The
number of declarations is the number of set flags plus the number of step varyings, the
`i`-th step varying is the declaration at position `i` plus the number of set flags, and
the declarations and their locations are the same for every direction (`in`, `out`). -/
theorem emitVaryings_locations {T : Type} (types : SkSLTypeInfo T) (step : RenderStep T)
    (direction : String) (emitShadingSsboIndexVarying emitLocalCoordsVarying : Bool) :
    EmitVaryings types step direction emitShadingSsboIndexVarying emitLocalCoordsVarying
      = varyingLines direction
          (varyingDecls types step emitShadingSsboIndexVarying emitLocalCoordsVarying) 0 ∧
    (varyingDecls types step emitShadingSsboIndexVarying emitLocalCoordsVarying).length
      = (emitShadingSsboIndexVarying.toNat + emitLocalCoordsVarying.toNat)
        + step.varyings.length ∧
    (∀ (i : Nat) (v : Varying T), step.varyings[i]? = some v →
      (varyingDecls types step emitShadingSsboIndexVarying emitLocalCoordsVarying)[
          i + (emitShadingSsboIndexVarying.toNat + emitLocalCoordsVarying.toNat)]?
        = some (types.SkSLTypeString v.fType, v.fName)) ∧
    (∀ (decls : List (String × String)) (decl : String × String) (location : Int),
      varyingLines direction (decl :: decls) location
        = varyingLine direction location decl
          ++ varyingLines direction decls (location + 1)) := by
  refine ⟨?_, ?_, ?_, fun _ _ _ => rfl⟩
  · cases emitShadingSsboIndexVarying <;> cases emitLocalCoordsVarying <;>
      simp only [EmitVaryings, emitVaryings_loop_eq, varyingDecls, varyingLines, varyingLine,
        String.append_assoc, String.empty_append, String.append_empty, if_true, if_false,
        Bool.false_eq_true, List.nil_append, List.cons_append, List.singleton_append,
        zero_add, Int.reduceAdd] <;>
      (apply String.ext; simp [String.data_append])
  · cases emitShadingSsboIndexVarying <;> cases emitLocalCoordsVarying <;>
      simp [varyingDecls, Bool.toNat] <;> omega
  · intro i v hv
    have hmap : (step.varyings.map fun v =>
        (types.SkSLTypeString v.fType, v.fName))[i]?
          = some (types.SkSLTypeString v.fType, v.fName) := by
      rw [List.getElem?_map, hv]; rfl
    cases emitShadingSsboIndexVarying <;> cases emitLocalCoordsVarying <;>
      simp [varyingDecls, Bool.toNat, hmap, List.getElem?_cons_succ]

/-- Witness for C26: a step with one varying, both flags set, declared as outputs. -/
theorem emitVaryings_locations_witness :
    (varyingDecls (⟨id, "float2"⟩ : SkSLTypeInfo String) ⟨[⟨"color", "half4"⟩]⟩ true true)[
        0 + (true.toNat + true.toNat)]? = some ("half4", "color") ∧
    EmitVaryings (⟨id, "float2"⟩ : SkSLTypeInfo String) ⟨[⟨"color", "half4"⟩]⟩ "out" true
        true
      = "    layout(location=0) out int shadingSsboIndexVar;\n" ++
        "    layout(location=1) out float2 localCoordsVar;\n" ++
        "    layout(location=2) out half4 color;\n" :=
  ⟨(emitVaryings_locations (⟨id, "float2"⟩ : SkSLTypeInfo String) ⟨[⟨"color", "half4"⟩]⟩
      "out" true true).2.2.1 0 ⟨"color", "half4"⟩ rfl, by decide⟩

/-! ## Textures and samplers (C25) -/

theorem emitSamplerLayout_next (bindingReqs : ResourceBindingRequirements) (x : Int) :
    (EmitSamplerLayout bindingReqs x).2 = x + bindingsPerSampler bindingReqs := by
  unfold EmitSamplerLayout bindingsPerSampler
  by_cases h : bindingReqs.fSeparateTextureAndSamplerBinding = true
  · simp only [h, if_true]; omega
  · simp [h]

theorem emitTexturesAndSamplers_samplers_eq (bindingReqs : ResourceBindingRequirements)
    (b : Int) (i : Int) (ts : List TextureAndSampler) :
    ∀ (n : Nat) (result : String),
      EmitTexturesAndSamplers_samplers bindingReqs i ts
          (b + bindingsPerSampler bindingReqs * n) result
        = (result ++ samplerDecls bindingReqs b i ts n,
           b + bindingsPerSampler bindingReqs * ((n + ts.length : Nat) : Int)) := by
  induction ts with
  | nil =>
    intro n result
    simp [EmitTexturesAndSamplers_samplers, samplerDecls]
  | cons t rest ih =>
    intro n result
    have hnext : (EmitSamplerLayout bindingReqs (b + bindingsPerSampler bindingReqs * n)).2
        = b + bindingsPerSampler bindingReqs * ((n + 1 : Nat) : Int) := by
      rw [emitSamplerLayout_next]
      push_cast
      ring
    simp only [EmitTexturesAndSamplers_samplers, hnext, ih, samplerDecls,
      String.append_assoc, List.length_cons, Prod.mk.injEq, true_and]
    congr 2
    omega

theorem emitTexturesAndSamplers_loop_eq {T : Type}
    (bindingReqs : ResourceBindingRequirements) (b : Int) (readers : List (BlockReader T)) :
    ∀ (i : Int) (n : Nat) (result : String),
      EmitTexturesAndSamplers_loop bindingReqs readers i
          (b + bindingsPerSampler bindingReqs * n) result
        = (result ++ texturesAndSamplersText bindingReqs b readers i n,
           b + bindingsPerSampler bindingReqs * ((n + samplerCount readers : Nat) : Int)) := by
  induction readers with
  | nil =>
    intro i n result
    simp [EmitTexturesAndSamplers_loop, texturesAndSamplersText, samplerCount]
  | cons reader rest ih =>
    intro i n result
    have hcount : samplerCount (reader :: rest)
        = reader.entry.fTexturesAndSamplers.length + samplerCount rest := by
      simp [samplerCount]
    by_cases hempty : reader.entry.fTexturesAndSamplers.isEmpty = true
    · have hlen : reader.entry.fTexturesAndSamplers.length = 0 := by
        simpa [List.isEmpty_iff] using hempty
      simp only [EmitTexturesAndSamplers_loop, hempty, Bool.not_true, Bool.false_eq_true,
        if_false, if_true, texturesAndSamplersText, hlen, Nat.add_zero, ih, hcount,
        Nat.zero_add, String.empty_append]
    · simp only [Bool.not_eq_true] at hempty
      simp only [EmitTexturesAndSamplers_loop, hempty, Bool.not_false, if_true,
        Bool.false_eq_true, if_false, texturesAndSamplersText, hcount,
        emitTexturesAndSamplers_samplers_eq, ih, String.append_assoc, Prod.mk.injEq, true_and]
      congr 2
      omega

/-- C25: for every list of readers and starting binding `b`, `EmitTexturesAndSamplers`
emits, in reader order and then sampler order, the declaration of sampler number `n`
(counting from 0 over all readers) with the layout at binding `b + k * n`, where `k` is 2
with separate texture and sampler bindings and 1 otherwise, and it leaves `*binding` at
`b + k * N` for `N` samplers in total. Sampler `n` takes the bindings from `b + k * n` up
to but not including `b + k * (n + 1)`, so a later sampler starts at or after the point
where an earlier one ends and no binding index is used twice. A reader without samplers
contributes no text. -/
theorem emitTexturesAndSamplers_bindings {T : Type}
    (bindingReqs : ResourceBindingRequirements) (readers : List (BlockReader T)) (b : Int) :
    EmitTexturesAndSamplers bindingReqs readers b
      = (texturesAndSamplersText bindingReqs b readers 0 0,
         b + bindingsPerSampler bindingReqs * (samplerCount readers : Int)) ∧
    bindingsPerSampler bindingReqs
      = (if bindingReqs.fSeparateTextureAndSamplerBinding then 2 else 1) ∧
    (∀ n : Nat,
      (EmitSamplerLayout bindingReqs (b + bindingsPerSampler bindingReqs * n)).2
        = b + bindingsPerSampler bindingReqs * ((n + 1 : Nat) : Int)) ∧
    (∀ n m : Nat, n < m →
      (EmitSamplerLayout bindingReqs (b + bindingsPerSampler bindingReqs * n)).2
        ≤ b + bindingsPerSampler bindingReqs * m) ∧
    (∀ (reader : BlockReader T) (rest : List (BlockReader T)) (i : Int) (n : Nat),
      reader.entry.fTexturesAndSamplers = [] →
      texturesAndSamplersText bindingReqs b (reader :: rest) i n
        = texturesAndSamplersText bindingReqs b rest (i + 1) n) := by
  have hk : 0 < bindingsPerSampler bindingReqs := by
    unfold bindingsPerSampler
    split_ifs <;> decide
  have hnext : ∀ n : Nat,
      (EmitSamplerLayout bindingReqs (b + bindingsPerSampler bindingReqs * n)).2
        = b + bindingsPerSampler bindingReqs * ((n + 1 : Nat) : Int) := by
    intro n
    rw [emitSamplerLayout_next]
    push_cast
    ring
  refine ⟨?_, rfl, hnext, ?_, ?_⟩
  · have h := emitTexturesAndSamplers_loop_eq bindingReqs b readers 0 0 ""
    simp only [Nat.cast_zero, mul_zero, add_zero, Nat.zero_add, String.empty_append] at h
    exact h
  · intro n m hnm
    rw [hnext]
    have h1 : ((n + 1 : Nat) : Int) ≤ (m : Int) := by exact_mod_cast hnm
    have := mul_le_mul_of_nonneg_left h1 (le_of_lt hk)
    omega
  · intro reader rest i n hempty
    simp [texturesAndSamplersText, hempty]

/-- Witness for C25: two readers with samplers around one without, separate texture and
sampler bindings, starting at binding 4. -/
theorem emitTexturesAndSamplers_bindings_witness :
    EmitTexturesAndSamplers ⟨true, true⟩
        ([⟨⟨"image", [], [⟨"tex"⟩, ⟨"lut"⟩]⟩⟩, ⟨⟨"solid", [], []⟩⟩,
          ⟨⟨"blend", [], [⟨"dst"⟩]⟩⟩] : List (BlockReader String)) 4
      = ("// image samplers\n" ++
         "layout(wgsl, sampler=4, texture=5) uniform sampler2D tex_0;\n" ++
         "layout(wgsl, sampler=6, texture=7) uniform sampler2D lut_0;\n" ++
         "// blend samplers\n" ++
         "layout(wgsl, sampler=8, texture=9) uniform sampler2D dst_2;\n", 10) ∧
    (EmitSamplerLayout ⟨true, true⟩ (4 + bindingsPerSampler ⟨true, true⟩ * (0 : Nat))).2
      ≤ 4 + bindingsPerSampler ⟨true, true⟩ * (2 : Nat) :=
  ⟨rfl,
    (emitTexturesAndSamplers_bindings ⟨true, true⟩
      ([⟨⟨"image", [], [⟨"tex"⟩, ⟨"lut"⟩]⟩⟩, ⟨⟨"solid", [], []⟩⟩,
        ⟨⟨"blend", [], [⟨"dst"⟩]⟩⟩] : List (BlockReader String)) 4).2.2.2.1 0 2 (by decide)⟩

/-! ## Uniform declarations (C23, C27, C28) -/

/-- The loop of `get_uniforms` appends one line per uniform, with the offset the calculator
gives; the name carries the suffix `_<manglingSuffix>` exactly when `manglingSuffix` is not
negative. -/
theorem get_uniforms_loop_eq {L T σ : Type} (types : SkSLTypeInfo T)
    (calculator : UniformOffsetCalculator L T σ) (manglingSuffix : Int)
    (us : List (Uniform T)) :
    ∀ (offsetter : σ) (result : String),
      get_uniforms_loop types calculator manglingSuffix us offsetter result
        = (result ++ renderOffsetFields (offsetFields calculator
            (if manglingSuffix ≥ 0 then mangledField types manglingSuffix
             else plainField types) us offsetter),
           offsetterAfter calculator us offsetter) := by
  induction us with
  | nil =>
    intro offsetter result
    simp [get_uniforms_loop, offsetFields, renderOffsetFields, offsetterAfter]
  | cons u rest ih =>
    intro offsetter result
    by_cases hm : manglingSuffix ≥ 0 <;> by_cases hc : u.count = 0 <;>
      simp only [get_uniforms_loop, ih, offsetFields, renderOffsetFields, offsetterAfter, hm,
        hc, if_true, if_false, ne_eq, not_true_eq_false, not_false_eq_true, mangledField,
        plainField, arraySuffix, String.append_assoc, String.append_empty]

theorem get_uniforms_eq {L T σ : Type} (types : SkSLTypeInfo T)
    (calculator : UniformOffsetCalculator L T σ) (layout : L) (us : List (Uniform T))
    (offset manglingSuffix : Int) :
    get_uniforms types calculator layout us offset manglingSuffix
      = (renderOffsetFields (offsetFields calculator
            (if manglingSuffix ≥ 0 then mangledField types manglingSuffix
             else plainField types) us (calculator.make layout offset)),
         sizeAfter calculator layout offset us) := by
  simp only [get_uniforms, get_uniforms_loop_eq, String.empty_append, sizeAfter]

theorem emitPaintParamsUniforms_loop_eq {L T σ : Type} (types : SkSLTypeInfo T)
    (calculator : UniformOffsetCalculator L T σ) (layout : L)
    (readers : List (BlockReader T)) :
    ∀ (i offset : Int) (result : String), 0 ≤ i →
      EmitPaintParamsUniforms_loop types calculator layout readers i offset result
        = result ++ renderOffsetBlocks
            (offsetFieldBlocks types calculator layout readers i offset) := by
  induction readers with
  | nil =>
    intro i offset result _
    simp [EmitPaintParamsUniforms_loop, offsetFieldBlocks, renderOffsetBlocks]
  | cons reader rest ih =>
    intro i offset result hi
    have hi1 : 0 ≤ i + 1 := by omega
    have hge : i ≥ 0 := hi
    by_cases hempty : reader.entry.fUniforms.isEmpty = true
    · simp only [EmitPaintParamsUniforms_loop, hempty, Bool.not_true, Bool.false_eq_true,
        if_false, if_true, offsetFieldBlocks, ih _ _ _ hi1]
    · simp only [Bool.not_eq_true] at hempty
      simp only [EmitPaintParamsUniforms_loop, hempty, Bool.not_false, if_true,
        Bool.false_eq_true, if_false, offsetFieldBlocks, ih _ _ _ hi1, get_uniforms_eq, hge,
        renderOffsetBlocks, String.append_assoc]

theorem emitPaintParamsUniforms_eq {L T σ : Type} (types : SkSLTypeInfo T)
    (calculator : UniformOffsetCalculator L T σ) (bufferID : Int) (name : String)
    (layout : L) (readers : List (BlockReader T)) :
    EmitPaintParamsUniforms types calculator bufferID name layout readers
      = get_uniform_header bufferID name
        ++ renderOffsetBlocks (offsetFieldBlocks types calculator layout readers 0 0)
        ++ "\x7d;\n\n" := by
  simp only [EmitPaintParamsUniforms, emitPaintParamsUniforms_loop_eq _ _ _ _ _ _ _
    (le_refl (0 : Int))]

theorem emitPaintParamsStorageBuffer_fields_eq {T : Type} (types : SkSLTypeInfo T)
    (manglingSuffix : Int) (us : List (Uniform T)) :
    ∀ (result : String),
      EmitPaintParamsStorageBuffer_fields types manglingSuffix us result
        = result ++ renderFields (us.map (mangledField types manglingSuffix)) := by
  induction us with
  | nil =>
    intro result
    simp [EmitPaintParamsStorageBuffer_fields, renderFields]
  | cons u rest ih =>
    intro result
    by_cases hc : u.count = 0 <;>
      simp only [EmitPaintParamsStorageBuffer_fields, ih, List.map_cons, renderFields, hc,
        if_true, if_false, ne_eq, not_true_eq_false, not_false_eq_true, mangledField,
        arraySuffix, String.append_assoc, String.append_empty]

theorem emitPaintParamsStorageBuffer_loop_eq {T : Type} (types : SkSLTypeInfo T)
    (readers : List (BlockReader T)) :
    ∀ (i : Int) (result : String),
      EmitPaintParamsStorageBuffer_loop types readers i result
        = result ++ renderBlocks (fieldBlocks types readers i) := by
  induction readers with
  | nil =>
    intro i result
    simp [EmitPaintParamsStorageBuffer_loop, fieldBlocks, renderBlocks]
  | cons reader rest ih =>
    intro i result
    by_cases hempty : reader.entry.fUniforms.isEmpty = true
    · simp only [EmitPaintParamsStorageBuffer_loop, hempty, if_true, fieldBlocks, ih]
    · simp only [Bool.not_eq_true] at hempty
      simp only [EmitPaintParamsStorageBuffer_loop, hempty, Bool.false_eq_true, if_false,
        fieldBlocks, ih, emitPaintParamsStorageBuffer_fields_eq, renderBlocks,
        String.append_assoc]

theorem offsetFields_map_snd {L T σ : Type} (calculator : UniformOffsetCalculator L T σ)
    (field : Uniform T → String) (us : List (Uniform T)) :
    ∀ (offsetter : σ),
      (offsetFields calculator field us offsetter).map Prod.snd = us.map field := by
  induction us with
  | nil => intro offsetter; rfl
  | cons u rest ih => intro offsetter; simp only [offsetFields, List.map_cons, ih]

theorem offsetFieldBlocks_fields {L T σ : Type} (types : SkSLTypeInfo T)
    (calculator : UniformOffsetCalculator L T σ) (layout : L)
    (readers : List (BlockReader T)) :
    ∀ (i offset : Int),
      (offsetFieldBlocks types calculator layout readers i offset).map
          (fun block => (block.1, block.2.map Prod.snd))
        = fieldBlocks types readers i := by
  induction readers with
  | nil => intro i offset; rfl
  | cons reader rest ih =>
    intro i offset
    by_cases hempty : reader.entry.fUniforms.isEmpty = true
    · simp only [offsetFieldBlocks, fieldBlocks, hempty, if_true, ih]
    · simp only [Bool.not_eq_true] at hempty
      simp only [offsetFieldBlocks, fieldBlocks, hempty, Bool.false_eq_true, if_false,
        List.map_cons, ih, offsetFields_map_snd]

theorem fieldBlocks_eq_enumFrom {T : Type} (types : SkSLTypeInfo T)
    (readers : List (BlockReader T)) :
    ∀ (k : Nat),
      fieldBlocks types readers (k : Int)
        = ((readers.enumFrom k).filter (fun p => !p.2.entry.fUniforms.isEmpty)).map
            (fun p => (p.2.entry.fName,
              p.2.entry.fUniforms.map (mangledField types (p.1 : Int)))) := by
  induction readers with
  | nil => intro k; rfl
  | cons reader rest ih =>
    intro k
    have hk : ((k : Int) + 1) = ((k + 1 : Nat) : Int) := by push_cast; rfl
    by_cases hempty : reader.entry.fUniforms.isEmpty = true
    · simp only [fieldBlocks, hempty, if_true, List.enumFrom_cons, hk, ih]
      simp [List.filter_cons, hempty]
    · simp only [fieldBlocks, hempty, if_false, List.enumFrom_cons, hk, ih]
      simp [List.filter_cons, hempty]

theorem fieldBlocks_eq_indexed {T : Type} (types : SkSLTypeInfo T)
    (readers : List (BlockReader T)) :
    fieldBlocks types readers 0 = indexedFieldBlocks types readers := by
  have h := fieldBlocks_eq_enumFrom types readers 0
  simpa [indexedFieldBlocks] using h

/-- C23, counterexample: for a step with the one uniform `float2 rtSize`,
`EmitRenderStepUniforms(1, "Step", ...)` declares it under the name `rtSize` itself, directly
followed by `;`: the text has no `_` in it at all, so no name carries a suffix `_<n>`. -/
theorem renderStep_uniforms_not_mangled_counterexample :
    EmitRenderStepUniforms namedTypes sixteenByteCalculator 1 "Step" ()
        [⟨"rtSize", "float2", 0⟩]
      = "layout (binding=1) uniform StepUniforms \x7b\n" ++
        "    layout(offset=0) float2 rtSize;\n" ++
        "\x7d;\n\n" ∧
    '_' ∉ (EmitRenderStepUniforms namedTypes sixteenByteCalculator 1 "Step" ()
        [⟨"rtSize", "float2", 0⟩]).toList := by
  constructor
  · rfl
  · have h : EmitRenderStepUniforms namedTypes sixteenByteCalculator 1 "Step" ()
        [⟨"rtSize", "float2", 0⟩]
      = "layout (binding=1) uniform StepUniforms \x7b\n    layout(offset=0) float2 rtSize;\n\x7d;\n\n" :=
      rfl
    rw [h]
    decide

/-- C23, amended: `EmitRenderStepUniforms` calls `get_uniforms` with the mangling suffix
-1, so the uniforms of a RenderStep are declared under their own names: the text is the
header, one line `layout(offset=o) <type> <name>` (plus `[count]` when the count is not
zero) per uniform, and the closing line. `get_uniforms` appends a suffix `_<n>` to the names
only when it is called with a mangling suffix `n` that is not negative. -/
theorem emitRenderStepUniforms_unmangled {L T σ : Type} (types : SkSLTypeInfo T)
    (calculator : UniformOffsetCalculator L T σ) (bufferID : Int) (name : String)
    (layout : L) (uniforms : List (Uniform T)) :
    EmitRenderStepUniforms types calculator bufferID name layout uniforms
      = get_uniform_header bufferID name
        ++ renderOffsetFields
            (offsetFields calculator (plainField types) uniforms (calculator.make layout 0))
        ++ "\x7d;\n\n" ∧
    (∀ u : Uniform T, plainField types u
      = types.SkSLTypeString u.type ++ " " ++ u.name
        ++ (if u.count ≠ 0 then "[" ++ formatUInt u.count ++ "]" else "")) ∧
    (∀ offset n : Int,
      (get_uniforms types calculator layout uniforms offset n).1
        = renderOffsetFields (offsetFields calculator
            (if n ≥ 0 then mangledField types n else plainField types) uniforms
            (calculator.make layout offset))) := by
  refine ⟨?_, fun _ => rfl, fun offset n => ?_⟩
  · have hneg : ¬ ((-1 : Int) ≥ 0) := by decide
    simp only [EmitRenderStepUniforms, get_uniforms_eq, hneg, if_false]
  · simp only [get_uniforms_eq]

/-- C27: the text of `EmitPaintParamsUniforms` is the header, the blocks of the readers and
the closing line, where the blocks thread one running offset, starting at 0: a reader
without uniforms gives no comment line and no declaration and hands the offset on
unchanged; a reader with uniforms gives its comment line and its declarations, with offsets
computed by a calculator started at the running offset, and hands on the size that
calculator reports; each uniform of the reader at index `i` is declared as its type, its
name followed by `_<i>`, and `[count]` exactly when its count is not zero. -/
theorem emitPaintParamsUniforms_threads_offset {L T σ : Type} (types : SkSLTypeInfo T)
    (calculator : UniformOffsetCalculator L T σ) (bufferID : Int) (name : String)
    (layout : L) (readers : List (BlockReader T)) :
    EmitPaintParamsUniforms types calculator bufferID name layout readers
      = get_uniform_header bufferID name
        ++ renderOffsetBlocks (offsetFieldBlocks types calculator layout readers 0 0)
        ++ "\x7d;\n\n" ∧
    (∀ (reader : BlockReader T) (rest : List (BlockReader T)) (i offset : Int)
        (result : String), reader.entry.fUniforms = [] →
      EmitPaintParamsUniforms_loop types calculator layout (reader :: rest) i offset result
        = EmitPaintParamsUniforms_loop types calculator layout rest (i + 1) offset result) ∧
    (∀ (reader : BlockReader T) (rest : List (BlockReader T)) (i offset : Int)
        (result : String), 0 ≤ i → reader.entry.fUniforms ≠ [] →
      EmitPaintParamsUniforms_loop types calculator layout (reader :: rest) i offset result
        = EmitPaintParamsUniforms_loop types calculator layout rest (i + 1)
            (calculator.size (offsetterAfter calculator reader.entry.fUniforms
              (calculator.make layout offset)))
            (result ++ "// " ++ reader.entry.fName ++ " uniforms\n"
              ++ renderOffsetFields (offsetFields calculator (mangledField types i)
                  reader.entry.fUniforms (calculator.make layout offset)))) ∧
    (∀ (i : Int) (u : Uniform T), mangledField types i u
      = types.SkSLTypeString u.type ++ " " ++ u.name ++ "_" ++ formatInt i
        ++ (if u.count ≠ 0 then "[" ++ formatUInt u.count ++ "]" else "")) := by
  refine ⟨emitPaintParamsUniforms_eq types calculator bufferID name layout readers, ?_, ?_,
    fun _ _ => rfl⟩
  · intro reader rest i offset result hempty
    simp [EmitPaintParamsUniforms_loop, hempty]
  · intro reader rest i offset result hi hne
    have hge : i ≥ 0 := hi
    have hempty : reader.entry.fUniforms.isEmpty = false := by
      cases h : reader.entry.fUniforms with
      | nil => exact absurd h hne
      | cons _ _ => rfl
    simp only [EmitPaintParamsUniforms_loop, hempty, Bool.not_false, if_true,
      get_uniforms_eq, hge, sizeAfter, String.append_assoc]

theorem emitPaintParamsUniforms_threads_offset_witness :
    EmitPaintParamsUniforms namedTypes sixteenByteCalculator 2 "FS" ()
        [⟨⟨"gradient", [⟨"colors", "float4", 4⟩, ⟨"radius", "float", 0⟩], []⟩⟩,
          ⟨⟨"solid", [], []⟩⟩, ⟨⟨"blend", [⟨"mode", "int", 0⟩], []⟩⟩]
      = "layout (binding=2) uniform FSUniforms \x7b\n" ++
        "// gradient uniforms\n" ++
        "    layout(offset=0) float4 colors_0[4];\n" ++
        "    layout(offset=64) float radius_0;\n" ++
        "// blend uniforms\n" ++
        "    layout(offset=80) int mode_2;\n" ++
        "\x7d;\n\n" ∧
    EmitPaintParamsUniforms_loop namedTypes sixteenByteCalculator ()
        [⟨⟨"solid", [], []⟩⟩, ⟨⟨"blend", [⟨"mode", "int", 0⟩], []⟩⟩] 1 80 "x"
      = EmitPaintParamsUniforms_loop namedTypes sixteenByteCalculator ()
        [⟨⟨"blend", [⟨"mode", "int", 0⟩], []⟩⟩] (1 + 1) 80 "x" :=
  ⟨rfl,
    (emitPaintParamsUniforms_threads_offset namedTypes sixteenByteCalculator 2 "FS" ()
      [⟨⟨"gradient", [⟨"colors", "float4", 4⟩, ⟨"radius", "float", 0⟩], []⟩⟩,
        ⟨⟨"solid", [], []⟩⟩, ⟨⟨"blend", [⟨"mode", "int", 0⟩], []⟩⟩]).2.1
      ⟨⟨"solid", [], []⟩⟩ [⟨⟨"blend", [⟨"mode", "int", 0⟩], []⟩⟩] 1 80 "x" rfl⟩

/-- C28: for every list of readers, the text of `EmitPaintParamsStorageBuffer` and the text
of `EmitPaintParamsUniforms` render the same sequence of mangled field declarations, in the
same order: the storage struct renders the blocks `fieldBlocks`, the uniform block renders
blocks that are `fieldBlocks` once the offset of each `layout(offset=...)` prefix is
dropped; these blocks hold, for each reader with uniforms in list order and with `i` its
index in the list, the declarations type, `<name>_<i>` and `[count]` exactly when the count
is not zero; readers without uniforms are in neither. -/
theorem paintParams_field_declarations_agree {L T σ : Type} (types : SkSLTypeInfo T)
    (calculator : UniformOffsetCalculator L T σ) (uniformBufferID storageBufferID : Int)
    (name bufferTypePrefix bufferNamePrefix : String) (layout : L)
    (readers : List (BlockReader T)) :
    EmitPaintParamsStorageBuffer types storageBufferID bufferTypePrefix bufferNamePrefix
        readers
      = "struct " ++ bufferTypePrefix ++ "UniformData \x7b\n"
        ++ renderBlocks (fieldBlocks types readers 0)
        ++ "\x7d;\n\n"
        ++ "layout (binding=" ++ formatInt storageBufferID ++ ") buffer " ++ bufferTypePrefix
        ++ "Uniforms \x7b\n" ++ "    " ++ bufferTypePrefix ++ "UniformData " ++ bufferNamePrefix
        ++ "UniformData[];\n" ++ "\x7d;\n" ∧
    EmitPaintParamsUniforms types calculator uniformBufferID name layout readers
      = get_uniform_header uniformBufferID name
        ++ renderOffsetBlocks (offsetFieldBlocks types calculator layout readers 0 0)
        ++ "\x7d;\n\n" ∧
    (offsetFieldBlocks types calculator layout readers 0 0).map
        (fun block => (block.1, block.2.map Prod.snd))
      = fieldBlocks types readers 0 ∧
    fieldBlocks types readers 0 = indexedFieldBlocks types readers ∧
    (∀ (i : Int) (u : Uniform T), mangledField types i u
      = types.SkSLTypeString u.type ++ " " ++ u.name ++ "_" ++ formatInt i
        ++ (if u.count ≠ 0 then "[" ++ formatUInt u.count ++ "]" else "")) := by
  refine ⟨?_, emitPaintParamsUniforms_eq types calculator uniformBufferID name layout readers,
    offsetFieldBlocks_fields types calculator layout readers 0 0,
    fieldBlocks_eq_indexed types readers, fun _ _ => rfl⟩
  simp only [EmitPaintParamsStorageBuffer, emitPaintParamsStorageBuffer_loop_eq,
    String.append_assoc, String.empty_append]

end skgpu.graphite
